import Mathlib

/-!
# green-api gateway: request normalisation, validation and the upstream client

A shallow embedding of `internal/service/service.go`,
`internal/greenapi/client.go` and the configuration types of
`internal/config/config.go`, together with the parts of the libraries they
call: `strings`, `unicode/utf8`, `unicode`, `path` and `net/url` of the Go
standard library, and the circuit breaker of `github.com/sony/gobreaker`.

Go strings are byte sequences; they are modelled as lists of byte values.
Go results of the shape `(value, error)` are kept as pairs, the error being
`none` for `nil`. The client acts on surroundings (the breaker, the HTTP
transport, the clock, the caller's context) that are passed as a state, and
each call returns the list of what it did to them.
-/

set_option autoImplicit false

namespace GreenAPI

/-- A Go `string`: a sequence of bytes, each a number below 256. -/
abbrev GoString := List Nat

/-- The bytes of an ASCII literal. -/
def str (s : String) : GoString := s.toList.map Char.toNat

/-- A Go `rune`. -/
abbrev Rune := Nat

/-! ## package `unicode/utf8` -/

namespace utf8

def RuneError : Rune := 0xFFFD
def RuneSelf : Nat := 0x80
def UTFMax : Nat := 4

/-- Continuation byte bounds `locb` and `hicb`. -/
def locb : Nat := 0x80
def hicb : Nat := 0xBF

/-- The table `first` combined with `acceptRanges`: for a lead byte, the
sequence length and the accepted range of the second byte; `none` for the
entries marked `xx` (invalid lead bytes). ASCII bytes are handled before
the table is consulted. -/
def leadInfo (b : Nat) : Option (Nat × Nat × Nat) :=
  if 0xC2 ≤ b ∧ b ≤ 0xDF then some (2, locb, hicb)
  else if b = 0xE0 then some (3, 0xA0, hicb)
  else if 0xE1 ≤ b ∧ b ≤ 0xEC then some (3, locb, hicb)
  else if b = 0xED then some (3, locb, 0x9F)
  else if 0xEE ≤ b ∧ b ≤ 0xEF then some (3, locb, hicb)
  else if b = 0xF0 then some (4, 0x90, hicb)
  else if 0xF1 ≤ b ∧ b ≤ 0xF3 then some (4, locb, hicb)
  else if b = 0xF4 then some (4, locb, 0x8F)
  else none

/-- The function `utf8.DecodeRuneInString`: the first rune of `s` and its
width in bytes; `(RuneError, 0)` for the empty string and `(RuneError, 1)`
for an invalid encoding. -/
def DecodeRuneInString (s : GoString) : Rune × Nat :=
  match s with
  | [] => (RuneError, 0)
  | s0 :: rest =>
    if s0 < RuneSelf then (s0, 1)
    else
      match leadInfo s0 with
      | none => (RuneError, 1)
      | some (sz, lo, hi) =>
        if s.length < sz then (RuneError, 1)
        else
          match rest with
          | [] => (RuneError, 1)
          | s1 :: rest1 =>
            if s1 < lo ∨ hi < s1 then (RuneError, 1)
            else if sz ≤ 2 then ((s0 % 32) * 64 + s1 % 64, 2)
            else
              match rest1 with
              | [] => (RuneError, 1)
              | s2 :: rest2 =>
                if s2 < locb ∨ hicb < s2 then (RuneError, 1)
                else if sz ≤ 3 then ((s0 % 16) * 4096 + (s1 % 64) * 64 + s2 % 64, 3)
                else
                  match rest2 with
                  | [] => (RuneError, 1)
                  | s3 :: _ =>
                    if s3 < locb ∨ hicb < s3 then (RuneError, 1)
                    else ((s0 % 8) * 262144 + (s1 % 64) * 4096 + (s2 % 64) * 64 + s3 % 64, 4)

/-- The function `utf8.RuneCountInString`: the number of runes, an invalid
byte counting as one rune of width one, as `DecodeRuneInString` reads them.
`skip` counts the remaining bytes of the rune just counted. -/
def runeCountAux : Nat → GoString → Nat
  | _, [] => 0
  | skip + 1, _ :: t => runeCountAux skip t
  | 0, c :: t => 1 + runeCountAux ((DecodeRuneInString (c :: t)).2 - 1) t

def RuneCountInString (s : GoString) : Nat := runeCountAux 0 s

/-- The function `utf8.RuneStart`: the byte is not a continuation byte. -/
def RuneStart (b : Nat) : Bool := decide (b / 64 % 4 ≠ 2)

/-- The backward scan of `DecodeLastRuneInString`: from `start` move down to
the first rune start byte, stopping below `lim`; an index that would fall
below zero is reset to zero. -/
def scanBack (s : GoString) (lim : Nat) : Nat → Nat → Nat
  | 0, start => start
  | fuel + 1, start =>
    if start < lim then start
    else if RuneStart (s.getD start 0) then start
    else if start = 0 then 0
    else scanBack s lim fuel (start - 1)

/-- The function `utf8.DecodeLastRuneInString`. -/
def DecodeLastRuneInString (s : GoString) : Rune × Nat :=
  let «end» := s.length
  if «end» = 0 then (RuneError, 0)
  else
    let start := «end» - 1
    let r := s.getD start 0
    if r < RuneSelf then (r, 1)
    else
      let lim := «end» - UTFMax
      let start := if start = 0 then 0 else scanBack s lim (UTFMax + 1) (start - 1)
      let (r, size) := DecodeRuneInString (s.drop start)
      if start + size ≠ «end» then (RuneError, 1) else (r, size)

end utf8

/-! ## package `unicode` -/

namespace unicode

/-- The function `unicode.IsSpace`: the Latin-1 cases, then the ranges of the
`White_Space` table above Latin-1. -/
def IsSpace (r : Rune) : Bool :=
  if r ≤ 0xFF then
    r = 0x09 ∨ r = 0x0A ∨ r = 0x0B ∨ r = 0x0C ∨ r = 0x0D ∨ r = 0x20 ∨ r = 0x85 ∨ r = 0xA0
  else
    r = 0x1680 ∨ (0x2000 ≤ r ∧ r ≤ 0x200A) ∨ r = 0x2028 ∨ r = 0x2029 ∨ r = 0x202F ∨
      r = 0x205F ∨ r = 0x3000

end unicode

/-! ## package `strings` -/

namespace strings

/-- The table `asciiSpace`. -/
def asciiSpace (c : Nat) : Bool :=
  c = 0x09 ∨ c = 0x0A ∨ c = 0x0B ∨ c = 0x0C ∨ c = 0x0D ∨ c = 0x20

/-- The function `strings.HasSuffix`. -/
def HasSuffix (s suffix : GoString) : Bool :=
  decide (s.length ≥ suffix.length) && (s.drop (s.length - suffix.length) == suffix)

/-- The function `strings.TrimSuffix`. -/
def TrimSuffix (s suffix : GoString) : GoString :=
  if HasSuffix s suffix then s.take (s.length - suffix.length) else s

/-- The function `strings.HasPrefix`. -/
def HasPrefix (s pre : GoString) : Bool :=
  decide (s.length ≥ pre.length) && (s.take pre.length == pre)

/-- The function `strings.IndexByte`: the index of the first `c` in `s`. -/
def IndexByte : GoString → Nat → Option Nat
  | [], _ => none
  | b :: t, c => if b = c then some 0 else (IndexByte t c).map (· + 1)

/-- The function `strings.LastIndexByte`: the index of the last `c` in `s`. -/
def LastIndexByte : GoString → Nat → Option Nat
  | [], _ => none
  | b :: t, c =>
    match LastIndexByte t c with
    | some i => some (i + 1)
    | none => if b = c then some 0 else none

/-- The function `strings.Index`: the index of the first instance of
`substr` in `s`. -/
def Index : GoString → GoString → Option Nat
  | [], substr => if substr.isEmpty then some 0 else none
  | c :: t, substr =>
    if substr.isPrefixOf (c :: t) then some 0 else (Index t substr).map (· + 1)

/-- The function `strings.Contains`. -/
def Contains (s substr : GoString) : Bool := (Index s substr).isSome

/-- The function `strings.Count` for a one-byte separator. -/
def Count (s : GoString) (c : Nat) : Nat := s.count c

/-- The function `strings.Cut` for a one-byte separator: the text before and
after the first `sep`, and whether `sep` was found. -/
def Cut (s : GoString) (sep : Nat) : GoString × GoString × Bool :=
  match IndexByte s sep with
  | some i => (s.take i, s.drop (i + 1), true)
  | none => (s, [], false)

/-- The function `strings.ToLower` on ASCII letters; other bytes are kept. -/
def ToLower (s : GoString) : GoString :=
  s.map (fun c => if 'A'.toNat ≤ c ∧ c ≤ 'Z'.toNat then c + ('a'.toNat - 'A'.toNat) else c)

/-- The function `strings.TrimLeftFunc` (through `indexFunc` with `truth`
false): drop leading runes while `f` holds. `skip` counts the remaining bytes
of the rune being dropped. -/
def trimLeftFuncAux (f : Rune → Bool) : Nat → GoString → GoString
  | _, [] => []
  | skip + 1, _ :: t => trimLeftFuncAux f skip t
  | 0, c :: t =>
    let (r, size) := utf8.DecodeRuneInString (c :: t)
    if f r then trimLeftFuncAux f (size - 1) t else c :: t

def TrimLeftFunc (s : GoString) (f : Rune → Bool) : GoString :=
  trimLeftFuncAux f 0 s

/-- The function `lastIndexFunc` with `truth` false: the start index of the
last rune for which `f` fails, `none` for minus one. -/
def lastIndexFunc (s : GoString) (f : Rune → Bool) : Nat → Nat → Option Nat
  | 0, _ => none
  | fuel + 1, i =>
    if i = 0 then none
    else
      let (r, size) := utf8.DecodeLastRuneInString (s.take i)
      let i := i - size
      if f r = false then some i else lastIndexFunc s f fuel i

/-- The function `strings.TrimRightFunc`. -/
def TrimRightFunc (s : GoString) (f : Rune → Bool) : GoString :=
  match lastIndexFunc s f s.length s.length with
  | some i =>
    if s.getD i 0 ≥ utf8.RuneSelf then
      s.take (i + (utf8.DecodeRuneInString (s.drop i)).2)
    else s.take (i + 1)
  | none => s.take 0

/-- The function `strings.TrimFunc`. -/
def TrimFunc (s : GoString) (f : Rune → Bool) : GoString :=
  TrimRightFunc (TrimLeftFunc s f) f

/-- What a scan of `TrimSpace` over ASCII bytes ends with: the bytes left, or
the bytes left at the first non-ASCII byte, where the Unicode-aware method
takes over. -/
inductive Scan where
  | done (rest : GoString)
  | nonASCII (rest : GoString)
deriving DecidableEq, Repr

/-- The first loop of `TrimSpace`: skip leading ASCII space bytes. -/
def scanStart : GoString → Scan
  | [] => .done []
  | c :: t =>
    if c ≥ utf8.RuneSelf then .nonASCII (c :: t)
    else if asciiSpace c then scanStart t
    else .done (c :: t)

/-- The second loop of `TrimSpace`, on the reversed remainder: skip trailing
ASCII space bytes. -/
def scanStop : GoString → Scan
  | [] => .done []
  | c :: t =>
    if c ≥ utf8.RuneSelf then .nonASCII (c :: t)
    else if asciiSpace c then scanStop t
    else .done (c :: t)

/-- The function `strings.TrimSpace`. -/
def TrimSpace (s : GoString) : GoString :=
  match scanStart s with
  | .nonASCII rest => TrimFunc rest unicode.IsSpace
  | .done rest =>
    match scanStop rest.reverse with
    | .nonASCII r => TrimRightFunc r.reverse unicode.IsSpace
    | .done r => r.reverse

end strings

/-! ## package `path` -/

namespace path

/-- The function `path.Base`: the last element of the path, after trailing
slashes are removed; `"."` for the empty path and `"/"` for a path of
slashes only. -/
def Base (p : GoString) : GoString :=
  if p = [] then str "."
  else
    -- Strip trailing slashes.
    let p := (p.reverse.dropWhile (fun c => c == '/'.toNat)).reverse
    -- Find the last element.
    let p :=
      match strings.LastIndexByte p '/'.toNat with
      | some i => p.drop (i + 1)
      | none => p
    -- If empty now, it had only slashes.
    if p = [] then str "/" else p

end path

/-! ## package `net/url` -/

namespace url

/-- The errors of package `net/url` that parsing can produce. -/
inductive Error where
  | EscapeError (s : GoString)
  | InvalidHostError (s : GoString)
  | invalidPort (colonPort : GoString)
  | errorString (text : String)
deriving DecidableEq, Repr

inductive encoding where
  | encodePath
  | encodePathSegment
  | encodeHost
  | encodeZone
  | encodeUserPassword
  | encodeQueryComponent
  | encodeFragment
deriving DecidableEq, Repr

def isLower (c : Nat) : Bool := decide ('a'.toNat ≤ c ∧ c ≤ 'z'.toNat)
def isUpper (c : Nat) : Bool := decide ('A'.toNat ≤ c ∧ c ≤ 'Z'.toNat)
def isDecimal (c : Nat) : Bool := decide ('0'.toNat ≤ c ∧ c ≤ '9'.toNat)

def ishex (c : Nat) : Bool :=
  isDecimal c || decide ('a'.toNat ≤ c ∧ c ≤ 'f'.toNat) || decide ('A'.toNat ≤ c ∧ c ≤ 'F'.toNat)

def unhex (c : Nat) : Nat :=
  if isDecimal c then c - '0'.toNat
  else if 'a'.toNat ≤ c ∧ c ≤ 'f'.toNat then c - 'a'.toNat + 10
  else if 'A'.toNat ≤ c ∧ c ≤ 'F'.toNat then c - 'A'.toNat + 10
  else 0

/-- The function `shouldEscape`: whether the byte must be escaped when it
appears in the given part of a URL. -/
def shouldEscape (c : Nat) (mode : encoding) : Bool :=
  -- Unreserved characters (alphanum).
  if isLower c || isUpper c || isDecimal c then false
  else if (mode = .encodeHost ∨ mode = .encodeZone) ∧ c ∈ (str "!$&'()*+,;=:[]<>\"") then false
  else if c ∈ str "-_.~" then false
  else if c ∈ str "$&+,/:;=?@" then
    match mode with
    | .encodePath => c == '?'.toNat
    | .encodePathSegment => c ∈ str "/;,?"
    | .encodeUserPassword => c ∈ str "@/?:"
    | .encodeQueryComponent => true
    | .encodeFragment => false
    | _ => true
  else if mode = .encodeFragment ∧ c ∈ str "!()*" then false
  else true

/-- The first loop of `unescape`: count the `%` and check that they are well
formed; `n` and `hasPlus` are the loop's variables. -/
def unescapeScan (mode : encoding) : GoString → Nat → Bool → Except Error (Nat × Bool)
  | [], n, hasPlus => .ok (n, hasPlus)
  | c :: rest, n, hasPlus =>
    if c = '%'.toNat then
      match rest with
      | a :: b :: rest2 =>
        if !ishex a || !ishex b then .error (.EscapeError [c, a, b])
        else if mode = .encodeHost ∧ unhex a < 8 ∧ [c, a, b] ≠ str "%25" then
          .error (.EscapeError [c, a, b])
        else if mode = .encodeZone ∧ [c, a, b] ≠ str "%25" ∧ unhex a * 16 + unhex b ≠ ' '.toNat
            ∧ shouldEscape (unhex a * 16 + unhex b) .encodeHost then
          .error (.EscapeError [c, a, b])
        else unescapeScan mode rest2 (n + 1) hasPlus
      | _ => .error (.EscapeError (c :: rest))
    else if c = '+'.toNat then
      unescapeScan mode rest n (decide (mode = .encodeQueryComponent))
    else if (mode = .encodeHost ∨ mode = .encodeZone) ∧ c < 0x80 ∧ shouldEscape c .encodeHost then
      .error (.InvalidHostError [c])
    else unescapeScan mode rest n hasPlus

/-- The second loop of `unescape`, on a string the first loop accepted:
replace each escape by its byte (and, in a query component, `+` by a
space). -/
def unescapeBuild (mode : encoding) : GoString → GoString
  | [] => []
  | c :: rest =>
    if c = '%'.toNat then
      match rest with
      | a :: b :: rest2 => (unhex a * 16 + unhex b) :: unescapeBuild mode rest2
      | _ => []
    else if c = '+'.toNat then
      (if mode = .encodeQueryComponent then ' '.toNat else '+'.toNat) :: unescapeBuild mode rest
    else c :: unescapeBuild mode rest

/-- The function `unescape`. -/
def unescape (s : GoString) (mode : encoding) : Except Error GoString :=
  match unescapeScan mode s 0 false with
  | .error e => .error e
  | .ok (n, hasPlus) =>
    if n = 0 ∧ hasPlus = false then .ok s else .ok (unescapeBuild mode s)

/-- The function `url.PathUnescape`. -/
def PathUnescape (s : GoString) : Except Error GoString :=
  unescape s .encodePathSegment

deriving instance DecidableEq for Except

/-- The fields of `url.URL` that parsing fills from the text alone. The
fields `RawPath`, `RawFragment` and `OmitHost`, which nothing here reads, are
left out. -/
structure URL where
  Scheme : GoString := []
  Opaque : GoString := []
  User : Option (GoString × Option GoString) := none
  Host : GoString := []
  Path : GoString := []
  ForceQuery : Bool := false
  RawQuery : GoString := []
  Fragment : GoString := []
deriving DecidableEq, Repr

/-- The function `stringContainsCTLByte`. -/
def stringContainsCTLByte (s : GoString) : Bool :=
  s.any (fun b => decide (b < ' '.toNat ∨ b = 0x7f))

/-- The loop of `getScheme` from index `i` on. -/
def getSchemeAux (rawURL : GoString) : Nat → GoString → Except Error (GoString × GoString)
  | _, [] => .ok ([], rawURL)
  | i, c :: t =>
    if isLower c || isUpper c then getSchemeAux rawURL (i + 1) t
    else if isDecimal c ∨ c = '+'.toNat ∨ c = '-'.toNat ∨ c = '.'.toNat then
      if i = 0 then .ok ([], rawURL) else getSchemeAux rawURL (i + 1) t
    else if c = ':'.toNat then
      if i = 0 then .error (.errorString "missing protocol scheme")
      else .ok (rawURL.take i, rawURL.drop (i + 1))
    else
      -- an invalid character, so there is no valid scheme
      .ok ([], rawURL)

/-- The function `getScheme`: the scheme before the first colon, and the
rest. -/
def getScheme (rawURL : GoString) : Except Error (GoString × GoString) :=
  getSchemeAux rawURL 0 rawURL

/-- The function `validOptionalPort`: empty, or a colon and digits. -/
def validOptionalPort (port : GoString) : Bool :=
  match port with
  | [] => true
  | c :: rest => c = ':'.toNat ∧ rest.all isDecimal

/-- The function `validUserinfo`. A byte outside ASCII decodes to a rune
outside the accepted set, so the test is on bytes. -/
def validUserinfo (s : GoString) : Bool :=
  s.all (fun r => isUpper r || isLower r || isDecimal r || decide (r ∈ str "-._:~!$&'()*+,;=%@"))

/-- The function `parseHost`. -/
def parseHost (host : GoString) : Except Error GoString :=
  if strings.HasPrefix host (str "[") then
    -- An IP literal, as "[fe80::1]", "[fe80::1%25en0]" or "[fe80::1]:80".
    match strings.LastIndexByte host ']'.toNat with
    | none => .error (.errorString "missing ']' in host")
    | some i =>
      let colonPort := host.drop (i + 1)
      if !validOptionalPort colonPort then .error (.invalidPort colonPort)
      else
        match strings.Index (host.take i) (str "%25") with
        | some zone =>
          match unescape (host.take zone) .encodeHost with
          | .error e => .error e
          | .ok host1 =>
            match unescape ((host.take i).drop zone) .encodeZone with
            | .error e => .error e
            | .ok host2 =>
              match unescape (host.drop i) .encodeHost with
              | .error e => .error e
              | .ok host3 => .ok (host1 ++ host2 ++ host3)
        | none => unescape host .encodeHost
  else
    match strings.LastIndexByte host ':'.toNat with
    | some i =>
      let colonPort := host.drop i
      if !validOptionalPort colonPort then .error (.invalidPort colonPort)
      else unescape host .encodeHost
    | none => unescape host .encodeHost

/-- The function `parseAuthority`: the user information and the host. -/
def parseAuthority (authority : GoString) :
    Except Error (Option (GoString × Option GoString) × GoString) :=
  let i := strings.LastIndexByte authority '@'.toNat
  let hostResult :=
    match i with
    | none => parseHost authority
    | some i => parseHost (authority.drop (i + 1))
  match hostResult with
  | .error e => .error e
  | .ok host =>
    match i with
    | none => .ok (none, host)
    | some i =>
      let userinfo := authority.take i
      if !validUserinfo userinfo then .error (.errorString "net/url: invalid userinfo")
      else if !strings.Contains userinfo (str ":") then
        match unescape userinfo .encodeUserPassword with
        | .error e => .error e
        | .ok userinfo => .ok (some (userinfo, none), host)
      else
        let (username, password, _) := strings.Cut userinfo ':'.toNat
        match unescape username .encodeUserPassword with
        | .error e => .error e
        | .ok username =>
          match unescape password .encodeUserPassword with
          | .error e => .error e
          | .ok password => .ok (some (username, some password), host)

/-- The function `parse`: a URL in one of the shapes `[scheme:][//host]path`
or `scheme:opaque`, without the fragment. With `viaRequest` only an absolute
URI or an absolute path is accepted. -/
def parse (rawURL : GoString) (viaRequest : Bool) : Except Error URL :=
  if stringContainsCTLByte rawURL then
    .error (.errorString "net/url: invalid control character in URL")
  else if rawURL = [] ∧ viaRequest then .error (.errorString "empty url")
  else if rawURL = str "*" then .ok { Path := str "*" }
  else
    -- Split off a possible leading "http:", "mailto:", etc.
    match getScheme rawURL with
    | .error e => .error e
    | .ok (scheme, rest) =>
      let scheme := strings.ToLower scheme
      let (rest, forceQuery, rawQuery) :=
        if strings.HasSuffix rest (str "?") ∧ strings.Count rest '?'.toNat = 1 then
          (rest.take (rest.length - 1), true, [])
        else
          let (before, after, _) := strings.Cut rest '?'.toNat
          (before, false, after)
      let url : URL := { Scheme := scheme, ForceQuery := forceQuery, RawQuery := rawQuery }
      if !strings.HasPrefix rest (str "/") ∧ scheme ≠ [] then
        -- Rootless paths are opaque.
        .ok { url with Opaque := rest }
      else if !strings.HasPrefix rest (str "/") ∧ viaRequest then
        .error (.errorString "invalid URI for request")
      else if !strings.HasPrefix rest (str "/")
          ∧ strings.Contains (strings.Cut rest '/'.toNat).1 (str ":") then
        -- First path segment has a colon: not allowed in a relative URL.
        .error (.errorString "first path segment in URL cannot contain colon")
      else
        let authorityResult : Except Error (URL × GoString) :=
          if (scheme ≠ [] ∨ (!viaRequest ∧ !strings.HasPrefix rest (str "///")))
              ∧ strings.HasPrefix rest (str "//") then
            let authority := rest.drop 2
            let (authority, rest) :=
              match strings.IndexByte authority '/'.toNat with
              | some i => (authority.take i, authority.drop i)
              | none => (authority, [])
            match parseAuthority authority with
            | .error e => .error e
            | .ok (user, host) => .ok ({ url with User := user, Host := host }, rest)
          else .ok (url, rest)
        match authorityResult with
        | .error e => .error e
        | .ok (url, rest) =>
          -- The method `setPath`.
          match unescape rest .encodePath with
          | .error e => .error e
          | .ok path => .ok { url with Path := path }

/-- The function `url.Parse`: cut off the fragment, parse the rest, then set
the fragment. -/
def Parse (rawURL : GoString) : Except Error URL :=
  let (u, frag, _) := strings.Cut rawURL '#'.toNat
  match parse u false with
  | .error e => .error e
  | .ok url =>
    if frag = [] then .ok url
    else
      -- The method `setFragment`.
      match unescape frag .encodeFragment with
      | .error e => .error e
      | .ok frag => .ok { url with Fragment := frag }

/-- The function `url.ParseRequestURI`: the text is taken as received in an
HTTP request, so it has no fragment and is an absolute URI or path. -/
def ParseRequestURI (rawURL : GoString) : Except Error URL :=
  parse rawURL true

end url

/-! ## package `regexp`: the pattern of `digitsOnly` -/

/-- A decimal digit byte, what `\d` matches. -/
def isDigit (c : Nat) : Bool := decide ('0'.toNat ≤ c ∧ c ≤ '9'.toNat)

namespace digitsOnly

/-- The method `MatchString` of `digitsOnly = regexp.MustCompile("^\d+$")`:
the whole text is one or more ASCII digits (`\d` is ASCII only and, without
the multi-line flag, `^` and `$` match only at the ends of the text). -/
def MatchString (s : GoString) : Bool := !s.isEmpty && s.all isDigit

end digitsOnly

/-! ## `internal/service/service.go` -/

/-- A Go `error` as the service sees it: the text of `Error()` and whether
`errors.Is` matches `context.DeadlineExceeded` and
`greenapi.ErrCircuitBreakerOpen`. -/
structure GoError where
  text : GoString
  isDeadlineExceeded : Bool
  isCircuitBreakerOpen : Bool
deriving DecidableEq, Repr

namespace fmt

/-- The call `fmt.Errorf(text)` with a text without verbs: a fresh error
that wraps nothing. -/
def Errorf (text : String) : GoError := ⟨str text, false, false⟩

end fmt

def NormalizeChatID (raw : GoString) : GoString × Option GoError :=
  let candidate := strings.TrimSpace raw
  if candidate = [] then
    ([], some (fmt.Errorf "chatId is required"))
  else if strings.HasSuffix candidate (str "@c.us") then
    let number := strings.TrimSuffix candidate (str "@c.us")
    if number = [] ∨ !digitsOnly.MatchString number then
      ([], some (fmt.Errorf "chatId must contain only digits before @c.us"))
    else
      (candidate, none)
  else if !digitsOnly.MatchString candidate then
    ([], some (fmt.Errorf "chatId must contain only digits"))
  else
    (candidate ++ str "@c.us", none)

def validateURLFile (raw : GoString) : Option GoError :=
  match url.ParseRequestURI raw with
  | .error _ => some (fmt.Errorf "urlFile must be a valid URL")
  | .ok parsed =>
    if parsed.Scheme ≠ str "http" ∧ parsed.Scheme ≠ str "https" then
      some (fmt.Errorf "urlFile must use http or https")
    else none

def ExtractFileName (rawURL : GoString) : GoString × Option GoError :=
  match url.Parse rawURL with
  | .error _ => ([], some (fmt.Errorf "invalid url"))
  | .ok parsed =>
    let fileName := path.Base parsed.Path
    if fileName = str "." ∨ fileName = str "/" ∨ fileName = [] then
      ([], some (fmt.Errorf "cannot extract fileName from urlFile"))
    else if strings.Contains fileName (str "/") ∨ strings.Contains fileName (str "\\") then
      ([], some (fmt.Errorf "invalid fileName extracted from urlFile"))
    else
      let fileName :=
        match url.PathUnescape fileName with
        | .ok decoded => decoded
        | .error _ => fileName
      if fileName.length > 255 then
        ([], some (fmt.Errorf "fileName is too long"))
      else
        (fileName, none)

/-- The type `greenapi.Response`. -/
structure Response where
  StatusCode : Int
  Body : List Nat
  ContentType : GoString
  Headers : List (GoString × List GoString)
deriving DecidableEq, Repr

/-- The zero value `greenapi.Response{}`. -/
def Response.zero : Response := ⟨0, [], [], []⟩

/-- The field `Details` of `model.APIError`, an `interface{}`: absent, a
text, or a map from names to texts. -/
inductive Details where
  | absent
  | text (s : GoString)
  | fields (m : List (GoString × GoString))
deriving DecidableEq, Repr

/-- The type `model.APIError`. -/
structure APIError where
  StatusCode : Int
  Code : GoString
  Message : GoString
  Details : Details
deriving DecidableEq, Repr

structure CredentialsRequest where
  IDInstance : GoString
  APITokenInstance : GoString
deriving DecidableEq, Repr

structure SendMessageRequest extends CredentialsRequest where
  ChatID : GoString
  Message : GoString
deriving DecidableEq, Repr

structure SendFileByURLRequest extends CredentialsRequest where
  ChatID : GoString
  URLFile : GoString
deriving DecidableEq, Repr

/-- One failed rule of the struct validator: the field and the tag. -/
structure FieldError where
  Field : GoString
  Tag : GoString
deriving DecidableEq, Repr

/-- The struct validator `*validator.Validate`, an external library. Its
rule `required` on a string is that the string is not empty; its rule `url`
and the text of its errors are left as they come from the library. -/
structure Validate where
  isURL : GoString → Bool
  errorText : List FieldError → GoString

/-- The rule `required` on the field `name`. -/
def required (name : String) (value : GoString) : List FieldError :=
  if value = [] then [⟨str name, str "required"⟩] else []

/-- The rules `required,url` on the field `name`: the first failing rule is
reported. -/
def requiredURL (v : Validate) (name : String) (value : GoString) : List FieldError :=
  if value = [] then [⟨str name, str "required"⟩]
  else if !v.isURL value then [⟨str name, str "url"⟩]
  else []

/-- The result of a call `validate.Struct`: `nil` when no rule failed. -/
def structResult (errs : List FieldError) : Option (List FieldError) :=
  if errs = [] then none else some errs

namespace Validate

/-- The call `validate.Struct(req)` on a `CredentialsRequest`. -/
def StructCredentialsRequest (_v : Validate) (req : CredentialsRequest) :
    Option (List FieldError) :=
  structResult (required "IDInstance" req.IDInstance
    ++ required "APITokenInstance" req.APITokenInstance)

/-- The call `validate.Struct(req)` on a `SendMessageRequest`; the embedded
`CredentialsRequest` is validated with it. -/
def StructSendMessageRequest (_v : Validate) (req : SendMessageRequest) :
    Option (List FieldError) :=
  structResult (required "IDInstance" req.IDInstance
    ++ required "APITokenInstance" req.APITokenInstance
    ++ required "ChatID" req.ChatID
    ++ required "Message" req.Message)

/-- The call `validate.Struct(req)` on a `SendFileByURLRequest`. -/
def StructSendFileByURLRequest (v : Validate) (req : SendFileByURLRequest) :
    Option (List FieldError) :=
  structResult (required "IDInstance" req.IDInstance
    ++ required "APITokenInstance" req.APITokenInstance
    ++ required "ChatID" req.ChatID
    ++ requiredURL v "URLFile" req.URLFile)

end Validate

/-- A call of a method of the interface `GreenAPIClient`, with its
arguments (the context apart). -/
inductive ClientCall where
  | GetSettings (idInstance apiTokenInstance : GoString)
  | GetStateInstance (idInstance apiTokenInstance : GoString)
  | SendMessage (idInstance apiTokenInstance chatID message : GoString)
  | SendFileByURL (idInstance apiTokenInstance chatID urlFile fileName : GoString)
deriving DecidableEq, Repr

/-- An implementation of the interface `GreenAPIClient`: what each call
returns. -/
abbrev GreenAPIClient := ClientCall → Response × Option GoError

structure Service where
  client : GreenAPIClient
  validate : Validate

/-- What an operation of the service does: the calls it makes on the client,
in order, and the pair it returns. -/
structure Outcome where
  calls : List ClientCall
  resp : Response
  apiErr : Option APIError

def validationError (v : Validate) (err : List FieldError) : APIError :=
  { StatusCode := 400
    Code := str "validation_error"
    Message := str "invalid request payload"
    Details := .text (v.errorText err) }

def invalidInput (field : String) (message : GoString) : APIError :=
  { StatusCode := 400
    Code := str "validation_error"
    Message := str "invalid request payload"
    Details := .fields [(str "field", str field), (str "message", message)] }

def mapUpstreamError (err : GoError) : APIError :=
  let statusCode : Int := 502
  let statusCode := if err.isDeadlineExceeded then 504 else statusCode
  let statusCode := if err.isCircuitBreakerOpen then 503 else statusCode
  { StatusCode := statusCode
    Code := str "upstream_error"
    Message := err.text
    Details := .absent }

namespace Service

def validateCredentials (s : Service) (req : CredentialsRequest) : Option APIError :=
  match s.validate.StructCredentialsRequest req with
  | some err => some (validationError s.validate err)
  | none => none

def GetSettings (s : Service) (req : CredentialsRequest) : Outcome :=
  match s.validateCredentials req with
  | some err => ⟨[], Response.zero, some err⟩
  | none =>
    let call := ClientCall.GetSettings (strings.TrimSpace req.IDInstance)
      (strings.TrimSpace req.APITokenInstance)
    match s.client call with
    | (_, some callErr) => ⟨[call], Response.zero, some (mapUpstreamError callErr)⟩
    | (resp, none) => ⟨[call], resp, none⟩

def GetState (s : Service) (req : CredentialsRequest) : Outcome :=
  match s.validateCredentials req with
  | some err => ⟨[], Response.zero, some err⟩
  | none =>
    let call := ClientCall.GetStateInstance (strings.TrimSpace req.IDInstance)
      (strings.TrimSpace req.APITokenInstance)
    match s.client call with
    | (_, some callErr) => ⟨[call], Response.zero, some (mapUpstreamError callErr)⟩
    | (resp, none) => ⟨[call], resp, none⟩

def SendMessage (s : Service) (req : SendMessageRequest) : Outcome :=
  match s.validate.StructSendMessageRequest req with
  | some err => ⟨[], Response.zero, some (validationError s.validate err)⟩
  | none =>
    match s.validateCredentials req.toCredentialsRequest with
    | some err => ⟨[], Response.zero, some err⟩
    | none =>
      match NormalizeChatID req.ChatID with
      | (_, some err) => ⟨[], Response.zero, some (invalidInput "chatId" err.text)⟩
      | (normalizedChatID, none) =>
        let call := ClientCall.SendMessage (strings.TrimSpace req.IDInstance)
          (strings.TrimSpace req.APITokenInstance) normalizedChatID
          (strings.TrimSpace req.Message)
        match s.client call with
        | (_, some callErr) => ⟨[call], Response.zero, some (mapUpstreamError callErr)⟩
        | (resp, none) => ⟨[call], resp, none⟩

def SendFileByURL (s : Service) (req : SendFileByURLRequest) : Outcome :=
  match s.validate.StructSendFileByURLRequest req with
  | some err => ⟨[], Response.zero, some (validationError s.validate err)⟩
  | none =>
    match s.validateCredentials req.toCredentialsRequest with
    | some err => ⟨[], Response.zero, some err⟩
    | none =>
      match NormalizeChatID req.ChatID with
      | (_, some err) => ⟨[], Response.zero, some (invalidInput "chatId" err.text)⟩
      | (normalizedChatID, none) =>
        let urlFile := strings.TrimSpace req.URLFile
        match validateURLFile urlFile with
        | some err => ⟨[], Response.zero, some (invalidInput "urlFile" err.text)⟩
        | none =>
          match ExtractFileName urlFile with
          | (_, some err) => ⟨[], Response.zero, some (invalidInput "urlFile" err.text)⟩
          | (fileName, none) =>
            let call := ClientCall.SendFileByURL (strings.TrimSpace req.IDInstance)
              (strings.TrimSpace req.APITokenInstance) normalizedChatID urlFile fileName
            match s.client call with
            | (_, some callErr) => ⟨[call], Response.zero, some (mapUpstreamError callErr)⟩
            | (resp, none) => ⟨[call], resp, none⟩

end Service

/-! ## Error values of `internal/greenapi/client.go` -/

/-- The error variables that the client compares with: `context.Canceled`,
`context.DeadlineExceeded`, `gobreaker.ErrOpenState`,
`gobreaker.ErrTooManyRequests` and `greenapi.ErrCircuitBreakerOpen`. -/
inductive Sentinel where
  | Canceled
  | DeadlineExceeded
  | ErrOpenState
  | ErrTooManyRequests
  | ErrCircuitBreakerOpen
deriving DecidableEq, Repr

/-- A non-nil Go `error` as the client meets it. The texts of `Error()` are
not part of the model; what is kept is what `errors.Is`, `errors.As` and the
method `Timeout` look at.

* `sentinel`: one of the error variables;
* `errorString`: a value of `errors.New` or of `fmt.Errorf` without `%w`;
* `wrapError`: a value of `fmt.Errorf` with one `%w`, which it unwraps to;
* `wrapErrorV`: a value of `fmt.Errorf("%w: %v", err, v)`, which unwraps to
  `err` only;
* `UpstreamError`, `UpstreamErrorBare`: a `*greenapi.UpstreamError` with and
  without a cause;
* `parse`: an error of package `net/url` met while parsing;
* `urlError`: a `*url.Error`, which unwraps to `Err`;
* `foreign`, `foreignWrap`: a value of any other type, without and with an
  `Unwrap` method; `timeout` is `some t` when the type implements `net.Error`
  with `Timeout()` equal to `t`, and `is` lists the error variables that its
  own `Is` method accepts. -/
inductive Err where
  | sentinel (s : Sentinel)
  | errorString (text : String)
  | wrapError (format : String) (err : Err)
  | wrapErrorV (format : String) (err : Err) (v : Err)
  | UpstreamError (Message : String) (Cause : Err)
  | UpstreamErrorBare (Message : String)
  | parse (e : url.Error)
  | urlError (Op : String) (URL : GoString) (Err : Err)
  | foreign (text : GoString) (timeout : Option Bool) (is : List Sentinel)
  | foreignWrap (text : GoString) (timeout : Option Bool) (is : List Sentinel) (inner : Err)
deriving DecidableEq, Repr

namespace Err

/-- The function `errors.Is(err, target)` for a target that is one of the
error variables: walk the chain of `Unwrap`, comparing each error with the
target and asking its `Is` method. -/
def Is : Err → Sentinel → Bool
  | sentinel s, target => s = target
  | errorString _, _ => false
  | wrapError _ err, target => Is err target
  | wrapErrorV _ err _, target => Is err target
  | UpstreamError _ cause, target => Is cause target
  | UpstreamErrorBare _, _ => false
  | parse _, _ => false
  | urlError _ _ err, target => Is err target
  | foreign _ _ is, target => decide (target ∈ is)
  | foreignWrap _ _ is inner, target => decide (target ∈ is) || Is inner target

/-- The method `Timeout() bool` of the error itself, when its type has one:
`context.DeadlineExceeded` answers true, and a `*url.Error` answers what the
error it holds answers, false when that one has no such method. -/
def TimeoutMethod : Err → Option Bool
  | sentinel .DeadlineExceeded => some true
  | sentinel _ => none
  | errorString _ => none
  | wrapError _ _ => none
  | wrapErrorV _ _ _ => none
  | UpstreamError _ _ => none
  | UpstreamErrorBare _ => none
  | parse _ => none
  | urlError _ _ err =>
    match TimeoutMethod err with
    | some t => some t
    | none => some false
  | foreign _ timeout _ => timeout
  | foreignWrap _ timeout _ _ => timeout

/-- The call `errors.As(err, &netErr)` with `netErr` of type `net.Error`: the
first error of the chain that implements `net.Error`, given by what its
method `Timeout` answers. -/
def AsNetError : Err → Option Bool
  | sentinel .DeadlineExceeded => some true
  | sentinel _ => none
  | errorString _ => none
  | wrapError _ err => AsNetError err
  | wrapErrorV _ err _ => AsNetError err
  | UpstreamError _ cause => AsNetError cause
  | UpstreamErrorBare _ => none
  | parse _ => none
  | urlError Op URL err => TimeoutMethod (urlError Op URL err)
  | foreign _ timeout _ => timeout
  | foreignWrap _ timeout _ inner =>
    match timeout with
    | some t => some t
    | none => AsNetError inner

/-- The call `errors.As(err, &urlErr)` with `urlErr` of type `*url.Error`:
the first `*url.Error` of the chain. -/
def AsURLError : Err → Option Err
  | sentinel _ => none
  | errorString _ => none
  | wrapError _ err => AsURLError err
  | wrapErrorV _ err _ => AsURLError err
  | UpstreamError _ cause => AsURLError cause
  | UpstreamErrorBare _ => none
  | parse _ => none
  | urlError Op URL err => some (urlError Op URL err)
  | foreign _ _ _ => none
  | foreignWrap _ _ _ inner => AsURLError inner

/-- The error as the service sees it, `text` being what `Error()` returns. -/
def view (err : Err) (text : GoString) : GoError :=
  ⟨text, err.Is .DeadlineExceeded, err.Is .ErrCircuitBreakerOpen⟩

end Err

def shouldRetryError (err : Err) : Bool :=
  if err.Is .Canceled then false
  else if err.Is .DeadlineExceeded then true
  else
    match err.AsNetError with
    | some netErrTimeout => netErrTimeout
    | none =>
      match err.AsURLError with
      | some urlErr =>
        match urlErr.AsNetError with
        | some nestedTimeout => nestedTimeout
        | none => false
      | none => false

/-! ## Machine integers and package `time` -/

/-- The value of an `int` computation: `int` is taken as 64 bits wide, as on
the platforms the service is built for, and arithmetic wraps around. -/
def wrapInt (x : Int) : Int := (x + 2 ^ 63) % 2 ^ 64 - 2 ^ 63

/-- The value of a `uint32` computation. -/
def wrapUint32 (x : Nat) : Nat := x % 2 ^ 32

/-- The value of a `uint64` computation. -/
def wrapUint64 (x : Nat) : Nat := x % 2 ^ 64

namespace time

/-- A `time.Duration`: a number of nanoseconds in an `int64`. -/
abbrev Duration := Int

/-- A `time.Time`, as a number of nanoseconds; zero is the zero `Time`. -/
abbrev Time := Int

def Second : Duration := 1000000000

end time

/-! ## `internal/config/config.go` -/

namespace config

structure GreenAPIRetryConfig where
  MaxRetries : Int
  DelaySeconds : Int

/-- The fields of `CircuitBreakerConfig`. The `float64` field `FailureRatio`
is kept through the one thing that is done with it: `FailureRatio f r` is
whether `float64(f) / float64(r) >= FailureRatio` holds in `float64`
arithmetic. -/
structure CircuitBreakerConfig where
  Name : GoString
  ConsecutiveFailures : Nat
  HalfOpenMaxRequests : Nat
  OpenTimeoutSeconds : Int
  IntervalSeconds : Int
  FailureRatio : Nat → Nat → Bool
  MinRequests : Nat

structure GreenAPIConfig where
  BaseURL : GoString
  TimeoutSeconds : Int
  Retry : GreenAPIRetryConfig
  CircuitBreaker : CircuitBreakerConfig

/-- The rule `validate:"min=0,max=10"` of the field `MaxRetries`, which `Load`
checks on the configuration that it returns. -/
def GreenAPIRetryConfig.MaxRetriesInRange (r : GreenAPIRetryConfig) : Prop :=
  0 ≤ r.MaxRetries ∧ r.MaxRetries ≤ 10

instance (r : GreenAPIRetryConfig) : Decidable r.MaxRetriesInRange := by
  unfold GreenAPIRetryConfig.MaxRetriesInRange
  infer_instance

def GreenAPIConfig.Timeout (g : GreenAPIConfig) : time.Duration :=
  wrapInt (g.TimeoutSeconds * time.Second)

def GreenAPIRetryConfig.Delay (r : GreenAPIRetryConfig) : time.Duration :=
  wrapInt (r.DelaySeconds * time.Second)

def CircuitBreakerConfig.OpenTimeout (c : CircuitBreakerConfig) : time.Duration :=
  wrapInt (c.OpenTimeoutSeconds * time.Second)

def CircuitBreakerConfig.Interval (c : CircuitBreakerConfig) : time.Duration :=
  wrapInt (c.IntervalSeconds * time.Second)

end config

/-! ## package `github.com/sony/gobreaker` -/

namespace gobreaker

inductive State where
  | StateClosed
  | StateHalfOpen
  | StateOpen
deriving DecidableEq, Repr

/-- The type `Counts`; each field is a `uint32`. -/
structure Counts where
  Requests : Nat
  TotalSuccesses : Nat
  TotalFailures : Nat
  ConsecutiveSuccesses : Nat
  ConsecutiveFailures : Nat
deriving DecidableEq, Repr

namespace Counts

def onRequest (c : Counts) : Counts :=
  { c with Requests := wrapUint32 (c.Requests + 1) }

def onSuccess (c : Counts) : Counts :=
  { c with
    TotalSuccesses := wrapUint32 (c.TotalSuccesses + 1)
    ConsecutiveSuccesses := wrapUint32 (c.ConsecutiveSuccesses + 1)
    ConsecutiveFailures := 0 }

def onFailure (c : Counts) : Counts :=
  { c with
    TotalFailures := wrapUint32 (c.TotalFailures + 1)
    ConsecutiveFailures := wrapUint32 (c.ConsecutiveFailures + 1)
    ConsecutiveSuccesses := 0 }

def clear (_c : Counts) : Counts := ⟨0, 0, 0, 0, 0⟩

end Counts

/-- The fields of `Settings` that the breaker's decisions depend on. The
callback `OnStateChange`, which only writes a log line here, is left out. -/
structure Settings where
  Name : GoString
  MaxRequests : Nat
  Interval : time.Duration
  Timeout : time.Duration
  ReadyToTrip : Counts → Bool

/-- The state of a `CircuitBreaker`, what its mutex guards included. -/
structure CircuitBreaker where
  maxRequests : Nat
  interval : time.Duration
  timeout : time.Duration
  readyToTrip : Counts → Bool
  state : State
  generation : Nat
  counts : Counts
  expiry : time.Time

def defaultInterval : time.Duration := 0
def defaultTimeout : time.Duration := 60 * time.Second

namespace CircuitBreaker

def toNewGeneration (cb : CircuitBreaker) (now : time.Time) : CircuitBreaker :=
  let cb := { cb with generation := wrapUint64 (cb.generation + 1), counts := cb.counts.clear }
  match cb.state with
  | .StateClosed =>
    if cb.interval = 0 then { cb with expiry := 0 }
    else { cb with expiry := now + cb.interval }
  | .StateOpen => { cb with expiry := now + cb.timeout }
  | .StateHalfOpen => { cb with expiry := 0 }

def setState (cb : CircuitBreaker) (state : State) (now : time.Time) : CircuitBreaker :=
  if cb.state = state then cb
  else toNewGeneration { cb with state := state } now

def currentState (cb : CircuitBreaker) (now : time.Time) : CircuitBreaker :=
  match cb.state with
  | .StateClosed =>
    if cb.expiry ≠ 0 ∧ cb.expiry < now then cb.toNewGeneration now else cb
  | .StateOpen =>
    if cb.expiry < now then cb.setState .StateHalfOpen now else cb
  | .StateHalfOpen => cb

/-- The method `beforeRequest` at the time `now`: the generation, the error
if the request is refused, and the breaker afterwards. -/
def beforeRequest (cb : CircuitBreaker) (now : time.Time) :
    (Nat × Option Sentinel) × CircuitBreaker :=
  let cb := cb.currentState now
  if cb.state = .StateOpen then
    ((cb.generation, some .ErrOpenState), cb)
  else if cb.state = .StateHalfOpen ∧ cb.counts.Requests ≥ cb.maxRequests then
    ((cb.generation, some .ErrTooManyRequests), cb)
  else
    ((cb.generation, none), { cb with counts := cb.counts.onRequest })

def onSuccess (cb : CircuitBreaker) (state : State) (now : time.Time) : CircuitBreaker :=
  match state with
  | .StateClosed => { cb with counts := cb.counts.onSuccess }
  | .StateHalfOpen =>
    let cb := { cb with counts := cb.counts.onSuccess }
    if cb.counts.ConsecutiveSuccesses ≥ cb.maxRequests then cb.setState .StateClosed now
    else cb
  | .StateOpen => cb

def onFailure (cb : CircuitBreaker) (state : State) (now : time.Time) : CircuitBreaker :=
  match state with
  | .StateClosed =>
    let cb := { cb with counts := cb.counts.onFailure }
    if cb.readyToTrip cb.counts then cb.setState .StateOpen now else cb
  | .StateHalfOpen => cb.setState .StateOpen now
  | .StateOpen => cb

/-- The method `afterRequest` at the time `now`, for a request admitted in
the generation `before`. -/
def afterRequest (cb : CircuitBreaker) (before : Nat) (success : Bool) (now : time.Time) :
    CircuitBreaker :=
  let cb := cb.currentState now
  if cb.generation ≠ before then cb
  else if success then cb.onSuccess cb.state now
  else cb.onFailure cb.state now

end CircuitBreaker

/-- The function `NewCircuitBreaker`, called at the time `now`; a
`TwoStepCircuitBreaker` is this breaker, used through `beforeRequest` and
`afterRequest`. -/
def NewCircuitBreaker (st : Settings) (now : time.Time) : CircuitBreaker :=
  CircuitBreaker.toNewGeneration
    { maxRequests := if st.MaxRequests = 0 then 1 else st.MaxRequests
      interval := if st.Interval ≤ 0 then defaultInterval else st.Interval
      timeout := if st.Timeout ≤ 0 then defaultTimeout else st.Timeout
      readyToTrip := st.ReadyToTrip
      state := .StateClosed
      generation := 0
      counts := ⟨0, 0, 0, 0, 0⟩
      expiry := 0 }
    now

end gobreaker

/-! ## package `net/http`, as far as the client uses it -/

namespace strings

/-- The function `strings.TrimRight` for a cutset of ASCII bytes: the
trailing bytes that are in the cutset are removed. -/
def TrimRight (s cutset : GoString) : GoString :=
  (s.reverse.dropWhile (fun c => cutset.contains c)).reverse

end strings

namespace http

/-- The type `http.Header`: the values of each key. -/
abbrev Header := List (GoString × List GoString)

/-- The method `Header.Get` for a key in canonical form: the first value of
the key, or the empty string. -/
def Header.Get (h : Header) (key : GoString) : GoString :=
  match h.lookup key with
  | some (v :: _) => v
  | _ => []

def MethodGet : GoString := str "GET"
def MethodPost : GoString := str "POST"
def StatusInternalServerError : Int := 500

/-- An outgoing `*http.Request`: method, URL, body and header. The URL is
kept as the text that `http.NewRequestWithContext` is given. -/
structure Request where
  Method : GoString
  URL : GoString
  Body : List Nat
  Header : Header
deriving DecidableEq, Repr

/-- The field `URL` of the request that `http.NewRequestWithContext` builds
from the text: what `url.Parse` makes of it. Its path and its query are what
the request asks the server for; its fragment is not sent. -/
def Request.parsed (r : Request) : Except url.Error url.URL := url.Parse r.URL

/-- An incoming `*http.Response`; `Body` is what reading the body to its end
gives, the bytes or an error. -/
structure Response where
  StatusCode : Int
  Header : Header
  Body : Except Err (List Nat)
deriving DecidableEq, Repr

end http

/-! ## `internal/greenapi/client.go` -/

/-- The payload of a call: `nil`, or a `map[string]string` given by its
entries. -/
abbrev Payload := Option (List (GoString × GoString))

/-- What the client does to its surroundings, in the order it does it:
`allow` is a call of `breaker.Allow()` with the error it returned, if any;
`transport` a call of `httpClient.Do` with what it returned; `done` a call of
the completion callback of the breaker; `sleep` a wait started by `wait`. -/
inductive Event where
  | allow (err : Option Err)
  | transport (request : http.Request) (result : Except Err http.Response)
  | done (success : Bool)
  | sleep (delay : time.Duration)
deriving DecidableEq, Repr

/-- The surroundings of a client, over states `σ` that hold everything that
changes outside the call (the breaker, the upstream server, the clock and the
caller's context).

* `Marshal` is `json.Marshal` on a payload;
* `NewRequestWithContext` is `http.NewRequestWithContext` for a method and a
  URL, by the error it returns;
* `Allow` is `breaker.Allow()`: an error, or the completion callback;
* `Do` is `httpClient.Do(request)`;
* `Sleep` is the `select` of `wait`, which ends when the context is done or
  the timer fires. -/
structure World (σ : Type) where
  Marshal : List (GoString × GoString) → Except Err (List Nat)
  NewRequestWithContext : GoString → GoString → Option Err
  Allow : σ → Except Err (Bool → σ → σ) × σ
  Do : http.Request → σ → Except Err http.Response × σ
  Sleep : time.Duration → σ → σ

/-- The fields of `Client` that do not change; the breaker it points to is
part of the surroundings. -/
structure Client where
  baseURL : GoString
  retry : config.GreenAPIRetryConfig

/-- What a call of the client gives: the pair it returns, the state of the
surroundings afterwards, and what it did. -/
structure Run (σ : Type) where
  resp : Response
  err : Option Err
  state : σ
  events : List Event

/-- The predicate `ReadyToTrip` that `NewClient` hands to the breaker. -/
def ReadyToTrip (cfg : config.CircuitBreakerConfig) (counts : gobreaker.Counts) : Bool :=
  if counts.Requests < cfg.MinRequests then false
  else if counts.ConsecutiveFailures ≥ cfg.ConsecutiveFailures then true
  else if counts.Requests = 0 then false
  else
    -- failureRatio >= cfg.CircuitBreaker.FailureRatio
    cfg.FailureRatio counts.TotalFailures counts.Requests

/-- The settings that `NewClient` builds the breaker from. -/
def NewClient.settings (cfg : config.GreenAPIConfig) : gobreaker.Settings :=
  { Name := cfg.CircuitBreaker.Name
    MaxRequests := cfg.CircuitBreaker.HalfOpenMaxRequests
    Interval := cfg.CircuitBreaker.Interval
    Timeout := cfg.CircuitBreaker.OpenTimeout
    ReadyToTrip := ReadyToTrip cfg.CircuitBreaker }

/-- The breaker that `NewClient` creates, at the time `now`. -/
def NewClient.breaker (cfg : config.GreenAPIConfig) (now : time.Time) :
    gobreaker.CircuitBreaker :=
  gobreaker.NewCircuitBreaker (NewClient.settings cfg) now

def NewClient (cfg : config.GreenAPIConfig) : Client :=
  { baseURL := strings.TrimRight cfg.BaseURL (str "/")
    retry := cfg.Retry }

def readResponse (resp : http.Response) : Response × Option Err :=
  match resp.Body with
  | .error err => (Response.zero, some err)
  | .ok body =>
    ({ StatusCode := resp.StatusCode
       Body := body
       ContentType := resp.Header.Get (str "Content-Type")
       Headers := resp.Header }, none)

namespace Client

variable {σ : Type}

/-- The method `executeOnce`: the response or the error, the state
afterwards and the events. -/
def executeOnce (_c : Client) (w : World σ) (method fullURL : GoString) (body : List Nat)
    (st : σ) : Except Err http.Response × σ × List Event :=
  match w.NewRequestWithContext method fullURL with
  | some err => (.error (.wrapError "build request: %w" err), st, [])
  | none =>
    let request : http.Request :=
      { Method := method, URL := fullURL, Body := body
        Header := [(str "Content-Type", [str "application/json"])] }
    match w.Allow st with
    | (.error err, st) => (.error err, st, [.allow (some err)])
    | (.ok done, st) =>
      match w.Do request st with
      | (.error err, st) =>
        (.error err, done false st,
          [.allow none, .transport request (.error err), .done false])
      | (.ok response, st) =>
        (.ok response, done (response.StatusCode < http.StatusInternalServerError) st,
          [.allow none, .transport request (.ok response),
            .done (response.StatusCode < http.StatusInternalServerError)])

/-- The method `wait`. -/
def wait (_c : Client) (w : World σ) (delay : time.Duration) (st : σ) : σ × List Event :=
  if delay ≤ 0 then (st, [])
  else (w.Sleep delay st, [.sleep delay])

/-- The loop of `do` from the attempt `attempt` on; `fuel` is the number of
iterations left before `attempt` exceeds `maxAttempts`. -/
def attempts (c : Client) (w : World σ) (method fullURL : GoString) (body : List Nat)
    (maxAttempts : Int) : Nat → Int → σ → Run σ
  | 0, _, st =>
    ⟨Response.zero, some (.UpstreamErrorBare "green-api request failed after retries"), st, []⟩
  | fuel + 1, attempt, st =>
    if attempt ≤ maxAttempts then
      match c.executeOnce w method fullURL body st with
      | (.error err, st, evs) =>
        if attempt < maxAttempts ∧ shouldRetryError err then
          let (st, evs2) := c.wait w c.retry.Delay st
          let r := attempts c w method fullURL body maxAttempts fuel (attempt + 1) st
          { r with events := evs ++ evs2 ++ r.events }
        else if err.Is .ErrOpenState ∨ err.Is .ErrTooManyRequests then
          ⟨Response.zero,
            some (.UpstreamError "green-api circuit breaker is open"
              (.wrapErrorV "%w: %v" (.sentinel .ErrCircuitBreakerOpen) err)), st, evs⟩
        else
          ⟨Response.zero, some (.UpstreamError "green-api request failed" err), st, evs⟩
      | (.ok resp, st, evs) =>
        match readResponse resp with
        | (_, some readErr) =>
          ⟨Response.zero, some (.UpstreamError "read green-api response" readErr), st, evs⟩
        | (response, none) =>
          if response.StatusCode ≥ http.StatusInternalServerError ∧ attempt < maxAttempts then
            let (st, evs2) := c.wait w c.retry.Delay st
            let r := attempts c w method fullURL body maxAttempts fuel (attempt + 1) st
            { r with events := evs ++ evs2 ++ r.events }
          else
            ⟨response, none, st, evs⟩
    else
      ⟨Response.zero, some (.UpstreamErrorBare "green-api request failed after retries"), st, []⟩

/-- The method `do`. -/
def «do» (c : Client) (w : World σ) (method path : GoString) (payload : Payload) (st : σ) :
    Run σ :=
  let fullURL := c.baseURL ++ path
  match url.ParseRequestURI fullURL with
  | .error err =>
    ⟨Response.zero,
      some (.UpstreamError "invalid upstream url" (.urlError "parse" fullURL (.parse err))),
      st, []⟩
  | .ok _ =>
    let marshalled : Except Err (List Nat) :=
      match payload with
      | none => .ok []
      | some entries => w.Marshal entries
    match marshalled with
    | .error err => ⟨Response.zero, some (.wrapError "marshal payload: %w" err), st, []⟩
    | .ok bodyBytes =>
      let maxAttempts := wrapInt (c.retry.MaxRetries + 1)
      c.attempts w method fullURL bodyBytes maxAttempts maxAttempts.toNat 1 st

def GetSettings (c : Client) (w : World σ) (idInstance apiTokenInstance : GoString) (st : σ) :
    Run σ :=
  let path := str "/waInstance" ++ idInstance ++ str "/getSettings/" ++ apiTokenInstance
  c.do w http.MethodGet path none st

def GetStateInstance (c : Client) (w : World σ) (idInstance apiTokenInstance : GoString)
    (st : σ) : Run σ :=
  let path := str "/waInstance" ++ idInstance ++ str "/getStateInstance/" ++ apiTokenInstance
  c.do w http.MethodGet path none st

def SendMessage (c : Client) (w : World σ)
    (idInstance apiTokenInstance chatID message : GoString) (st : σ) : Run σ :=
  let path := str "/waInstance" ++ idInstance ++ str "/sendMessage/" ++ apiTokenInstance
  let payload := [(str "chatId", chatID), (str "message", message)]
  c.do w http.MethodPost path (some payload) st

def SendFileByURL (c : Client) (w : World σ)
    (idInstance apiTokenInstance chatID urlFile fileName : GoString) (st : σ) : Run σ :=
  let path := str "/waInstance" ++ idInstance ++ str "/sendFileByUrl/" ++ apiTokenInstance
  let payload := [(str "chatId", chatID), (str "urlFile", urlFile), (str "fileName", fileName)]
  c.do w http.MethodPost path (some payload) st

end Client

/-! ## Vocabulary of the statements -/

/-- The chat address suffix `"@c.us"`. -/
def chatSuffix : GoString := str "@c.us"

/-- A non-empty string of decimal digits. -/
def Digits (s : GoString) : Prop := s ≠ [] ∧ ∀ b ∈ s, 48 ≤ b ∧ b ≤ 57

instance (s : GoString) : Decidable (Digits s) := by
  unfold Digits; infer_instance

/-- The outcome is a validation error: no call was made on the client, the
response is the zero value, and the error has status 400 and the code
`"validation_error"`. -/
def Outcome.IsValidationError (o : Outcome) : Prop :=
  o.calls = [] ∧ o.resp = Response.zero ∧
    ∃ e, o.apiErr = some e ∧ e.StatusCode = 400 ∧ e.Code = str "validation_error"

/-- The details of the error of the outcome are the map with the field name
and the message. -/
def Outcome.HasFieldDetails (o : Outcome) (field : String) (message : GoString) : Prop :=
  ∃ e, o.apiErr = some e ∧
    e.Details = .fields [(str "field", str field), (str "message", message)]

/-- The end that the four operations share once validation has passed: the
one call on the client, and the mapping of what it returns. -/
def Service.forward (s : Service) (call : ClientCall) : Outcome :=
  match s.client call with
  | (_, some callErr) => ⟨[call], Response.zero, some (mapUpstreamError callErr)⟩
  | (resp, none) => ⟨[call], resp, none⟩

/-- The pair that an operation returns is exactly one of a response and an
error: either the error is `nil`, one call was made on the client and the
response is the one that this call returned with a `nil` error, or the error
is not `nil` and the response is the zero value. -/
def Outcome.ExactlyOne (s : Service) (o : Outcome) : Prop :=
  (o.apiErr = none ∧ ∃ call, o.calls = [call] ∧ s.client call = (o.resp, none))
  ∨ (o.apiErr ≠ none ∧ o.resp = Response.zero)

/-- The results of the transport attempts among the events, in order. -/
def transportResults : List Event → List (Except Err http.Response)
  | [] => []
  | .transport _ result :: rest => result :: transportResults rest
  | _ :: rest => transportResults rest

/-- The requests of the transport attempts among the events, in order. -/
def transportRequests : List Event → List http.Request
  | [] => []
  | .transport request _ :: rest => request :: transportRequests rest
  | _ :: rest => transportRequests rest

/-- One step of scripted surroundings: the next admission is refused with an
error, or it is granted and the round trip gives the result. -/
inductive Step where
  | rejected (err : Err)
  | answered (result : Except Err http.Response)
deriving DecidableEq, Repr

/-- Scripted surroundings: the state is the list of the steps to come. The
breaker and the transport do what the script says at each attempt, whatever
the client did before; requests can always be built and payloads encoded
(to `encoded`); waiting changes nothing. -/
def scriptWorld (encoded : List Nat) : World (List Step) where
  Marshal := fun _ => .ok encoded
  NewRequestWithContext := fun _ _ => none
  Allow := fun st =>
    match st with
    | .rejected err :: rest => (.error err, rest)
    | _ => (.ok (fun _ s => s), st)
  Do := fun _ st =>
    match st with
    | .answered result :: rest => (result, rest)
    | _ => (.error (.errorString "no answer"), st.tail)
  Sleep := fun _ st => st

/-- A response of the upstream server with a readable body. -/
def http.Response.ofStatus (status : Int) (body : List Nat) : http.Response :=
  ⟨status, [], .ok body⟩

/-- The configuration `testConfig(baseURL)` of `client_test.go`. With the
failure ratio 1, the quotient of two counters reaches the ratio exactly when
the failures are no fewer than the requests. -/
def testConfig (baseURL : GoString) : config.GreenAPIConfig :=
  { BaseURL := baseURL
    TimeoutSeconds := 2
    Retry := { MaxRetries := 2, DelaySeconds := 1 }
    CircuitBreaker :=
      { Name := str "test-breaker"
        ConsecutiveFailures := 50
        HalfOpenMaxRequests := 1
        OpenTimeoutSeconds := 60
        IntervalSeconds := 60
        FailureRatio := fun failures requests => decide (requests ≤ failures)
        MinRequests := 100 } }

/-- The header that `executeOnce` sets on every request. -/
def jsonHeader : http.Header := [(str "Content-Type", [str "application/json"])]

/-- The script in which every admission is granted and the round trips give
the responses of the list, one after the other. -/
def answers (rs : List http.Response) : List Step :=
  rs.map (fun r => Step.answered (.ok r))

/-- The response is of status 500 or more and its body can be read. -/
def http.Response.IsServerError (r : http.Response) : Prop :=
  r.StatusCode ≥ 500 ∧ ∃ body, r.Body = .ok body

/-- The response is of a status below 500 and its body can be read. -/
def http.Response.IsBelow500 (r : http.Response) : Prop :=
  r.StatusCode < 500 ∧ ∃ body, r.Body = .ok body

instance (r : http.Response) : Decidable r.IsServerError := by
  unfold http.Response.IsServerError
  cases h : r.Body with
  | error e => exact isFalse (by simp)
  | ok b => exact decidable_of_iff (r.StatusCode ≥ 500) (by simp)

instance (r : http.Response) : Decidable r.IsBelow500 := by
  unfold http.Response.IsBelow500
  cases h : r.Body with
  | error e => exact isFalse (by simp)
  | ok b => exact decidable_of_iff (r.StatusCode < 500) (by simp)

/-- What `"http://upstream"` followed by a path parses to. -/
def upstreamURL (path : GoString) : url.URL :=
  { Scheme := str "http", Host := str "upstream", Path := path }

/-- The state of the surroundings of a client that one caller uses at a
time: the breaker of the client, the number of readings of the clock made so
far, and the number of round trips made so far. -/
structure Live where
  breaker : gobreaker.CircuitBreaker
  tick : Nat
  sent : Nat

/-- The surroundings of a client with its own breaker: `clock n` is the
`n`-th reading of `time.Now()` and `server n` what the `n`-th round trip
gives. The breaker is asked through `beforeRequest`, and the completion
callback is `afterRequest` for the generation of the admission. -/
def liveWorld (clock : Nat → time.Time) (server : Nat → Except Err http.Response) :
    World Live where
  Marshal := fun _ => .ok []
  NewRequestWithContext := fun _ _ => none
  Allow := fun st =>
    match st.breaker.beforeRequest (clock st.tick) with
    | ((_, some e), cb) => (.error (.sentinel e), { st with breaker := cb, tick := st.tick + 1 })
    | ((generation, none), cb) =>
      (.ok (fun success st2 =>
          { st2 with
            breaker := st2.breaker.afterRequest generation success (clock st2.tick)
            tick := st2.tick + 1 }),
        { st with breaker := cb, tick := st.tick + 1 })
  Do := fun _ st => (server st.sent, { st with sent := st.sent + 1 })
  Sleep := fun _ st => st

/-- The configuration of the test `TestClient_CircuitBreakerOpenAfterFailure`:
no retry, and a breaker that trips at the first failure and stays open for
300 seconds; counts are cleared every 60 seconds while it is closed. -/
def tripConfig : config.GreenAPIConfig :=
  { testConfig (str "http://upstream") with
    Retry := { MaxRetries := 0, DelaySeconds := 1 }
    CircuitBreaker :=
      { (testConfig (str "http://upstream")).CircuitBreaker with
        ConsecutiveFailures := 1
        MinRequests := 1
        OpenTimeoutSeconds := 300 } }

/-- A clock for `tripConfig`, in nanoseconds: the first call is admitted 59.5
seconds after the client was created at the second 1, its response is there
one second later, and the next call follows at once. -/
def straddlingClock : Nat → time.Time
  | 0 => 60500000000
  | _ => 61500000000

/-- A server that answers the first round trip with the status 500 and the
later ones with 200. -/
def failingOnce : Nat → Except Err http.Response
  | 0 => .ok (http.Response.ofStatus 500 [])
  | _ => .ok (http.Response.ofStatus 200 [])

/-- The end of the counting interval that is running once a client created at
the time `created` has admitted a call at the time `admitted`; zero when the
breaker counts without intervals. -/
def intervalEnd (cfg : config.GreenAPIConfig) (created admitted : time.Time) : time.Time :=
  ((NewClient.breaker cfg created).beforeRequest admitted).2.expiry

/-- The state of the surroundings when a client created at the time `created`
has not been used yet. -/
def freshState (cfg : config.GreenAPIConfig) (created : time.Time) : Live :=
  ⟨NewClient.breaker cfg created, 0, 0⟩

/-- The state of surroundings in which the caller cancels the context:
whether the context is cancelled, and the number of answers given so far. -/
structure Cancellable where
  cancelled : Bool
  sent : Nat
deriving DecidableEq, Repr

/-- Surroundings in which the breaker admits every request, the server
answers with the status 500, and the caller cancels the context during the
first wait, which ends the wait at once. With a cancelled context,
`httpClient.Do` returns a `*url.Error` that holds `context.Canceled`. -/
def cancelWorld : World Cancellable where
  Marshal := fun _ => .ok []
  NewRequestWithContext := fun _ _ => none
  Allow := fun st => (.ok (fun _ s => s), st)
  Do := fun request st =>
    if st.cancelled then (.error (.urlError "Get" request.URL (.sentinel .Canceled)), st)
    else (.ok (http.Response.ofStatus 500 []), { st with sent := st.sent + 1 })
  Sleep := fun _ st => { st with cancelled := true }

/-- The chain of an error: the error itself, then the error that its
`Unwrap` method gives, and so on, as `errors.Is` and `errors.As` walk it. -/
def Err.chain : Err → List Err
  | .sentinel s => [.sentinel s]
  | .errorString text => [.errorString text]
  | .wrapError format err => .wrapError format err :: chain err
  | .wrapErrorV format err v => .wrapErrorV format err v :: chain err
  | .UpstreamError message cause => .UpstreamError message cause :: chain cause
  | .UpstreamErrorBare message => [.UpstreamErrorBare message]
  | .parse e => [.parse e]
  | .urlError op u err => .urlError op u err :: chain err
  | .foreign text timeout is => [.foreign text timeout is]
  | .foreignWrap text timeout is inner => .foreignWrap text timeout is inner :: chain inner

/-- The error is, or wraps, a `net.Error` whose `Timeout()` is true: some
error of its chain implements `net.Error` and answers true. -/
def Err.WrapsTimeout (err : Err) : Prop :=
  ∃ e ∈ err.chain, e.TimeoutMethod = some true

/-- The first error of the chain that implements `net.Error` answers true to
`Timeout()`. -/
def Err.FirstNetErrorTimesOut (err : Err) : Prop :=
  (err.chain.filterMap Err.TimeoutMethod).head? = some true

/-- The error is, or wraps, a `net.Error`, and the first one of its chain
answers false to `Timeout()`. -/
def Err.FirstNetErrorIsNoTimeout (err : Err) : Prop :=
  (err.chain.filterMap Err.TimeoutMethod).head? = some false

instance (err : Err) : Decidable err.WrapsTimeout := by
  unfold Err.WrapsTimeout
  infer_instance

instance (err : Err) : Decidable err.FirstNetErrorTimesOut := by
  unfold Err.FirstNetErrorTimesOut
  infer_instance

instance (err : Err) : Decidable err.FirstNetErrorIsNoTimeout := by
  unfold Err.FirstNetErrorIsNoTimeout
  infer_instance

/-- A `*url.Error` of `httpClient.Do` that holds a value of
`fmt.Errorf("read: %w", e)`, where `e` is a `net.Error` whose `Timeout()` is
true and that matches none of the error variables, such as
`os.ErrDeadlineExceeded`. -/
def hiddenTimeout : Err :=
  .urlError "Get" (str "http://upstream/waInstance1/getSettings/t")
    (.wrapError "read: %w" (.foreign (str "i/o timeout") (some true) []))

/-- A `*url.Error` of `httpClient.Do` that holds a `*net.OpError` of a
refused connection: a `net.Error` whose `Timeout()` is false. -/
def connectionRefused : Err :=
  .urlError "Get" (str "http://upstream/waInstance1/getSettings/t")
    (.foreign (str "connect: connection refused") (some false) [])

/-- A `*url.Error` of `httpClient.Do` when the timeout of the HTTP client has
passed: it holds a `net.Error` whose `Timeout()` is true. -/
def clientTimeout : Err :=
  .urlError "Get" (str "http://upstream/waInstance1/getSettings/t")
    (.foreign (str "Client.Timeout exceeded while awaiting headers") (some true) [])

/-- The number of times the breaker was asked for an admission among the
events. -/
def admissions : List Event → Nat
  | [] => 0
  | .allow _ :: rest => admissions rest + 1
  | _ :: rest => admissions rest

/-- An attempt of a call that another attempt follows, by what it leaves
among the events: the breaker admitted it, the round trip gave `result` and
`report` was reported to the breaker; or the breaker refused it with `err`.
In both cases `waited` is whether the wait after the attempt slept. -/
inductive EarlierAttempt where
  | admitted (result : Except Err http.Response) (report : Bool) (waited : Bool)
  | refused (err : Err) (waited : Bool)
deriving DecidableEq, Repr

/-- The events of an attempt that another attempt follows, for the request of
the call and the delay of the client. -/
def EarlierAttempt.events (request : http.Request) (delay : time.Duration) :
    EarlierAttempt → List Event
  | .admitted result report waited =>
    [.allow none, .transport request result, .done report]
      ++ (if waited then [.sleep delay] else [])
  | .refused err waited => .allow (some err) :: (if waited then [.sleep delay] else [])

/-- The result of the round trip of an attempt, if it made one. -/
def EarlierAttempt.result : EarlierAttempt → Option (Except Err http.Response)
  | .admitted result _ _ => some result
  | .refused _ _ => none

/-- The events of a sequence of attempts, one after the other. -/
def earlierEvents (request : http.Request) (delay : time.Duration) :
    List EarlierAttempt → List Event
  | [] => []
  | a :: rest => a.events request delay ++ earlierEvents request delay rest

/-- The upstream calls of an operation that hands `request` to the HTTP
client, in surroundings `w` that are in the state `st`, by the events of the
operation:

* every round trip of the operation carries `request`;
* when the URL of `request` does not pass `url.ParseRequestURI`, nothing is
  attempted;
* when it passes, the request can be built, at least one attempt is allowed
  and the breaker admits the first attempt, the operation begins with that
  admission and the round trip of `request`. -/
def CallsUpstream {σ : Type} (w : World σ) (maxRetries : Int) (st : σ) (events : List Event)
    (request : http.Request) : Prop :=
  (∀ req ∈ transportRequests events, req = request)
  ∧ ((∀ u, url.ParseRequestURI request.URL ≠ .ok u) → events = [])
  ∧ ((∃ u, url.ParseRequestURI request.URL = .ok u) →
    w.NewRequestWithContext request.Method request.URL = none →
    1 ≤ wrapInt (maxRetries + 1) →
    ∀ done st1, w.Allow st = (.ok done, st1) →
      ∃ rest, events = .allow none :: .transport request (w.Do request st1).1 :: rest)

/-- A test client: every call is answered with status 200 and no error. -/
def okClient : GreenAPIClient := fun _ => (⟨200, [], [], []⟩, none)

/-- A test validator: the rule `url` accepts every text. -/
def laxValidate : Validate := ⟨fun _ => true, fun _ => str "validation failed"⟩

/-! # Theorems -/

/-! ## Facts about the library functions -/

theorem matchString_iff (s : GoString) : digitsOnly.MatchString s = true ↔ Digits s := by
  unfold digitsOnly.MatchString Digits isDigit
  cases s with
  | nil => simp
  | cons a t => simp [List.all_eq_true]

theorem matchString_false_iff (s : GoString) : digitsOnly.MatchString s = false ↔ ¬ Digits s := by
  rw [← matchString_iff]; simp

theorem scanStart_of_head (c : Nat) (t : GoString) (h1 : c < 128)
    (h2 : strings.asciiSpace c = false) : strings.scanStart (c :: t) = .done (c :: t) := by
  have h3 : ¬ c ≥ utf8.RuneSelf := by unfold utf8.RuneSelf; omega
  simp [strings.scanStart, h2, h3]

theorem scanStop_of_head (c : Nat) (t : GoString) (h1 : c < 128)
    (h2 : strings.asciiSpace c = false) : strings.scanStop (c :: t) = .done (c :: t) := by
  have h3 : ¬ c ≥ utf8.RuneSelf := by unfold utf8.RuneSelf; omega
  simp [strings.scanStop, h2, h3]

/-- A string whose first and last bytes are ASCII and not spaces is left as
it is by `TrimSpace`. -/
theorem trimSpace_of_ends (s : GoString) (hne : s ≠ [])
    (hh : ∀ c ∈ s.head?, c < 128 ∧ strings.asciiSpace c = false)
    (hl : ∀ c ∈ s.getLast?, c < 128 ∧ strings.asciiSpace c = false) :
    strings.TrimSpace s = s := by
  obtain ⟨a, t, rfl⟩ := List.exists_cons_of_ne_nil hne
  have ha := hh a (by simp)
  have hr : (a :: t).reverse ≠ [] := by simp
  obtain ⟨z, u, hzu⟩ := List.exists_cons_of_ne_nil hr
  have hz : z ∈ (a :: t).getLast? := by
    have : (a :: t).getLast? = ((a :: t).reverse).head? := by
      rw [List.head?_reverse]
    rw [this, hzu]; simp
  have hz2 := hl z hz
  unfold strings.TrimSpace
  rw [scanStart_of_head a t ha.1 ha.2]
  simp only
  rw [hzu, scanStop_of_head z u hz2.1 hz2.2]
  simp only
  rw [← hzu, List.reverse_reverse]

theorem not_space_of_digit (b : Nat) (h : 48 ≤ b ∧ b ≤ 57) :
    b < 128 ∧ strings.asciiSpace b = false := by
  refine ⟨by omega, ?_⟩
  unfold strings.asciiSpace
  simp only [decide_eq_false_iff_not]
  omega

theorem trimSpace_digits (s : GoString) (h : Digits s) : strings.TrimSpace s = s := by
  apply trimSpace_of_ends s h.1
  · intro c hc
    exact not_space_of_digit c (h.2 c (List.mem_of_mem_head? hc))
  · intro c hc
    exact not_space_of_digit c (h.2 c (List.mem_of_mem_getLast? hc))

theorem hasSuffix_iff (s suffix : GoString) :
    strings.HasSuffix s suffix = true ↔ ∃ d, s = d ++ suffix := by
  unfold strings.HasSuffix
  simp only [ge_iff_le, Bool.and_eq_true, decide_eq_true_eq, beq_iff_eq]
  constructor
  · rintro ⟨_, h2⟩
    refine ⟨s.take (s.length - suffix.length), ?_⟩
    conv_lhs => rw [← List.take_append_drop (s.length - suffix.length) s]
    rw [h2]
  · rintro ⟨d, rfl⟩
    simp

theorem trimSuffix_append (d suffix : GoString) :
    strings.TrimSuffix (d ++ suffix) suffix = d := by
  unfold strings.TrimSuffix
  rw [if_pos ((hasSuffix_iff _ _).2 ⟨d, rfl⟩)]
  simp

theorem trimSuffix_of_not (s suffix : GoString) (h : strings.HasSuffix s suffix = false) :
    strings.TrimSuffix s suffix = s := by
  unfold strings.TrimSuffix
  simp [h]

theorem chatSuffix_eq : chatSuffix = str "@c.us" := rfl

theorem chatSuffix_val : chatSuffix = [64, 99, 46, 117, 115] := by decide

/-- A string of digits does not end in the chat suffix. -/
theorem digits_not_hasSuffix (c : GoString) (h : Digits c) :
    strings.HasSuffix c chatSuffix = false := by
  cases hs : strings.HasSuffix c chatSuffix with
  | false => rfl
  | true =>
    obtain ⟨d, rfl⟩ := (hasSuffix_iff _ _).1 hs
    have := h.2 115 (by rw [chatSuffix_val]; simp)
    omega

theorem digits_ne_append_suffix (c d : GoString) (h : Digits c) : c ≠ d ++ chatSuffix := by
  intro hc
  have := digits_not_hasSuffix c h
  rw [hc, (hasSuffix_iff _ _).2 ⟨d, rfl⟩] at this
  cases this

/-- The result of `NormalizeChatID` by the shape of the trimmed input. -/
theorem normalizeChatID_eq (raw : GoString) :
    NormalizeChatID raw =
      if strings.TrimSpace raw = [] then
        ([], some (fmt.Errorf "chatId is required"))
      else if strings.HasSuffix (strings.TrimSpace raw) chatSuffix then
        if Digits (strings.TrimSuffix (strings.TrimSpace raw) chatSuffix) then
          (strings.TrimSpace raw, none)
        else ([], some (fmt.Errorf "chatId must contain only digits before @c.us"))
      else if Digits (strings.TrimSpace raw) then
        (strings.TrimSpace raw ++ chatSuffix, none)
      else ([], some (fmt.Errorf "chatId must contain only digits")) := by
  unfold NormalizeChatID
  rw [← chatSuffix_eq]
  simp only
  by_cases h1 : strings.TrimSpace raw = []
  · simp [h1]
  · by_cases h2 : strings.HasSuffix (strings.TrimSpace raw) chatSuffix = true
    · by_cases h3 : Digits (strings.TrimSuffix (strings.TrimSpace raw) chatSuffix)
      · have h4 := (matchString_iff _).2 h3
        simp [h1, h2, h3, h4, h3.1]
      · have h4 := (matchString_false_iff _).2 h3
        simp [h1, h2, h3, h4]
    · by_cases h3 : Digits (strings.TrimSpace raw)
      · have h4 := (matchString_iff _).2 h3
        simp [h1, h2, h3, h4]
      · have h4 := (matchString_false_iff _).2 h3
        simp [h1, h2, h3, h4]

/-! ## Facts about `path.Base` and `url.PathUnescape` -/

theorem index_singleton_none (s : GoString) (c : Nat) :
    strings.Index s [c] = none ↔ c ∉ s := by
  induction s with
  | nil => simp [strings.Index]
  | cons a t ih =>
    unfold strings.Index
    by_cases h : c = a
    · subst h
      simp [List.isPrefixOf]
    · have h2 : ¬ a = c := fun e => h e.symm
      simp [List.isPrefixOf, h, h2, ih]

theorem contains_singleton_false (s : GoString) (c : Nat) :
    strings.Contains s [c] = false ↔ c ∉ s := by
  unfold strings.Contains
  rw [← index_singleton_none]
  cases strings.Index s [c] <;> simp

theorem lastIndexByte_none (n : GoString) (c : Nat) (h : c ∉ n) :
    strings.LastIndexByte n c = none := by
  induction n with
  | nil => rfl
  | cons a t ih =>
    have h1 : c ∉ t := fun hm => h (List.mem_cons_of_mem _ hm)
    have h2 : ¬ a = c := fun e => h (by simp [e])
    simp [strings.LastIndexByte, ih h1, h2]

theorem lastIndexByte_append (p n : GoString) (c : Nat) (h : c ∉ n) :
    strings.LastIndexByte (p ++ c :: n) c = some p.length := by
  induction p with
  | nil => simp [strings.LastIndexByte, lastIndexByte_none n c h]
  | cons a t ih => simp [strings.LastIndexByte, ih]

theorem dropWhile_reverse_of_last (s : GoString) (f : Nat → Bool)
    (h : ∀ c ∈ s.getLast?, f c = false) : (s.reverse.dropWhile f).reverse = s := by
  cases hs : s.reverse with
  | nil =>
    have : s = [] := by simpa using hs
    simp [this]
  | cons z u =>
    have hz : s.getLast? = some z := by
      rw [← List.head?_reverse, hs]; rfl
    have := h z (by simp [hz])
    rw [List.dropWhile_cons_of_neg (by simp [this]), ← hs, List.reverse_reverse]

/-- The base of a path that ends in a slash and a name without slashes is
that name. -/
theorem base_leaf (p n : GoString) (hne : n ≠ []) (hs : 47 ∉ n) :
    path.Base (p ++ str "/" ++ n) = n := by
  have hstr : str "/" = [47] := by decide
  have hslash : '/'.toNat = 47 := by decide
  rw [hstr]
  unfold path.Base
  have h0 : p ++ [47] ++ n ≠ [] := by simp
  rw [if_neg h0, hslash]
  have hlast : ∀ c ∈ (p ++ [47] ++ n).getLast?, (fun c => c == 47) c = false := by
    intro c hc
    rw [List.getLast?_append_of_ne_nil _ hne] at hc
    have : c ∈ n := List.mem_of_mem_getLast? hc
    have : c ≠ 47 := fun e => hs (e ▸ this)
    simpa using this
  simp only
  rw [dropWhile_reverse_of_last _ _ hlast]
  have : p ++ [47] ++ n = p ++ 47 :: n := by simp
  rw [this, lastIndexByte_append p n 47 hs]
  simp [hne]

theorem base_append_slash (q : GoString) (hq : q ≠ []) :
    path.Base (q ++ str "/") = path.Base q := by
  have hstr : str "/" = [47] := by decide
  have hslash : '/'.toNat = 47 := by decide
  rw [hstr]
  unfold path.Base
  have h0 : q ++ [47] ≠ [] := by simp
  rw [if_neg h0, if_neg hq, hslash]
  simp

theorem base_all_slashes (p : GoString) (h : ∀ b ∈ p, b = 47) :
    path.Base p = str "." ∨ path.Base p = str "/" := by
  have hslash : '/'.toNat = 47 := by decide
  unfold path.Base
  by_cases h0 : p = []
  · simp [h0]
  · rw [if_neg h0, hslash]
    right
    have hd : p.reverse.dropWhile (fun c => c == 47) = [] := by
      rw [List.dropWhile_eq_nil_iff]
      intro x hx
      simp [h x (List.mem_reverse.1 hx)]
    simp [hd, strings.LastIndexByte]

theorem unescapeScan_no_percent (s : GoString) (n : Nat) (h : 37 ∉ s) :
    url.unescapeScan .encodePathSegment s n false = .ok (n, false) := by
  have hpc : '%'.toNat = 37 := by decide
  induction s with
  | nil => rfl
  | cons a t ih =>
    have h1 : 37 ∉ t := fun hm => h (List.mem_cons_of_mem _ hm)
    have h2 : ¬ a = 37 := fun e => h (by simp [e])
    unfold url.unescapeScan
    rw [hpc, if_neg h2]
    by_cases h3 : a = '+'.toNat
    · rw [if_pos h3]
      simpa using ih h1
    · rw [if_neg h3]
      simpa using ih h1

/-- A name without a percent sign is its own decoding. -/
theorem pathUnescape_no_percent (s : GoString) (h : 37 ∉ s) :
    url.PathUnescape s = .ok s := by
  unfold url.PathUnescape url.unescape
  rw [unescapeScan_no_percent s 0 h]
  simp

/-! ## `NormalizeChatID` -/

/-- C1: for every non-empty string `s` of decimal digits,
`NormalizeChatID(s)` returns `s` with the suffix `"@c.us"` appended and a
`nil` error. -/
theorem normalizeChatID_digits (s : GoString) (h : Digits s) :
    NormalizeChatID s = (s ++ str "@c.us", none) := by
  rw [normalizeChatID_eq, trimSpace_digits s h, digits_not_hasSuffix s h]
  simp [h, h.1, chatSuffix_eq]

theorem normalizeChatID_digits_witness :
    Digits (str "77771234567") ∧
      NormalizeChatID (str "77771234567") = (str "77771234567" ++ str "@c.us", none) :=
  ⟨by decide, normalizeChatID_digits (str "77771234567") (by decide)⟩

/-- C2: `NormalizeChatID(raw)` returns an error if and only if the trimmed
input is neither a non-empty string of digits nor such a string followed by
`"@c.us"`. In particular the trimmed inputs that are empty, that are not all
digits and carry no suffix, and that carry the suffix after an empty or
non-digit part are rejected, and so are `""`, `"abc"`, `"@c.us"` and
`"12a@c.us"`. -/
theorem normalizeChatID_error_iff :
    (∀ raw : GoString, (NormalizeChatID raw).2 ≠ none ↔
      ¬ (Digits (strings.TrimSpace raw) ∨
          ∃ d, Digits d ∧ strings.TrimSpace raw = d ++ str "@c.us"))
    ∧ (∀ raw : GoString, strings.TrimSpace raw = [] → (NormalizeChatID raw).2 ≠ none)
    ∧ (∀ raw : GoString, ¬ Digits (strings.TrimSpace raw) →
        strings.HasSuffix (strings.TrimSpace raw) (str "@c.us") = false →
        (NormalizeChatID raw).2 ≠ none)
    ∧ (∀ raw p : GoString, strings.TrimSpace raw = p ++ str "@c.us" → ¬ Digits p →
        (NormalizeChatID raw).2 ≠ none)
    ∧ (NormalizeChatID (str "")).2 ≠ none
    ∧ (NormalizeChatID (str "abc")).2 ≠ none
    ∧ (NormalizeChatID (str "@c.us")).2 ≠ none
    ∧ (NormalizeChatID (str "12a@c.us")).2 ≠ none := by
  have main : ∀ raw : GoString, (NormalizeChatID raw).2 ≠ none ↔
      ¬ (Digits (strings.TrimSpace raw) ∨
          ∃ d, Digits d ∧ strings.TrimSpace raw = d ++ str "@c.us") := by
    intro raw
    rw [normalizeChatID_eq, ← chatSuffix_eq]
    by_cases h1 : strings.TrimSpace raw = []
    · rw [if_pos h1]
      simp only [ne_eq, reduceCtorEq, not_false_eq_true, true_iff, not_or, not_exists, not_and]
      refine ⟨fun h => h.1 h1, fun d _ h => ?_⟩
      rw [h1] at h
      have := congrArg List.length h
      rw [chatSuffix_val] at this
      simp at this
    · rw [if_neg h1]
      by_cases h2 : strings.HasSuffix (strings.TrimSpace raw) chatSuffix = true
      · rw [if_pos h2]
        obtain ⟨d, hd⟩ := (hasSuffix_iff _ _).1 h2
        rw [hd, trimSuffix_append]
        by_cases h3 : Digits d
        · rw [if_pos h3]
          simp only [ne_eq, not_true_eq_false, false_iff, not_not]
          exact Or.inr ⟨d, h3, rfl⟩
        · rw [if_neg h3]
          simp only [ne_eq, reduceCtorEq, not_false_eq_true, true_iff, not_or, not_exists,
            not_and]
          refine ⟨fun h => digits_ne_append_suffix _ d h rfl, fun e he h => ?_⟩
          exact h3 ((List.append_cancel_right h) ▸ he)
      · rw [if_neg h2]
        by_cases h3 : Digits (strings.TrimSpace raw)
        · rw [if_pos h3]
          simp only [ne_eq, not_true_eq_false, false_iff, not_not]
          exact Or.inl h3
        · rw [if_neg h3]
          simp only [ne_eq, reduceCtorEq, not_false_eq_true, true_iff, not_or, not_exists,
            not_and]
          refine ⟨h3, fun e _ h => h2 ((hasSuffix_iff _ _).2 ⟨e, h⟩)⟩
  refine ⟨main, ?_, ?_, ?_, by decide, by decide, by decide, by decide⟩
  · intro raw h
    rw [main, h]
    rintro (h | ⟨d, _, h⟩)
    · exact h.1 rfl
    · have := congrArg List.length h
      simp [str] at this
  · intro raw h1 h2
    rw [main]
    rintro (h | ⟨d, _, h⟩)
    · exact h1 h
    · rw [(hasSuffix_iff _ _).2 ⟨d, h⟩] at h2
      cases h2
  · intro raw p h1 h2
    rw [main]
    rintro (h | ⟨d, hd, h⟩)
    · exact digits_ne_append_suffix _ p h h1
    · rw [h1] at h
      exact h2 ((List.append_cancel_right h) ▸ hd)

theorem normalizeChatID_error_iff_witness :
    ((NormalizeChatID (str " 12 34 ")).2 ≠ none ↔
      ¬ (Digits (strings.TrimSpace (str " 12 34 ")) ∨
          ∃ d, Digits d ∧ strings.TrimSpace (str " 12 34 ") = d ++ str "@c.us"))
    ∧ (NormalizeChatID (str " \t\n")).2 ≠ none
    ∧ (NormalizeChatID (str "+7 777")).2 ≠ none
    ∧ (NormalizeChatID (str " x1@c.us ")).2 ≠ none :=
  ⟨normalizeChatID_error_iff.1 (str " 12 34 "),
    normalizeChatID_error_iff.2.1 (str " \t\n") (by decide),
    normalizeChatID_error_iff.2.2.1 (str "+7 777") (by decide) (by decide),
    normalizeChatID_error_iff.2.2.2.1 (str " x1@c.us ") (str "x1") (by decide) (by decide)⟩

/-- C3: `NormalizeChatID` is total with no partial success. For every input
it returns either `(d ++ "@c.us", nil)`, where `d` is a non-empty string of
digits and is the trimmed input with an optional trailing `"@c.us"` removed,
or the empty string with an error. -/
theorem normalizeChatID_total (raw : GoString) :
    (Digits (strings.TrimSuffix (strings.TrimSpace raw) (str "@c.us")) ∧
      NormalizeChatID raw =
        (strings.TrimSuffix (strings.TrimSpace raw) (str "@c.us") ++ str "@c.us", none))
    ∨ (∃ err, NormalizeChatID raw = ([], some err)) := by
  rw [normalizeChatID_eq, ← chatSuffix_eq]
  by_cases h1 : strings.TrimSpace raw = []
  · rw [if_pos h1]; exact Or.inr ⟨_, rfl⟩
  · rw [if_neg h1]
    by_cases h2 : strings.HasSuffix (strings.TrimSpace raw) chatSuffix = true
    · rw [if_pos h2]
      obtain ⟨d, hd⟩ := (hasSuffix_iff _ _).1 h2
      rw [hd, trimSuffix_append]
      by_cases h3 : Digits d
      · rw [if_pos h3]; exact Or.inl ⟨h3, rfl⟩
      · rw [if_neg h3]; exact Or.inr ⟨_, rfl⟩
    · rw [if_neg h2]
      have h2f : strings.HasSuffix (strings.TrimSpace raw) chatSuffix = false := by
        simpa using h2
      rw [trimSuffix_of_not _ _ h2f]
      by_cases h3 : Digits (strings.TrimSpace raw)
      · rw [if_pos h3]; exact Or.inl ⟨h3, rfl⟩
      · rw [if_neg h3]; exact Or.inr ⟨_, rfl⟩

/-- C4: `NormalizeChatID` is idempotent. A non-empty string of digits followed
by `"@c.us"` is returned as it is, and so whenever `NormalizeChatID(x)`
succeeds with the value `c`, `NormalizeChatID(c)` returns `c` again. -/
theorem normalizeChatID_idempotent :
    (∀ s : GoString, Digits s →
      NormalizeChatID (s ++ str "@c.us") = (s ++ str "@c.us", none))
    ∧ (∀ x c : GoString, NormalizeChatID x = (c, none) →
      NormalizeChatID c = (c, none)) := by
  have first : ∀ s : GoString, Digits s →
      NormalizeChatID (s ++ str "@c.us") = (s ++ str "@c.us", none) := by
    intro s h
    obtain ⟨a, t, rfl⟩ := List.exists_cons_of_ne_nil h.1
    have htrim : strings.TrimSpace (a :: t ++ chatSuffix) = a :: t ++ chatSuffix := by
      apply trimSpace_of_ends
      · simp
      · intro c hc
        simp only [List.cons_append, List.head?_cons, Option.mem_def, Option.some.injEq] at hc
        exact not_space_of_digit c (h.2 c (by simp [hc]))
      · intro c hc
        rw [chatSuffix_val] at hc
        simp only [List.cons_append, List.getLast?_cons_cons, Option.mem_def] at hc
        rw [← List.cons_append, List.getLast?_append] at hc
        simp only [List.getLast?_cons_cons, List.getLast?_singleton, Option.or,
          Option.some.injEq] at hc
        subst hc
        decide
    rw [normalizeChatID_eq, ← chatSuffix_eq, htrim,
      (hasSuffix_iff _ _).2 ⟨a :: t, rfl⟩, trimSuffix_append]
    simp [h]
  refine ⟨first, ?_⟩
  intro x c hx
  rw [normalizeChatID_eq] at hx
  split_ifs at hx with h1 h2 h3 h4
  · cases hx
  · obtain ⟨d, hd⟩ := (hasSuffix_iff _ _).1 h2
    rw [hd, trimSuffix_append] at h3
    have hc : c = d ++ chatSuffix := by
      rw [← hd]; exact (congrArg Prod.fst hx).symm
    rw [hc]
    exact first d h3
  · cases hx
  · have hc : c = strings.TrimSpace x ++ chatSuffix := (congrArg Prod.fst hx).symm
    rw [hc]
    exact first _ h4
  · cases hx

theorem normalizeChatID_idempotent_witness :
    NormalizeChatID (str "77771234567" ++ str "@c.us") = (str "77771234567" ++ str "@c.us", none)
    ∧ NormalizeChatID (str "123@c.us") = (str "123@c.us", none) :=
  ⟨normalizeChatID_idempotent.1 (str "77771234567") (by decide),
    normalizeChatID_idempotent.2 (str " 123 ") (str "123@c.us") (by decide)⟩

/-! ## `ExtractFileName` -/

theorem runeCountAux_le (s : GoString) : ∀ skip, utf8.runeCountAux skip s ≤ s.length := by
  induction s with
  | nil => intro skip; cases skip <;> simp [utf8.runeCountAux]
  | cons a t ih =>
    intro skip
    cases skip with
    | zero =>
      have := ih ((utf8.DecodeRuneInString (a :: t)).2 - 1)
      simp only [utf8.runeCountAux, List.length_cons]
      omega
    | succ k =>
      have := ih k
      simp only [utf8.runeCountAux, List.length_cons]
      omega

/-- A string has at most as many runes as bytes. -/
theorem runeCount_le_length (s : GoString) : utf8.RuneCountInString s ≤ s.length :=
  runeCountAux_le s 0

/-- The segment that `ExtractFileName` measures: the base of the path,
percent-decoded, or as it is when decoding fails. -/
theorem extractFileName_eq (rawURL : GoString) (u : url.URL)
    (hparse : url.Parse rawURL = .ok u) :
    ExtractFileName rawURL =
      if path.Base u.Path = str "." ∨ path.Base u.Path = str "/" ∨ path.Base u.Path = [] then
        ([], some (fmt.Errorf "cannot extract fileName from urlFile"))
      else if strings.Contains (path.Base u.Path) (str "/")
          ∨ strings.Contains (path.Base u.Path) (str "\\") then
        ([], some (fmt.Errorf "invalid fileName extracted from urlFile"))
      else if (match url.PathUnescape (path.Base u.Path) with
          | .ok decoded => decoded
          | .error _ => path.Base u.Path).length > 255 then
        ([], some (fmt.Errorf "fileName is too long"))
      else
        (match url.PathUnescape (path.Base u.Path) with
          | .ok decoded => decoded
          | .error _ => path.Base u.Path, none) := by
  unfold ExtractFileName
  rw [hparse]

/-- C5 (the code at the failing inputs): a leaf with a doubly encoded slash
or backslash passes the separator test, which runs before the decoding, and
the name returned contains the separator. -/
theorem extractFileName_decoded_separator :
    ExtractFileName (str "https://x/a%252Fb") = (str "a/b", none)
    ∧ ExtractFileName (str "https://x/a%255Cb") = (str "a\\b", none)
    ∧ strings.Contains (str "a/b") (str "/") = true
    ∧ strings.Contains (str "a\\b") (str "\\") = true := by
  decide

/-- C6 (as stated, refuted): the path of `"https://x/path/"` ends with a
slash, and `ExtractFileName` returns `"path"` with a `nil` error. -/
theorem extractFileName_trailing_slash :
    url.Parse (str "https://x/path/")
      = .ok { Scheme := str "https", Host := str "x", Path := str "/path/" }
    ∧ ExtractFileName (str "https://x/path/") = (str "path", none) := by
  decide

/-- C6 (amended): `ExtractFileName` returns an error for every URL whose path
is empty or consists only of slashes. A slash at the end of a non-empty path
is ignored: the result is that of the path without it. -/
theorem extractFileName_no_leaf :
    (∀ (rawURL : GoString) (u : url.URL), url.Parse rawURL = .ok u →
      (∀ b ∈ u.Path, b = '/'.toNat) →
      ∃ err, ExtractFileName rawURL = ([], some err))
    ∧ (∀ (rawURL rawURL2 : GoString) (u u2 : url.URL), url.Parse rawURL = .ok u →
      url.Parse rawURL2 = .ok u2 → u2.Path ≠ [] → u.Path = u2.Path ++ str "/" →
      ExtractFileName rawURL = ExtractFileName rawURL2) := by
  constructor
  · intro rawURL u hparse hall
    rw [extractFileName_eq rawURL u hparse]
    rcases base_all_slashes u.Path hall with h | h
    · rw [if_pos (Or.inl h)]; exact ⟨_, rfl⟩
    · rw [if_pos (Or.inr (Or.inl h))]; exact ⟨_, rfl⟩
  · intro rawURL rawURL2 u u2 hparse hparse2 hne hpath
    rw [extractFileName_eq rawURL u hparse, extractFileName_eq rawURL2 u2 hparse2, hpath,
      base_append_slash _ hne]

theorem extractFileName_no_leaf_witness :
    (∃ err, ExtractFileName (str "https://x//") = ([], some err))
    ∧ ExtractFileName (str "https://x/path/") = ExtractFileName (str "https://x/path") :=
  ⟨extractFileName_no_leaf.1 (str "https://x//")
      { Scheme := str "https", Host := str "x", Path := str "//" } (by decide) (by decide),
    extractFileName_no_leaf.2 (str "https://x/path/") (str "https://x/path")
      { Scheme := str "https", Host := str "x", Path := str "/path/" }
      { Scheme := str "https", Host := str "x", Path := str "/path" }
      (by decide) (by decide) (by decide) (by decide)⟩

/-- C7: for every URL whose path is `p ++ "/" ++ n`, where `n` is a
non-empty name of at most 255 bytes that is not `"."` and contains no slash,
backslash or percent sign, `ExtractFileName` returns `n` with a `nil`
error. -/
theorem extractFileName_leaf (rawURL : GoString) (u : url.URL) (p n : GoString)
    (hparse : url.Parse rawURL = .ok u) (hpath : u.Path = p ++ str "/" ++ n)
    (hne : n ≠ []) (hlen : n.length ≤ 255) (hdot : n ≠ str ".")
    (hslash : '/'.toNat ∉ n) (hback : '\\'.toNat ∉ n) (hpct : '%'.toNat ∉ n) :
    ExtractFileName rawURL = (n, none) := by
  have hb : path.Base u.Path = n := by rw [hpath]; exact base_leaf p n hne hslash
  have h1 : ¬ (n = str "." ∨ n = str "/" ∨ n = []) := by
    rintro (h | h | h)
    · exact hdot h
    · exact hslash (by rw [h]; decide)
    · exact hne h
  have h2 : ¬ (strings.Contains n (str "/") = true ∨ strings.Contains n (str "\\") = true) := by
    have e1 : strings.Contains n (str "/") = false :=
      (contains_singleton_false n 47).2 hslash
    have e2 : strings.Contains n (str "\\") = false :=
      (contains_singleton_false n 92).2 hback
    simp [e1, e2]
  rw [extractFileName_eq rawURL u hparse, hb, if_neg h1, if_neg h2,
    pathUnescape_no_percent n hpct]
  simp only
  rw [if_neg (by omega)]

/-- The URL of the test `TestExtractFileName`:
`"https://example.com/path/horse.png"` gives `"horse.png"`. -/
theorem extractFileName_leaf_witness :
    ExtractFileName (str "https://example.com/path/horse.png") = (str "horse.png", none) :=
  extractFileName_leaf (str "https://example.com/path/horse.png")
    { Scheme := str "https", Host := str "example.com", Path := str "/path/horse.png" }
    (str "/path") (str "horse.png")
    (by decide) (by decide) (by decide) (by decide) (by decide) (by decide) (by decide)
    (by decide)

/-- C8: the result of `ExtractFileName` is capped at 255. Every name it
returns has at most 255 bytes, hence at most 255 characters, and every URL
whose last path segment, percent-decoded or as it is when decoding fails, is
longer than 255 bytes (as it is when it has more than 255 characters) is
rejected with an error and the empty name. -/
theorem extractFileName_capped :
    (∀ rawURL name : GoString, ExtractFileName rawURL = (name, none) →
      name.length ≤ 255 ∧ utf8.RuneCountInString name ≤ 255)
    ∧ (∀ (rawURL : GoString) (u : url.URL), url.Parse rawURL = .ok u →
      (match url.PathUnescape (path.Base u.Path) with
        | .ok decoded => decoded
        | .error _ => path.Base u.Path).length > 255
      ∨ utf8.RuneCountInString (match url.PathUnescape (path.Base u.Path) with
        | .ok decoded => decoded
        | .error _ => path.Base u.Path) > 255 →
      ∃ err, ExtractFileName rawURL = ([], some err)) := by
  constructor
  · intro rawURL name h
    have hlen : name.length ≤ 255 := by
      cases hparse : url.Parse rawURL with
      | error e =>
        unfold ExtractFileName at h
        rw [hparse] at h
        cases h
      | ok u =>
        rw [extractFileName_eq rawURL u hparse] at h
        split_ifs at h with h1 h2 h3
        · cases h
        · cases h
        · cases h
        · have := congrArg Prod.fst h
          simp only at this
          rw [← this]
          exact not_lt.1 h3
    exact ⟨hlen, le_trans (runeCount_le_length name) hlen⟩
  · intro rawURL u hparse hlong
    have hlen : (match url.PathUnescape (path.Base u.Path) with
        | .ok decoded => decoded
        | .error _ => path.Base u.Path).length > 255 := by
      rcases hlong with h | h
      · exact h
      · exact lt_of_lt_of_le h (runeCount_le_length _)
    rw [extractFileName_eq rawURL u hparse]
    split_ifs
    · exact ⟨_, rfl⟩
    · exact ⟨_, rfl⟩
    · exact ⟨_, rfl⟩

set_option maxRecDepth 100000 in
theorem extractFileName_capped_witness :
    ((str "horse.png").length ≤ 255 ∧ utf8.RuneCountInString (str "horse.png") ≤ 255)
    ∧ ∃ err, ExtractFileName (str "https://x/" ++ List.replicate 256 97) = ([], some err) :=
  ⟨extractFileName_capped.1 (str "https://example.com/path/horse.png") (str "horse.png")
      (by decide),
    extractFileName_capped.2 (str "https://x/" ++ List.replicate 256 97)
      { Scheme := str "https", Host := str "x", Path := str "/" ++ List.replicate 256 97 }
      (by decide) (Or.inl (by decide))⟩

/-! ## The operations of the service -/

theorem structResult_none_iff (errs : List FieldError) : structResult errs = none ↔ errs = [] := by
  unfold structResult
  split_ifs with h <;> simp [h]

theorem required_nil_iff (name : String) (value : GoString) :
    required name value = [] ↔ value ≠ [] := by
  unfold required
  split_ifs with h <;> simp [h]

theorem requiredURL_nil_iff (v : Validate) (name : String) (value : GoString) :
    requiredURL v name value = [] ↔ value ≠ [] ∧ v.isURL value = true := by
  unfold requiredURL
  by_cases h : value = []
  · simp [h]
  · by_cases h2 : v.isURL value = true
    · simp [h, h2]
    · simp [h, h2]

theorem structCredentials_none_iff (v : Validate) (req : CredentialsRequest) :
    v.StructCredentialsRequest req = none ↔ req.IDInstance ≠ [] ∧ req.APITokenInstance ≠ [] := by
  unfold Validate.StructCredentialsRequest
  rw [structResult_none_iff]
  simp only [List.append_eq_nil, required_nil_iff]

theorem structSendMessage_none_iff (v : Validate) (req : SendMessageRequest) :
    v.StructSendMessageRequest req = none ↔
      req.IDInstance ≠ [] ∧ req.APITokenInstance ≠ [] ∧ req.ChatID ≠ [] ∧ req.Message ≠ [] := by
  unfold Validate.StructSendMessageRequest
  rw [structResult_none_iff]
  simp only [List.append_eq_nil, required_nil_iff, and_assoc]

theorem structSendFileByURL_none_iff (v : Validate) (req : SendFileByURLRequest) :
    v.StructSendFileByURLRequest req = none ↔
      req.IDInstance ≠ [] ∧ req.APITokenInstance ≠ [] ∧ req.ChatID ≠ [] ∧
        req.URLFile ≠ [] ∧ v.isURL req.URLFile = true := by
  unfold Validate.StructSendFileByURLRequest
  rw [structResult_none_iff]
  simp only [List.append_eq_nil, required_nil_iff, requiredURL_nil_iff, and_assoc]

theorem validateCredentials_none_iff (s : Service) (req : CredentialsRequest) :
    s.validateCredentials req = none ↔ req.IDInstance ≠ [] ∧ req.APITokenInstance ≠ [] := by
  rw [← structCredentials_none_iff s.validate]
  unfold Service.validateCredentials
  cases s.validate.StructCredentialsRequest req <;> simp

theorem validateCredentials_some (s : Service) (req : CredentialsRequest) (e : APIError)
    (h : s.validateCredentials req = some e) :
    e.StatusCode = 400 ∧ e.Code = str "validation_error" := by
  unfold Service.validateCredentials at h
  cases hv : s.validate.StructCredentialsRequest req with
  | none => rw [hv] at h; cases h
  | some err =>
    rw [hv] at h
    cases h
    exact ⟨rfl, rfl⟩

theorem isValidationError_mk (e : APIError) (h1 : e.StatusCode = 400)
    (h2 : e.Code = str "validation_error") :
    Outcome.IsValidationError ⟨[], Response.zero, some e⟩ :=
  ⟨rfl, rfl, e, rfl, h1, h2⟩

theorem isValidationError_forward (s : Service) (call : ClientCall) :
    ¬ (s.forward call).IsValidationError := by
  intro h
  have := h.1
  unfold Service.forward at this
  split at this <;> cases this

/-- When `GetSettings` or `GetState` do not fail validation. -/
theorem getSettings_eq (s : Service) (req : CredentialsRequest)
    (h : req.IDInstance ≠ [] ∧ req.APITokenInstance ≠ []) :
    s.GetSettings req = s.forward (.GetSettings (strings.TrimSpace req.IDInstance)
      (strings.TrimSpace req.APITokenInstance))
    ∧ s.GetState req = s.forward (.GetStateInstance (strings.TrimSpace req.IDInstance)
      (strings.TrimSpace req.APITokenInstance)) := by
  unfold Service.GetSettings Service.GetState
  rw [(validateCredentials_none_iff s req).2 h]
  exact ⟨rfl, rfl⟩

/-- The three ways `SendMessage` ends. -/
theorem sendMessage_cases (s : Service) (req : SendMessageRequest) :
    (¬ (req.IDInstance ≠ [] ∧ req.APITokenInstance ≠ [] ∧ req.ChatID ≠ [] ∧ req.Message ≠ [])
      ∧ (s.SendMessage req).IsValidationError)
    ∨ ((req.IDInstance ≠ [] ∧ req.APITokenInstance ≠ [] ∧ req.ChatID ≠ [] ∧ req.Message ≠ [])
      ∧ ∃ v err, NormalizeChatID req.ChatID = (v, some err)
        ∧ s.SendMessage req = ⟨[], Response.zero, some (invalidInput "chatId" err.text)⟩)
    ∨ ((req.IDInstance ≠ [] ∧ req.APITokenInstance ≠ [] ∧ req.ChatID ≠ [] ∧ req.Message ≠ [])
      ∧ ∃ chatID, NormalizeChatID req.ChatID = (chatID, none)
        ∧ s.SendMessage req = s.forward (.SendMessage (strings.TrimSpace req.IDInstance)
            (strings.TrimSpace req.APITokenInstance) chatID (strings.TrimSpace req.Message))) := by
  unfold Service.SendMessage
  cases h1 : s.validate.StructSendMessageRequest req with
  | some err =>
    left
    refine ⟨?_, isValidationError_mk _ rfl rfl⟩
    intro h
    rw [(structSendMessage_none_iff s.validate req).2 h] at h1
    cases h1
  | none =>
    right
    have hf := (structSendMessage_none_iff s.validate req).1 h1
    rw [(validateCredentials_none_iff s req.toCredentialsRequest).2 ⟨hf.1, hf.2.1⟩]
    simp only
    rcases hn : NormalizeChatID req.ChatID with ⟨v, _ | err⟩
    · exact Or.inr ⟨hf, v, rfl, rfl⟩
    · exact Or.inl ⟨hf, v, err, rfl, rfl⟩

/-- The ways `SendFileByURL` ends. -/
theorem sendFileByURL_cases (s : Service) (req : SendFileByURLRequest) :
    (¬ (req.IDInstance ≠ [] ∧ req.APITokenInstance ≠ [] ∧ req.ChatID ≠ [] ∧
          req.URLFile ≠ [] ∧ s.validate.isURL req.URLFile = true)
      ∧ (s.SendFileByURL req).IsValidationError)
    ∨ ((req.IDInstance ≠ [] ∧ req.APITokenInstance ≠ [] ∧ req.ChatID ≠ [] ∧
          req.URLFile ≠ [] ∧ s.validate.isURL req.URLFile = true)
      ∧ ((∃ v err, NormalizeChatID req.ChatID = (v, some err)
          ∧ s.SendFileByURL req = ⟨[], Response.zero, some (invalidInput "chatId" err.text)⟩)
        ∨ (∃ chatID, NormalizeChatID req.ChatID = (chatID, none)
          ∧ ((∃ err, validateURLFile (strings.TrimSpace req.URLFile) = some err
              ∧ s.SendFileByURL req
                = ⟨[], Response.zero, some (invalidInput "urlFile" err.text)⟩)
            ∨ (validateURLFile (strings.TrimSpace req.URLFile) = none
              ∧ ((∃ v err, ExtractFileName (strings.TrimSpace req.URLFile) = (v, some err)
                  ∧ s.SendFileByURL req
                    = ⟨[], Response.zero, some (invalidInput "urlFile" err.text)⟩)
                ∨ (∃ fileName, ExtractFileName (strings.TrimSpace req.URLFile) = (fileName, none)
                  ∧ s.SendFileByURL req
                    = s.forward (.SendFileByURL (strings.TrimSpace req.IDInstance)
                        (strings.TrimSpace req.APITokenInstance) chatID
                        (strings.TrimSpace req.URLFile) fileName)))))))) := by
  unfold Service.SendFileByURL
  cases h1 : s.validate.StructSendFileByURLRequest req with
  | some err =>
    left
    refine ⟨?_, isValidationError_mk _ rfl rfl⟩
    intro h
    rw [(structSendFileByURL_none_iff s.validate req).2 h] at h1
    cases h1
  | none =>
    right
    have hf := (structSendFileByURL_none_iff s.validate req).1 h1
    rw [(validateCredentials_none_iff s req.toCredentialsRequest).2 ⟨hf.1, hf.2.1⟩]
    simp only
    refine ⟨hf, ?_⟩
    rcases hn : NormalizeChatID req.ChatID with ⟨v, _ | err⟩
    · right
      refine ⟨v, rfl, ?_⟩
      cases hu : validateURLFile (strings.TrimSpace req.URLFile) with
      | some err => exact Or.inl ⟨err, rfl, rfl⟩
      | none =>
        right
        refine ⟨rfl, ?_⟩
        rcases he : ExtractFileName (strings.TrimSpace req.URLFile) with ⟨w, _ | err⟩
        · exact Or.inr ⟨w, rfl, rfl⟩
        · exact Or.inl ⟨w, err, rfl, rfl⟩
    · exact Or.inl ⟨v, err, rfl, rfl⟩

/-- C9: a request that fails validation (a required field is empty, the rule
`url` rejects `urlFile`, `NormalizeChatID` rejects `chatId`, or
`validateURLFile` or `ExtractFileName` reject the trimmed `urlFile`) is
answered by each of the four operations with an error of status 400 and code
`"validation_error"`, and no call is made on the client. When the failure is
that of `chatId` or of `urlFile` after the struct validation has passed, the
details are the map with the field name and the message of the error. -/
theorem validation_failure_no_call (s : Service) :
    (∀ req : CredentialsRequest, req.IDInstance = [] ∨ req.APITokenInstance = [] →
      (s.GetSettings req).IsValidationError ∧ (s.GetState req).IsValidationError)
    ∧ (∀ req : SendMessageRequest,
        req.IDInstance = [] ∨ req.APITokenInstance = [] ∨ req.ChatID = [] ∨ req.Message = []
          ∨ (NormalizeChatID req.ChatID).2 ≠ none →
        (s.SendMessage req).IsValidationError)
    ∧ (∀ req : SendFileByURLRequest,
        req.IDInstance = [] ∨ req.APITokenInstance = [] ∨ req.ChatID = [] ∨ req.URLFile = []
          ∨ s.validate.isURL req.URLFile = false
          ∨ (NormalizeChatID req.ChatID).2 ≠ none
          ∨ validateURLFile (strings.TrimSpace req.URLFile) ≠ none
          ∨ (ExtractFileName (strings.TrimSpace req.URLFile)).2 ≠ none →
        (s.SendFileByURL req).IsValidationError)
    ∧ (∀ (req : SendMessageRequest) (err : GoError),
        req.IDInstance ≠ [] ∧ req.APITokenInstance ≠ [] ∧ req.ChatID ≠ [] ∧ req.Message ≠ [] →
        (NormalizeChatID req.ChatID).2 = some err →
        (s.SendMessage req).HasFieldDetails "chatId" err.text)
    ∧ (∀ (req : SendFileByURLRequest) (err : GoError),
        req.IDInstance ≠ [] ∧ req.APITokenInstance ≠ [] ∧ req.ChatID ≠ [] ∧ req.URLFile ≠ []
          ∧ s.validate.isURL req.URLFile = true →
        (NormalizeChatID req.ChatID).2 = some err →
        (s.SendFileByURL req).HasFieldDetails "chatId" err.text)
    ∧ (∀ (req : SendFileByURLRequest) (err : GoError),
        req.IDInstance ≠ [] ∧ req.APITokenInstance ≠ [] ∧ req.ChatID ≠ [] ∧ req.URLFile ≠ []
          ∧ s.validate.isURL req.URLFile = true →
        (NormalizeChatID req.ChatID).2 = none →
        validateURLFile (strings.TrimSpace req.URLFile) = some err →
        (s.SendFileByURL req).HasFieldDetails "urlFile" err.text)
    ∧ (∀ (req : SendFileByURLRequest) (err : GoError),
        req.IDInstance ≠ [] ∧ req.APITokenInstance ≠ [] ∧ req.ChatID ≠ [] ∧ req.URLFile ≠ []
          ∧ s.validate.isURL req.URLFile = true →
        (NormalizeChatID req.ChatID).2 = none →
        validateURLFile (strings.TrimSpace req.URLFile) = none →
        (ExtractFileName (strings.TrimSpace req.URLFile)).2 = some err →
        (s.SendFileByURL req).HasFieldDetails "urlFile" err.text) := by
  refine ⟨?_, ?_, ?_, ?_, ?_, ?_, ?_⟩
  · intro req h
    have hv : ∃ e, s.validateCredentials req = some e := by
      cases hc : s.validateCredentials req with
      | some e => exact ⟨e, rfl⟩
      | none =>
        have := (validateCredentials_none_iff s req).1 hc
        rcases h with h | h
        · exact absurd h this.1
        · exact absurd h this.2
    obtain ⟨e, he⟩ := hv
    have hs := validateCredentials_some s req e he
    unfold Service.GetSettings Service.GetState
    rw [he]
    exact ⟨isValidationError_mk e hs.1 hs.2, isValidationError_mk e hs.1 hs.2⟩
  · intro req h
    rcases sendMessage_cases s req with ⟨_, hv⟩ | ⟨_, v, err, _, heq⟩ | ⟨hf, chatID, hn, _⟩
    · exact hv
    · rw [heq]; exact isValidationError_mk _ rfl rfl
    · exfalso
      rcases h with h | h | h | h | h
      · exact hf.1 h
      · exact hf.2.1 h
      · exact hf.2.2.1 h
      · exact hf.2.2.2 h
      · rw [hn] at h; exact h rfl
  · intro req h
    rcases sendFileByURL_cases s req with ⟨_, hv⟩ | ⟨hf, hrest⟩
    · exact hv
    · rcases hrest with ⟨v, err, _, heq⟩ | ⟨chatID, hn, hrest⟩
      · rw [heq]; exact isValidationError_mk _ rfl rfl
      · rcases hrest with ⟨err, _, heq⟩ | ⟨hu, hrest⟩
        · rw [heq]; exact isValidationError_mk _ rfl rfl
        · rcases hrest with ⟨v, err, _, heq⟩ | ⟨fileName, hx, _⟩
          · rw [heq]; exact isValidationError_mk _ rfl rfl
          · exfalso
            rcases h with h | h | h | h | h | h | h | h
            · exact hf.1 h
            · exact hf.2.1 h
            · exact hf.2.2.1 h
            · exact hf.2.2.2.1 h
            · rw [hf.2.2.2.2] at h; cases h
            · rw [hn] at h; exact h rfl
            · exact h hu
            · rw [hx] at h; exact h rfl
  · intro req err hf hn
    rcases sendMessage_cases s req with ⟨hnf, _⟩ | ⟨_, v, err2, hn2, heq⟩ | ⟨_, chatID, hn2, _⟩
    · exact absurd hf hnf
    · rw [hn2] at hn
      cases hn
      rw [heq]
      exact ⟨_, rfl, rfl⟩
    · rw [hn2] at hn; cases hn
  · intro req err hf hn
    rcases sendFileByURL_cases s req with ⟨hnf, _⟩ | ⟨_, hrest⟩
    · exact absurd hf hnf
    · rcases hrest with ⟨v, err2, hn2, heq⟩ | ⟨chatID, hn2, _⟩
      · rw [hn2] at hn
        cases hn
        rw [heq]
        exact ⟨_, rfl, rfl⟩
      · rw [hn2] at hn; cases hn
  · intro req err hf hn hu
    rcases sendFileByURL_cases s req with ⟨hnf, _⟩ | ⟨_, hrest⟩
    · exact absurd hf hnf
    · rcases hrest with ⟨v, err2, hn2, _⟩ | ⟨chatID, _, hrest⟩
      · rw [hn2] at hn; cases hn
      · rcases hrest with ⟨err2, hu2, heq⟩ | ⟨hu2, _⟩
        · rw [hu2] at hu
          cases hu
          rw [heq]
          exact ⟨_, rfl, rfl⟩
        · rw [hu2] at hu; cases hu
  · intro req err hf hn hu hx
    rcases sendFileByURL_cases s req with ⟨hnf, _⟩ | ⟨_, hrest⟩
    · exact absurd hf hnf
    · rcases hrest with ⟨v, err2, hn2, _⟩ | ⟨chatID, _, hrest⟩
      · rw [hn2] at hn; cases hn
      · rcases hrest with ⟨err2, hu2, _⟩ | ⟨_, hrest⟩
        · rw [hu2] at hu; cases hu
        · rcases hrest with ⟨v, err2, hx2, heq⟩ | ⟨fileName, hx2, _⟩
          · rw [hx2] at hx
            cases hx
            rw [heq]
            exact ⟨_, rfl, rfl⟩
          · rw [hx2] at hx; cases hx

theorem validation_failure_no_call_witness :
    ((Service.GetSettings ⟨okClient, laxValidate⟩ ⟨str "", str "token"⟩).IsValidationError
      ∧ (Service.GetState ⟨okClient, laxValidate⟩ ⟨str "", str "token"⟩).IsValidationError)
    ∧ (Service.SendMessage ⟨okClient, laxValidate⟩
        ⟨⟨str "1101000001", str "token"⟩, str "abc", str "hi"⟩).IsValidationError
    ∧ (Service.SendFileByURL ⟨okClient, laxValidate⟩
        ⟨⟨str "1101000001", str "token"⟩, str "77771234567", str "https://x/"⟩).IsValidationError
    ∧ (Service.SendMessage ⟨okClient, laxValidate⟩
        ⟨⟨str "1101000001", str "token"⟩, str "abc", str "hi"⟩).HasFieldDetails "chatId"
          (str "chatId must contain only digits")
    ∧ (Service.SendFileByURL ⟨okClient, laxValidate⟩
        ⟨⟨str "1101000001", str "token"⟩, str "@c.us", str "https://x/a.png"⟩).HasFieldDetails
          "chatId" (str "chatId must contain only digits before @c.us")
    ∧ (Service.SendFileByURL ⟨okClient, laxValidate⟩
        ⟨⟨str "1101000001", str "token"⟩, str "77771234567", str "ftp://x/a.png"⟩).HasFieldDetails
          "urlFile" (str "urlFile must use http or https")
    ∧ (Service.SendFileByURL ⟨okClient, laxValidate⟩
        ⟨⟨str "1101000001", str "token"⟩, str "77771234567", str "https://x/"⟩).HasFieldDetails
          "urlFile" (str "cannot extract fileName from urlFile") :=
  ⟨(validation_failure_no_call ⟨okClient, laxValidate⟩).1 ⟨str "", str "token"⟩
      (Or.inl (by decide)),
    (validation_failure_no_call ⟨okClient, laxValidate⟩).2.1
      ⟨⟨str "1101000001", str "token"⟩, str "abc", str "hi"⟩
      (Or.inr (Or.inr (Or.inr (Or.inr (by decide))))),
    (validation_failure_no_call ⟨okClient, laxValidate⟩).2.2.1
      ⟨⟨str "1101000001", str "token"⟩, str "77771234567", str "https://x/"⟩
      (Or.inr (Or.inr (Or.inr (Or.inr (Or.inr (Or.inr (Or.inr (by decide)))))))),
    (validation_failure_no_call ⟨okClient, laxValidate⟩).2.2.2.1
      ⟨⟨str "1101000001", str "token"⟩, str "abc", str "hi"⟩
      (fmt.Errorf "chatId must contain only digits") (by decide) (by decide),
    (validation_failure_no_call ⟨okClient, laxValidate⟩).2.2.2.2.1
      ⟨⟨str "1101000001", str "token"⟩, str "@c.us", str "https://x/a.png"⟩
      (fmt.Errorf "chatId must contain only digits before @c.us") (by decide) (by decide),
    (validation_failure_no_call ⟨okClient, laxValidate⟩).2.2.2.2.2.1
      ⟨⟨str "1101000001", str "token"⟩, str "77771234567", str "ftp://x/a.png"⟩
      (fmt.Errorf "urlFile must use http or https") (by decide) (by decide) (by decide),
    (validation_failure_no_call ⟨okClient, laxValidate⟩).2.2.2.2.2.2
      ⟨⟨str "1101000001", str "token"⟩, str "77771234567", str "https://x/"⟩
      (fmt.Errorf "cannot extract fileName from urlFile") (by decide) (by decide) (by decide)
      (by decide)⟩

/-- C10 (the code at the failing inputs): a credential or a message that is
not empty but only white space passes the rule `required` and is trimmed
afterwards, so the client receives the empty string. -/
theorem blank_fields_forwarded_empty :
    (Service.GetSettings ⟨okClient, laxValidate⟩ ⟨str " ", str "token"⟩).calls
      = [.GetSettings (str "") (str "token")]
    ∧ (Service.GetState ⟨okClient, laxValidate⟩ ⟨str "1101000001", str "\t"⟩).calls
      = [.GetStateInstance (str "1101000001") (str "")]
    ∧ (Service.SendMessage ⟨okClient, laxValidate⟩
        ⟨⟨str "1101000001", str "token"⟩, str "77771234567", str " "⟩).calls
      = [.SendMessage (str "1101000001") (str "token") (str "77771234567@c.us") (str "")]
    ∧ (Service.SendFileByURL ⟨okClient, laxValidate⟩
        ⟨⟨str " ", str " "⟩, str "77771234567", str "https://x/a.png"⟩).calls
      = [.SendFileByURL (str "") (str "") (str "77771234567@c.us") (str "https://x/a.png")
          (str "a.png")] := by
  decide

/-- C11: for every `SendFileByURL` request that passes validation, the
service calls `client.SendFileByURL` exactly once, with the trimmed
`idInstance` and `apiTokenInstance`, the value of `NormalizeChatID`, the
trimmed `urlFile` and the value of `ExtractFileName` on the trimmed
`urlFile`. -/
theorem sendFileByURL_forwards (s : Service) (req : SendFileByURLRequest)
    (chatID fileName : GoString)
    (hfields : req.IDInstance ≠ [] ∧ req.APITokenInstance ≠ [] ∧ req.ChatID ≠ [] ∧
      req.URLFile ≠ [] ∧ s.validate.isURL req.URLFile = true)
    (hchat : NormalizeChatID req.ChatID = (chatID, none))
    (hurl : validateURLFile (strings.TrimSpace req.URLFile) = none)
    (hname : ExtractFileName (strings.TrimSpace req.URLFile) = (fileName, none)) :
    (s.SendFileByURL req).calls =
      [.SendFileByURL (strings.TrimSpace req.IDInstance)
        (strings.TrimSpace req.APITokenInstance) chatID (strings.TrimSpace req.URLFile)
        fileName] := by
  have hcalls : ∀ call, (s.forward call).calls = [call] := by
    intro call
    unfold Service.forward
    split <;> rfl
  rcases sendFileByURL_cases s req with ⟨hnf, _⟩ | ⟨_, hrest⟩
  · exact absurd hfields hnf
  · rcases hrest with ⟨v, err, hn, _⟩ | ⟨chatID2, hn, hrest⟩
    · rw [hn] at hchat; cases hchat
    · rw [hn] at hchat
      cases hchat
      rcases hrest with ⟨err, hu, _⟩ | ⟨_, hrest⟩
      · rw [hu] at hurl; cases hurl
      · rcases hrest with ⟨v, err, hx, _⟩ | ⟨fileName2, hx, heq⟩
        · rw [hx] at hname; cases hname
        · rw [hx] at hname
          cases hname
          rw [heq, hcalls]

/-- The request of the test
`TestSendFileByURL_ComputesFileNameAndNormalizesChatID`. -/
theorem sendFileByURL_forwards_witness :
    (Service.SendFileByURL ⟨okClient, laxValidate⟩
      ⟨⟨str "1101000001", str "token"⟩, str "77771234567",
        str "https://my.site.com/img/horse.png"⟩).calls =
      [.SendFileByURL (str "1101000001") (str "token") (str "77771234567@c.us")
        (str "https://my.site.com/img/horse.png") (str "horse.png")] :=
  sendFileByURL_forwards ⟨okClient, laxValidate⟩
    ⟨⟨str "1101000001", str "token"⟩, str "77771234567",
      str "https://my.site.com/img/horse.png"⟩
    (str "77771234567@c.us") (str "horse.png")
    (by decide) (by decide) (by decide) (by decide)

theorem exactlyOne_forward (s : Service) (call : ClientCall) :
    (s.forward call).ExactlyOne s := by
  unfold Service.forward
  rcases h : s.client call with ⟨resp, _ | callErr⟩
  · left
    exact ⟨rfl, call, rfl, h⟩
  · right
    refine ⟨?_, rfl⟩
    simp

theorem exactlyOne_error (s : Service) (e : APIError) :
    Outcome.ExactlyOne s ⟨[], Response.zero, some e⟩ := by
  right
  refine ⟨?_, rfl⟩
  simp

/-- C12: for each of the four operations, every request and every behaviour
of the client, the pair returned is exactly one of: a `nil` error with the
response that the client returned, unmodified; or an error with the zero
response. -/
theorem response_or_error (s : Service) :
    (∀ req : CredentialsRequest, (s.GetSettings req).ExactlyOne s)
    ∧ (∀ req : CredentialsRequest, (s.GetState req).ExactlyOne s)
    ∧ (∀ req : SendMessageRequest, (s.SendMessage req).ExactlyOne s)
    ∧ (∀ req : SendFileByURLRequest, (s.SendFileByURL req).ExactlyOne s) := by
  refine ⟨?_, ?_, ?_, ?_⟩
  · intro req
    cases hv : s.validateCredentials req with
    | some e =>
      unfold Service.GetSettings
      rw [hv]
      exact exactlyOne_error s e
    | none =>
      rw [(getSettings_eq s req ((validateCredentials_none_iff s req).1 hv)).1]
      exact exactlyOne_forward s _
  · intro req
    cases hv : s.validateCredentials req with
    | some e =>
      unfold Service.GetState
      rw [hv]
      exact exactlyOne_error s e
    | none =>
      rw [(getSettings_eq s req ((validateCredentials_none_iff s req).1 hv)).2]
      exact exactlyOne_forward s _
  · intro req
    rcases sendMessage_cases s req with ⟨_, hv⟩ | ⟨_, v, err, _, heq⟩ | ⟨_, chatID, _, heq⟩
    · obtain ⟨_, hz, e, he, _⟩ := hv
      right
      exact ⟨by rw [he]; simp, hz⟩
    · rw [heq]; exact exactlyOne_error s _
    · rw [heq]; exact exactlyOne_forward s _
  · intro req
    rcases sendFileByURL_cases s req with ⟨_, hv⟩ | ⟨_, hrest⟩
    · obtain ⟨_, hz, e, he, _⟩ := hv
      right
      exact ⟨by rw [he]; simp, hz⟩
    · rcases hrest with ⟨v, err, _, heq⟩ | ⟨chatID, _, hrest⟩
      · rw [heq]; exact exactlyOne_error s _
      · rcases hrest with ⟨err, _, heq⟩ | ⟨_, hrest⟩
        · rw [heq]; exact exactlyOne_error s _
        · rcases hrest with ⟨v, err, _, heq⟩ | ⟨fileName, _, heq⟩
          · rw [heq]; exact exactlyOne_error s _
          · rw [heq]; exact exactlyOne_forward s _

/-- C13: for every error, `mapUpstreamError` returns an error with the code
`"upstream_error"` and the text of the error as message, whose status is 503
if the error matches `ErrCircuitBreakerOpen` (also when it matches
`context.DeadlineExceeded` as well), otherwise 504 if it matches
`context.DeadlineExceeded`, otherwise 502. The second part says the same for
an error of the client, by what `errors.Is` finds in its chain. -/
theorem mapUpstreamError_status :
    (∀ err : GoError,
      (mapUpstreamError err).Code = str "upstream_error"
      ∧ (mapUpstreamError err).Message = err.text
      ∧ (mapUpstreamError err).StatusCode =
        if err.isCircuitBreakerOpen then 503
        else if err.isDeadlineExceeded then 504 else 502)
    ∧ (∀ (err : Err) (text : GoString),
      (mapUpstreamError (err.view text)).Code = str "upstream_error"
      ∧ (mapUpstreamError (err.view text)).Message = text
      ∧ (mapUpstreamError (err.view text)).StatusCode =
        if err.Is .ErrCircuitBreakerOpen then 503
        else if err.Is .DeadlineExceeded then 504 else 502) := by
  have h : ∀ err : GoError,
      (mapUpstreamError err).Code = str "upstream_error"
      ∧ (mapUpstreamError err).Message = err.text
      ∧ (mapUpstreamError err).StatusCode =
        if err.isCircuitBreakerOpen then 503
        else if err.isDeadlineExceeded then 504 else 502 := by
    intro err
    refine ⟨rfl, rfl, ?_⟩
    unfold mapUpstreamError
    cases err.isCircuitBreakerOpen <;> cases err.isDeadlineExceeded <;> rfl
  exact ⟨h, fun err text => h (err.view text)⟩

/-! ## The attempt loop of the client -/

theorem transportRequests_append (a b : List Event) :
    transportRequests (a ++ b) = transportRequests a ++ transportRequests b := by
  induction a with
  | nil => rfl
  | cons e t ih => cases e <;> simp [transportRequests, ih]

theorem transportResults_append (a b : List Event) :
    transportResults (a ++ b) = transportResults a ++ transportResults b := by
  induction a with
  | nil => rfl
  | cons e t ih => cases e <;> simp [transportResults, ih]

/-- The events of `wait` hold no transport attempt and no admission. -/
theorem wait_events {σ : Type} (c : Client) (w : World σ) (delay : time.Duration) (st : σ) :
    (c.wait w delay st).2 = [] ∨ (c.wait w delay st).2 = [.sleep delay] := by
  unfold Client.wait
  split_ifs
  · exact Or.inl rfl
  · exact Or.inr rfl

/-- The ways `executeOnce` ends. -/
theorem executeOnce_cases {σ : Type} (c : Client) (w : World σ) (method fullURL : GoString)
    (body : List Nat) (st : σ) :
    (∃ err, w.NewRequestWithContext method fullURL = some err
      ∧ c.executeOnce w method fullURL body st
        = (.error (.wrapError "build request: %w" err), st, []))
    ∨ (w.NewRequestWithContext method fullURL = none
      ∧ ((∃ err st1, w.Allow st = (.error err, st1)
          ∧ c.executeOnce w method fullURL body st = (.error err, st1, [.allow (some err)]))
        ∨ (∃ done st1, w.Allow st = (.ok done, st1)
          ∧ ((∃ err st2,
              w.Do ⟨method, fullURL, body, [(str "Content-Type", [str "application/json"])]⟩ st1
                = (.error err, st2)
              ∧ c.executeOnce w method fullURL body st
                = (.error err, done false st2,
                  [.allow none,
                    .transport
                      ⟨method, fullURL, body, [(str "Content-Type", [str "application/json"])]⟩
                      (.error err),
                    .done false]))
            ∨ (∃ response st2,
              w.Do ⟨method, fullURL, body, [(str "Content-Type", [str "application/json"])]⟩ st1
                = (.ok response, st2)
              ∧ c.executeOnce w method fullURL body st
                = (.ok response,
                  done (response.StatusCode < http.StatusInternalServerError) st2,
                  [.allow none,
                    .transport
                      ⟨method, fullURL, body, [(str "Content-Type", [str "application/json"])]⟩
                      (.ok response),
                    .done (response.StatusCode < http.StatusInternalServerError)])))))) := by
  unfold Client.executeOnce
  cases hn : w.NewRequestWithContext method fullURL with
  | some err => exact Or.inl ⟨err, rfl, rfl⟩
  | none =>
    right
    refine ⟨rfl, ?_⟩
    simp only
    rcases ha : w.Allow st with ⟨_ | _, st1⟩
    · exact Or.inl ⟨_, st1, rfl, rfl⟩
    · right
      refine ⟨_, st1, rfl, ?_⟩
      simp only
      rcases hd : w.Do _ st1 with ⟨_ | _, st2⟩
      · exact Or.inl ⟨_, st2, rfl, rfl⟩
      · exact Or.inr ⟨_, st2, rfl, rfl⟩

/-- The fallback of `do`, returned when the loop ends without returning. -/
theorem attempts_exit {σ : Type} (c : Client) (w : World σ) (method fullURL : GoString)
    (body : List Nat) (maxAttempts : Int) (fuel : Nat) (attempt : Int) (st : σ)
    (h : fuel = 0 ∨ ¬ attempt ≤ maxAttempts) :
    c.attempts w method fullURL body maxAttempts fuel attempt st =
      ⟨Response.zero, some (.UpstreamErrorBare "green-api request failed after retries"),
        st, []⟩ := by
  cases fuel with
  | zero => rfl
  | succ n =>
    rcases h with h | h
    · cases h
    · rw [Client.attempts, if_neg h]

/-- An attempt that ends with a retryable error while attempts remain. -/
theorem attempts_retry_err {σ : Type} (c : Client) (w : World σ) (method fullURL : GoString)
    (body : List Nat) (maxAttempts : Int) (fuel : Nat) (attempt : Int) (st st1 : σ)
    (err : Err) (evs : List Event)
    (hx : c.executeOnce w method fullURL body st = (.error err, st1, evs))
    (hlt : attempt < maxAttempts) (hretry : shouldRetryError err = true) :
    c.attempts w method fullURL body maxAttempts (fuel + 1) attempt st =
      { c.attempts w method fullURL body maxAttempts fuel (attempt + 1)
          (c.wait w c.retry.Delay st1).1 with
        events := evs ++ (c.wait w c.retry.Delay st1).2
          ++ (c.attempts w method fullURL body maxAttempts fuel (attempt + 1)
              (c.wait w c.retry.Delay st1).1).events } := by
  rw [Client.attempts, if_pos (le_of_lt hlt), hx]
  simp only [hlt, hretry, and_self, if_true]

/-- An attempt that ends with an error that is not retried. -/
theorem attempts_stop_err {σ : Type} (c : Client) (w : World σ) (method fullURL : GoString)
    (body : List Nat) (maxAttempts : Int) (fuel : Nat) (attempt : Int) (st st1 : σ)
    (err : Err) (evs : List Event)
    (hx : c.executeOnce w method fullURL body st = (.error err, st1, evs))
    (hle : attempt ≤ maxAttempts) (hstop : ¬ (attempt < maxAttempts ∧ shouldRetryError err = true)) :
    c.attempts w method fullURL body maxAttempts (fuel + 1) attempt st =
      if err.Is .ErrOpenState = true ∨ err.Is .ErrTooManyRequests = true then
        ⟨Response.zero,
          some (.UpstreamError "green-api circuit breaker is open"
            (.wrapErrorV "%w: %v" (.sentinel .ErrCircuitBreakerOpen) err)), st1, evs⟩
      else
        ⟨Response.zero, some (.UpstreamError "green-api request failed" err), st1, evs⟩ := by
  rw [Client.attempts, if_pos hle, hx]
  simp only [if_neg hstop]

/-- An attempt whose response cannot be read. -/
theorem attempts_stop_read {σ : Type} (c : Client) (w : World σ) (method fullURL : GoString)
    (body : List Nat) (maxAttempts : Int) (fuel : Nat) (attempt : Int) (st st1 : σ)
    (resp : http.Response) (readErr : Err) (evs : List Event)
    (hx : c.executeOnce w method fullURL body st = (.ok resp, st1, evs))
    (hle : attempt ≤ maxAttempts) (hbody : resp.Body = .error readErr) :
    c.attempts w method fullURL body maxAttempts (fuel + 1) attempt st =
      ⟨Response.zero, some (.UpstreamError "read green-api response" readErr), st1, evs⟩ := by
  rw [Client.attempts, if_pos hle, hx]
  simp only [readResponse, hbody]

/-- An attempt with a readable response of status 500 or more while attempts
remain. -/
theorem attempts_retry_5xx {σ : Type} (c : Client) (w : World σ) (method fullURL : GoString)
    (body : List Nat) (maxAttempts : Int) (fuel : Nat) (attempt : Int) (st st1 : σ)
    (resp : http.Response) (bytes : List Nat) (evs : List Event)
    (hx : c.executeOnce w method fullURL body st = (.ok resp, st1, evs))
    (hlt : attempt < maxAttempts) (hbody : resp.Body = .ok bytes)
    (hstatus : resp.StatusCode ≥ 500) :
    c.attempts w method fullURL body maxAttempts (fuel + 1) attempt st =
      { c.attempts w method fullURL body maxAttempts fuel (attempt + 1)
          (c.wait w c.retry.Delay st1).1 with
        events := evs ++ (c.wait w c.retry.Delay st1).2
          ++ (c.attempts w method fullURL body maxAttempts fuel (attempt + 1)
              (c.wait w c.retry.Delay st1).1).events } := by
  have hs : resp.StatusCode ≥ http.StatusInternalServerError := hstatus
  rw [Client.attempts, if_pos (le_of_lt hlt), hx]
  simp only [readResponse, hbody, hs, hlt, and_self, if_true]

/-- An attempt with a readable response that is returned. -/
theorem attempts_stop_resp {σ : Type} (c : Client) (w : World σ) (method fullURL : GoString)
    (body : List Nat) (maxAttempts : Int) (fuel : Nat) (attempt : Int) (st st1 : σ)
    (resp : http.Response) (bytes : List Nat) (evs : List Event)
    (hx : c.executeOnce w method fullURL body st = (.ok resp, st1, evs))
    (hle : attempt ≤ maxAttempts) (hbody : resp.Body = .ok bytes)
    (hstop : ¬ (resp.StatusCode ≥ 500 ∧ attempt < maxAttempts)) :
    c.attempts w method fullURL body maxAttempts (fuel + 1) attempt st =
      ⟨(readResponse resp).1, none, st1, evs⟩ := by
  have hs : ¬ (resp.StatusCode ≥ http.StatusInternalServerError ∧ attempt < maxAttempts) :=
    hstop
  rw [Client.attempts, if_pos hle, hx]
  simp only [readResponse, hbody, if_neg hs]

/-- The events of one attempt: none when the request cannot be built, the
refused admission alone, or the admission, the round trip with the request
of the call, and the report to the breaker. -/
theorem executeOnce_events {σ : Type} (c : Client) (w : World σ) (method fullURL : GoString)
    (body : List Nat) (st st1 : σ) (res : Except Err http.Response) (evs : List Event)
    (hx : c.executeOnce w method fullURL body st = (res, st1, evs)) :
    (evs = [] ∧ ∃ e, res = .error (.wrapError "build request: %w" e))
    ∨ (∃ e, res = .error e ∧ evs = [.allow (some e)])
    ∨ (∃ b, evs = [.allow none,
        .transport ⟨method, fullURL, body, [(str "Content-Type", [str "application/json"])]⟩ res,
        .done b]) := by
  rcases executeOnce_cases c w method fullURL body st with
    ⟨e, _, h⟩ | ⟨_, ⟨e, s1, _, h⟩ | ⟨done, s1, _, ⟨e, s2, _, h⟩ | ⟨r, s2, _, h⟩⟩⟩
  · rw [h] at hx
    cases hx
    exact Or.inl ⟨rfl, e, rfl⟩
  · rw [h] at hx
    cases hx
    exact Or.inr (Or.inl ⟨e, rfl, rfl⟩)
  · rw [h] at hx
    cases hx
    exact Or.inr (Or.inr ⟨_, rfl⟩)
  · rw [h] at hx
    cases hx
    exact Or.inr (Or.inr ⟨_, rfl⟩)

/-- Induction over the attempt loop: a property of runs that holds of every
way the loop returns, and that is kept when an attempt that is retried is put
in front of a run, holds of every run of the loop. -/
theorem attempts_induct {σ : Type} (c : Client) (w : World σ) (method fullURL : GoString)
    (body : List Nat) (maxAttempts : Int) (P : Run σ → Prop)
    (hexit : ∀ st,
      P ⟨Response.zero, some (.UpstreamErrorBare "green-api request failed after retries"),
        st, []⟩)
    (hbreaker : ∀ st st1 err evs,
      c.executeOnce w method fullURL body st = (.error err, st1, evs) →
      err.Is .ErrOpenState = true ∨ err.Is .ErrTooManyRequests = true →
      P ⟨Response.zero,
        some (.UpstreamError "green-api circuit breaker is open"
          (.wrapErrorV "%w: %v" (.sentinel .ErrCircuitBreakerOpen) err)), st1, evs⟩)
    (hfail : ∀ st st1 err evs,
      c.executeOnce w method fullURL body st = (.error err, st1, evs) →
      ¬ (err.Is .ErrOpenState = true ∨ err.Is .ErrTooManyRequests = true) →
      P ⟨Response.zero, some (.UpstreamError "green-api request failed" err), st1, evs⟩)
    (hread : ∀ st st1 resp readErr evs,
      c.executeOnce w method fullURL body st = (.ok resp, st1, evs) →
      resp.Body = .error readErr →
      P ⟨Response.zero, some (.UpstreamError "read green-api response" readErr), st1, evs⟩)
    (hresp : ∀ st st1 resp bytes evs,
      c.executeOnce w method fullURL body st = (.ok resp, st1, evs) →
      resp.Body = .ok bytes →
      P ⟨(readResponse resp).1, none, st1, evs⟩)
    (hretry : ∀ st st1 res evs (r : Run σ),
      c.executeOnce w method fullURL body st = (res, st1, evs) →
      ((∃ err, res = .error err ∧ shouldRetryError err = true)
        ∨ (∃ resp bytes, res = .ok resp ∧ resp.Body = .ok bytes ∧ resp.StatusCode ≥ 500)) →
      P r → P { r with events := evs ++ (c.wait w c.retry.Delay st1).2 ++ r.events }) :
    ∀ (fuel : Nat) (attempt : Int) (st : σ),
      P (c.attempts w method fullURL body maxAttempts fuel attempt st) := by
  intro fuel
  induction fuel with
  | zero =>
    intro attempt st
    rw [attempts_exit c w method fullURL body maxAttempts 0 attempt st (Or.inl rfl)]
    exact hexit st
  | succ n ih =>
    intro attempt st
    by_cases hle : attempt ≤ maxAttempts
    · rcases hx : c.executeOnce w method fullURL body st with ⟨res, st1, evs⟩
      cases res with
      | error err =>
        by_cases hr : attempt < maxAttempts ∧ shouldRetryError err = true
        · rw [attempts_retry_err c w method fullURL body maxAttempts n attempt st st1 err evs
            hx hr.1 hr.2]
          exact hretry st st1 _ evs _ hx (Or.inl ⟨err, rfl, hr.2⟩) (ih _ _)
        · rw [attempts_stop_err c w method fullURL body maxAttempts n attempt st st1 err evs
            hx hle hr]
          by_cases hb : err.Is .ErrOpenState = true ∨ err.Is .ErrTooManyRequests = true
          · rw [if_pos hb]; exact hbreaker st st1 err evs hx hb
          · rw [if_neg hb]; exact hfail st st1 err evs hx hb
      | ok resp =>
        cases hbody : resp.Body with
        | error readErr =>
          rw [attempts_stop_read c w method fullURL body maxAttempts n attempt st st1 resp
            readErr evs hx hle hbody]
          exact hread st st1 resp readErr evs hx hbody
        | ok bytes =>
          by_cases hr : resp.StatusCode ≥ 500 ∧ attempt < maxAttempts
          · rw [attempts_retry_5xx c w method fullURL body maxAttempts n attempt st st1 resp
              bytes evs hx hr.2 hbody hr.1]
            exact hretry st st1 _ evs _ hx (Or.inr ⟨resp, bytes, rfl, hbody, hr.1⟩) (ih _ _)
          · rw [attempts_stop_resp c w method fullURL body maxAttempts n attempt st st1 resp
              bytes evs hx hle hbody hr]
            exact hresp st st1 resp bytes evs hx hbody
    · rw [attempts_exit c w method fullURL body maxAttempts (n + 1) attempt st (Or.inr hle)]
      exact hexit st

theorem wait_no_transport {σ : Type} (c : Client) (w : World σ) (delay : time.Duration)
    (st : σ) : transportRequests (c.wait w delay st).2 = []
      ∧ transportResults (c.wait w delay st).2 = []
      ∧ ∀ e, Event.allow e ∉ (c.wait w delay st).2 := by
  rcases wait_events c w delay st with h | h <;> rw [h] <;> simp [transportRequests, transportResults]

/-- Every transport attempt of the loop carries the request of the call. -/
theorem attempts_requests {σ : Type} (c : Client) (w : World σ) (method fullURL : GoString)
    (body : List Nat) (maxAttempts : Int) (fuel : Nat) (attempt : Int) (st : σ) :
    ∀ req ∈ transportRequests
        (c.attempts w method fullURL body maxAttempts fuel attempt st).events,
      req = ⟨method, fullURL, body, [(str "Content-Type", [str "application/json"])]⟩ := by
  have hevs : ∀ (st st1 : σ) (res : Except Err http.Response) (evs : List Event),
      c.executeOnce w method fullURL body st = (res, st1, evs) →
      ∀ req ∈ transportRequests evs,
        req = ⟨method, fullURL, body, [(str "Content-Type", [str "application/json"])]⟩ := by
    intro st st1 res evs hx req hreq
    rcases executeOnce_events c w method fullURL body st st1 res evs hx with
      ⟨h, _⟩ | ⟨e, _, h⟩ | ⟨b, h⟩
    · rw [h] at hreq; simp [transportRequests] at hreq
    · rw [h] at hreq; simp [transportRequests] at hreq
    · rw [h] at hreq
      simp only [transportRequests, List.mem_singleton] at hreq
      exact hreq
  refine attempts_induct c w method fullURL body maxAttempts
    (fun r => ∀ req ∈ transportRequests r.events,
      req = ⟨method, fullURL, body, [(str "Content-Type", [str "application/json"])]⟩)
    ?_ ?_ ?_ ?_ ?_ ?_ fuel attempt st
  · intro st req hreq
    simp [transportRequests] at hreq
  · intro st st1 err evs hx _
    exact hevs st st1 _ evs hx
  · intro st st1 err evs hx _
    exact hevs st st1 _ evs hx
  · intro st st1 resp readErr evs hx _
    exact hevs st st1 _ evs hx
  · intro st st1 resp bytes evs hx _
    exact hevs st st1 _ evs hx
  · intro st st1 res evs r hx _ ih req hreq
    simp only [transportRequests_append, (wait_no_transport c w c.retry.Delay st1).1,
      List.append_nil, List.mem_append] at hreq
    rcases hreq with h | h
    · exact hevs st st1 res evs hx req h
    · exact ih req h

/-- Every transport attempt of `do` carries the method, the base URL followed
by the path, and the encoded payload (no body when there is no payload). -/
theorem do_requests {σ : Type} (c : Client) (w : World σ) (method path : GoString)
    (payload : Payload) (st : σ) :
    ∀ req ∈ transportRequests (c.do w method path payload st).events,
      ∃ bodyBytes,
        ((payload = none ∧ bodyBytes = [])
          ∨ (∃ entries, payload = some entries ∧ w.Marshal entries = .ok bodyBytes))
        ∧ req = ⟨method, c.baseURL ++ path, bodyBytes,
            [(str "Content-Type", [str "application/json"])]⟩ := by
  intro req hreq
  unfold Client.do at hreq
  simp only at hreq
  cases hp : url.ParseRequestURI (c.baseURL ++ path) with
  | error e =>
    rw [hp] at hreq
    simp [transportRequests] at hreq
  | ok u =>
    rw [hp] at hreq
    simp only at hreq
    cases payload with
    | none =>
      simp only at hreq
      exact ⟨[], Or.inl ⟨rfl, rfl⟩, attempts_requests c w method _ _ _ _ _ st req hreq⟩
    | some entries =>
      simp only at hreq
      cases hm : w.Marshal entries with
      | error e =>
        rw [hm] at hreq
        simp [transportRequests] at hreq
      | ok bodyBytes =>
        rw [hm] at hreq
        simp only at hreq
        exact ⟨bodyBytes, Or.inr ⟨entries, rfl, hm⟩,
          attempts_requests c w method _ _ _ _ _ st req hreq⟩

/-- The two ways `do` goes: it returns before the loop, without any event,
because the URL is not valid or the payload cannot be encoded; or it is the
loop, started at the attempt 1 with `MaxRetries + 1` as the number of
attempts. -/
theorem do_cases {σ : Type} (c : Client) (w : World σ) (method path : GoString)
    (payload : Payload) (st : σ) :
    ((c.do w method path payload st).events = []
      ∧ (c.do w method path payload st).resp = Response.zero
      ∧ (c.do w method path payload st).err ≠ none)
    ∨ ((∃ u, url.ParseRequestURI (c.baseURL ++ path) = .ok u)
      ∧ ∃ bodyBytes,
        ((payload = none ∧ bodyBytes = [])
          ∨ (∃ entries, payload = some entries ∧ w.Marshal entries = .ok bodyBytes))
        ∧ c.do w method path payload st
          = c.attempts w method (c.baseURL ++ path) bodyBytes
              (wrapInt (c.retry.MaxRetries + 1)) (wrapInt (c.retry.MaxRetries + 1)).toNat 1
              st) := by
  unfold Client.do
  simp only
  cases hp : url.ParseRequestURI (c.baseURL ++ path) with
  | error e => exact Or.inl ⟨rfl, rfl, by simp⟩
  | ok u =>
    simp only
    cases payload with
    | none => exact Or.inr ⟨⟨u, rfl⟩, [], Or.inl ⟨rfl, rfl⟩, rfl⟩
    | some entries =>
      simp only
      cases hm : w.Marshal entries with
      | error e => exact Or.inl ⟨rfl, rfl, by simp⟩
      | ok bodyBytes => exact Or.inr ⟨⟨u, rfl⟩, bodyBytes, Or.inr ⟨entries, rfl, hm⟩, rfl⟩

/-- With a valid URL and a payload that can be encoded, `do` is the loop. -/
theorem do_loop {σ : Type} (c : Client) (w : World σ) (method path : GoString)
    (payload : Payload) (st : σ) (bodyBytes : List Nat)
    (hurl : ∃ u, url.ParseRequestURI (c.baseURL ++ path) = .ok u)
    (hbody : (payload = none ∧ bodyBytes = [])
      ∨ (∃ entries, payload = some entries ∧ w.Marshal entries = .ok bodyBytes)) :
    c.do w method path payload st
      = c.attempts w method (c.baseURL ++ path) bodyBytes
          (wrapInt (c.retry.MaxRetries + 1)) (wrapInt (c.retry.MaxRetries + 1)).toNat 1 st := by
  obtain ⟨u, hu⟩ := hurl
  unfold Client.do
  simp only [hu]
  rcases hbody with ⟨hp, hb⟩ | ⟨entries, hp, hm⟩
  · subst hp
    subst hb
    rfl
  · subst hp
    simp only [hm]

/-- An attempt that the breaker admits: the events are the admission, the
round trip of the request of the call, and the report. -/
theorem executeOnce_admitted {σ : Type} (c : Client) (w : World σ) (method fullURL : GoString)
    (body : List Nat) (st st1 : σ) (done : Bool → σ → σ)
    (hnew : w.NewRequestWithContext method fullURL = none)
    (hallow : w.Allow st = (.ok done, st1)) :
    ∃ st2 b, c.executeOnce w method fullURL body st
      = ((w.Do ⟨method, fullURL, body, [(str "Content-Type", [str "application/json"])]⟩ st1).1,
          st2,
          [.allow none,
            .transport ⟨method, fullURL, body, [(str "Content-Type", [str "application/json"])]⟩
              (w.Do ⟨method, fullURL, body,
                [(str "Content-Type", [str "application/json"])]⟩ st1).1,
            .done b]) := by
  rcases executeOnce_cases c w method fullURL body st with
    ⟨e, hsome, _⟩ | ⟨_, ⟨e, s1, ha, _⟩ | ⟨done2, s1, ha, ⟨e, s2, hd, h⟩ | ⟨r, s2, hd, h⟩⟩⟩
  · rw [hnew] at hsome
    cases hsome
  · rw [hallow] at ha
    cases ha
  · rw [hallow] at ha
    cases ha
    rw [h, hd]
    exact ⟨_, _, rfl⟩
  · rw [hallow] at ha
    cases ha
    rw [h, hd]
    exact ⟨_, _, rfl⟩

/-- The events of the loop begin with the events of its first attempt. -/
theorem attempts_prefix {σ : Type} (c : Client) (w : World σ) (method fullURL : GoString)
    (body : List Nat) (maxAttempts : Int) (fuel : Nat) (attempt : Int) (st st1 : σ)
    (res : Except Err http.Response) (evs : List Event)
    (hle : attempt ≤ maxAttempts)
    (hx : c.executeOnce w method fullURL body st = (res, st1, evs)) :
    ∃ rest, (c.attempts w method fullURL body maxAttempts (fuel + 1) attempt st).events
      = evs ++ rest := by
  cases res with
  | error err =>
    by_cases hr : attempt < maxAttempts ∧ shouldRetryError err = true
    · rw [attempts_retry_err c w method fullURL body maxAttempts fuel attempt st st1 err evs
        hx hr.1 hr.2]
      exact ⟨_, List.append_assoc _ _ _⟩
    · rw [attempts_stop_err c w method fullURL body maxAttempts fuel attempt st st1 err evs
        hx hle hr]
      by_cases hb : err.Is .ErrOpenState = true ∨ err.Is .ErrTooManyRequests = true
      · rw [if_pos hb]
        exact ⟨[], (List.append_nil _).symm⟩
      · rw [if_neg hb]
        exact ⟨[], (List.append_nil _).symm⟩
  | ok resp =>
    cases hbody : resp.Body with
    | error readErr =>
      rw [attempts_stop_read c w method fullURL body maxAttempts fuel attempt st st1 resp
        readErr evs hx hle hbody]
      exact ⟨[], (List.append_nil _).symm⟩
    | ok bytes =>
      by_cases hr : resp.StatusCode ≥ 500 ∧ attempt < maxAttempts
      · rw [attempts_retry_5xx c w method fullURL body maxAttempts fuel attempt st st1 resp
          bytes evs hx hr.2 hbody hr.1]
        exact ⟨_, List.append_assoc _ _ _⟩
      · rw [attempts_stop_resp c w method fullURL body maxAttempts fuel attempt st st1 resp
          bytes evs hx hle hbody hr]
        exact ⟨[], (List.append_nil _).symm⟩

/-- The upstream calls of `do`, for the body that the payload is encoded
to. -/
theorem do_calls {σ : Type} (c : Client) (w : World σ) (method path : GoString)
    (payload : Payload) (st : σ) (bodyBytes : List Nat)
    (hbody : (payload = none ∧ bodyBytes = [])
      ∨ (∃ entries, payload = some entries ∧ w.Marshal entries = .ok bodyBytes)) :
    CallsUpstream w c.retry.MaxRetries st (c.do w method path payload st).events
      ⟨method, c.baseURL ++ path, bodyBytes, jsonHeader⟩ := by
  refine ⟨?_, ?_, ?_⟩
  · intro req hreq
    obtain ⟨b, hb, heq⟩ := do_requests c w method path payload st req hreq
    have hbb : b = bodyBytes := by
      rcases hb with ⟨hp, hb⟩ | ⟨entries, hp, hm⟩
      · rcases hbody with ⟨_, hb2⟩ | ⟨entries2, hp2, _⟩
        · rw [hb, hb2]
        · rw [hp] at hp2
          cases hp2
      · rcases hbody with ⟨hp2, _⟩ | ⟨entries2, hp2, hm2⟩
        · rw [hp] at hp2
          cases hp2
        · rw [hp] at hp2
          cases hp2
          rw [hm] at hm2
          cases hm2
          rfl
    rw [heq, hbb]
    rfl
  · intro hbad
    rcases do_cases c w method path payload st with ⟨hev, _⟩ | ⟨⟨u, hu⟩, _⟩
    · exact hev
    · exact absurd hu (hbad u)
  · intro hurl hnew hmax done st1 hallow
    rw [do_loop c w method path payload st bodyBytes hurl hbody]
    obtain ⟨n, hn⟩ : ∃ n, (wrapInt (c.retry.MaxRetries + 1)).toNat = n + 1 :=
      ⟨(wrapInt (c.retry.MaxRetries + 1)).toNat - 1, by omega⟩
    rw [hn]
    obtain ⟨st2, b, hx⟩ := executeOnce_admitted c w method (c.baseURL ++ path) bodyBytes st st1
      done hnew hallow
    obtain ⟨rest, hrest⟩ := attempts_prefix c w method (c.baseURL ++ path) bodyBytes
      (wrapInt (c.retry.MaxRetries + 1)) n 1 st st2 _ _ hmax hx
    rw [hrest]
    exact ⟨.done b :: rest, rfl⟩

/-- When the payload cannot be encoded, `do` attempts nothing. -/
theorem do_not_encoded {σ : Type} (c : Client) (w : World σ) (method path : GoString)
    (entries : List (GoString × GoString)) (st : σ)
    (h : ∀ body, w.Marshal entries ≠ .ok body) :
    (c.do w method path (some entries) st).events = [] := by
  rcases do_cases c w method path (some entries) st with ⟨hev, _⟩ | ⟨_, b, hb, _⟩
  · exact hev
  · rcases hb with ⟨hp, _⟩ | ⟨entries2, hp, hm⟩
    · cases hp
    · cases hp
      exact absurd hm (h b)

/-- C20 (as stated, refuted): with the token `a#b`, `GetSettings` issues one
call, for the URL text with the token as it is; the URL that the request is
for has the path `/waInstance1/getSettings/a`, without the end of the token,
which has become the fragment and is not sent. With the id `%zz`, the URL
text does not pass `url.ParseRequestURI` and `GetSettings` issues no call,
although the breaker would admit it and the server would answer. -/
theorem client_request_fragment :
    transportRequests
      ((NewClient (testConfig (str "http://upstream"))).GetSettings (scriptWorld []) (str "1")
        (str "a#b") (answers [http.Response.ofStatus 200 []])).events
      = [⟨str "GET", str "http://upstream/waInstance1/getSettings/a#b", [], jsonHeader⟩]
    ∧ (⟨str "GET", str "http://upstream/waInstance1/getSettings/a#b", [], jsonHeader⟩
        : http.Request).parsed
      = .ok { upstreamURL (str "/waInstance1/getSettings/a") with Fragment := str "b" }
    ∧ ((NewClient (testConfig (str "http://upstream"))).GetSettings (scriptWorld []) (str "%zz")
        (str "t") (answers [http.Response.ofStatus 200 []])).events = [] := by
  decide

/-- C20 (amended): for every `idInstance`, `apiTokenInstance` and
configuration, the upstream calls of the four operations of a client built by
`NewClient` are calls of the HTTP client with the URL text made of the base
URL without its trailing slashes and the path with both values interpolated
as they are: `GET` and `/waInstance{id}/getSettings/{token}`, `GET` and
`/waInstance{id}/getStateInstance/{token}`, both with no body, `POST` and
`/waInstance{id}/sendMessage/{token}` with the encoding of
`{chatId, message}`, `POST` and `/waInstance{id}/sendFileByUrl/{token}` with
the encoding of `{chatId, urlFile, fileName}`. For each operation
(`CallsUpstream`): every round trip carries that request; nothing is
attempted when the URL text does not pass `url.ParseRequestURI` or the
payload cannot be encoded; and when the text passes, the request can be
built, at least one attempt is allowed and the breaker admits the first
attempt, the operation begins with that admission and the round trip of that
request. The URL that a request is for is what `url.Parse` makes of the
text (`http.Request.parsed`). -/
theorem client_requests {σ : Type} (cfg : config.GreenAPIConfig) (w : World σ) (st : σ)
    (id token chatID message urlFile fileName : GoString) :
    CallsUpstream w cfg.Retry.MaxRetries st
      ((NewClient cfg).GetSettings w id token st).events
      ⟨str "GET",
        strings.TrimRight cfg.BaseURL (str "/")
          ++ (str "/waInstance" ++ id ++ str "/getSettings/" ++ token),
        [], jsonHeader⟩
    ∧ CallsUpstream w cfg.Retry.MaxRetries st
      ((NewClient cfg).GetStateInstance w id token st).events
      ⟨str "GET",
        strings.TrimRight cfg.BaseURL (str "/")
          ++ (str "/waInstance" ++ id ++ str "/getStateInstance/" ++ token),
        [], jsonHeader⟩
    ∧ (∀ body, w.Marshal [(str "chatId", chatID), (str "message", message)] = .ok body →
      CallsUpstream w cfg.Retry.MaxRetries st
        ((NewClient cfg).SendMessage w id token chatID message st).events
        ⟨str "POST",
          strings.TrimRight cfg.BaseURL (str "/")
            ++ (str "/waInstance" ++ id ++ str "/sendMessage/" ++ token),
          body, jsonHeader⟩)
    ∧ ((∀ body, w.Marshal [(str "chatId", chatID), (str "message", message)] ≠ .ok body) →
      ((NewClient cfg).SendMessage w id token chatID message st).events = [])
    ∧ (∀ body,
        w.Marshal [(str "chatId", chatID), (str "urlFile", urlFile),
          (str "fileName", fileName)] = .ok body →
      CallsUpstream w cfg.Retry.MaxRetries st
        ((NewClient cfg).SendFileByURL w id token chatID urlFile fileName st).events
        ⟨str "POST",
          strings.TrimRight cfg.BaseURL (str "/")
            ++ (str "/waInstance" ++ id ++ str "/sendFileByUrl/" ++ token),
          body, jsonHeader⟩)
    ∧ ((∀ body,
        w.Marshal [(str "chatId", chatID), (str "urlFile", urlFile),
          (str "fileName", fileName)] ≠ .ok body) →
      ((NewClient cfg).SendFileByURL w id token chatID urlFile fileName st).events = []) := by
  refine ⟨?_, ?_, ?_, ?_, ?_, ?_⟩
  · exact do_calls (NewClient cfg) w http.MethodGet _ none st [] (Or.inl ⟨rfl, rfl⟩)
  · exact do_calls (NewClient cfg) w http.MethodGet _ none st [] (Or.inl ⟨rfl, rfl⟩)
  · intro body hm
    exact do_calls (NewClient cfg) w http.MethodPost _ (some _) st body
      (Or.inr ⟨_, rfl, hm⟩)
  · intro hm
    exact do_not_encoded (NewClient cfg) w http.MethodPost _ _ st hm
  · intro body hm
    exact do_calls (NewClient cfg) w http.MethodPost _ (some _) st body
      (Or.inr ⟨_, rfl, hm⟩)
  · intro hm
    exact do_not_encoded (NewClient cfg) w http.MethodPost _ _ st hm

/-- The calls of the tests `TestClient_GetStateInstancePath` and
`TestClient_SendMessagePath`, against a server that answers 200 and a base
URL with trailing slashes: the operation begins with the admission and the
round trip of the request described, every round trip carries that request,
and the URL that the request is for has the path that the tests expect. -/
theorem client_requests_witness :
    (∃ rest,
      ((NewClient (testConfig (str "http://upstream//"))).GetStateInstance (scriptWorld [])
        (str "123") (str "token") (answers [http.Response.ofStatus 200 []])).events
        = .allow none
          :: .transport
              ⟨str "GET", str "http://upstream/waInstance123/getStateInstance/token", [],
                jsonHeader⟩
              (.ok (http.Response.ofStatus 200 []))
          :: rest)
    ∧ (∀ req ∈ transportRequests
        ((NewClient (testConfig (str "http://upstream//"))).GetStateInstance (scriptWorld [])
          (str "123") (str "token") (answers [http.Response.ofStatus 200 []])).events,
      req = ⟨str "GET", str "http://upstream/waInstance123/getStateInstance/token", [],
        jsonHeader⟩)
    ∧ (⟨str "GET", str "http://upstream/waInstance123/getStateInstance/token", [], jsonHeader⟩
        : http.Request).parsed
      = .ok (upstreamURL (str "/waInstance123/getStateInstance/token"))
    ∧ (∃ rest,
      ((NewClient (testConfig (str "http://upstream//"))).SendMessage (scriptWorld [1, 2, 3])
        (str "123") (str "token") (str "77771234567@c.us") (str "hello")
        (answers [http.Response.ofStatus 200 []])).events
        = .allow none
          :: .transport
              ⟨str "POST", str "http://upstream/waInstance123/sendMessage/token", [1, 2, 3],
                jsonHeader⟩
              (.ok (http.Response.ofStatus 200 []))
          :: rest) :=
  ⟨(client_requests (testConfig (str "http://upstream//")) (scriptWorld [])
      (answers [http.Response.ofStatus 200 []])
      (str "123") (str "token") [] [] [] []).2.1.2.2
      ⟨upstreamURL (str "/waInstance123/getStateInstance/token"), by decide⟩ rfl (by decide)
      (fun _ s => s) (answers [http.Response.ofStatus 200 []]) rfl,
    (client_requests (testConfig (str "http://upstream//")) (scriptWorld [])
      (answers [http.Response.ofStatus 200 []])
      (str "123") (str "token") [] [] [] []).2.1.1,
    by decide,
    ((client_requests (testConfig (str "http://upstream//")) (scriptWorld [1, 2, 3])
      (answers [http.Response.ofStatus 200 []])
      (str "123") (str "token") (str "77771234567@c.us") (str "hello") [] []).2.2.1
      [1, 2, 3] rfl).2.2
      ⟨upstreamURL (str "/waInstance123/sendMessage/token"), by decide⟩ rfl (by decide)
      (fun _ s => s) (answers [http.Response.ofStatus 200 []]) rfl⟩

theorem shouldRetryError_breaker (s : Sentinel)
    (hs : s = .ErrOpenState ∨ s = .ErrTooManyRequests) :
    shouldRetryError (.sentinel s) = false
    ∧ ((Err.sentinel s).Is .ErrOpenState = true ∨ (Err.sentinel s).Is .ErrTooManyRequests = true) := by
  rcases hs with h | h <;> subst h <;> decide

/-- One attempt whose request can be built: the breaker refuses it, and the
refusal is the only event, or the breaker admits it, and the events are the
admission, the round trip and the report. -/
theorem executeOnce_built {σ : Type} (c : Client) (w : World σ) (method fullURL : GoString)
    (body : List Nat) (st st1 : σ) (res : Except Err http.Response) (evs : List Event)
    (hnew : w.NewRequestWithContext method fullURL = none)
    (hx : c.executeOnce w method fullURL body st = (res, st1, evs)) :
    (∃ e, res = .error e ∧ evs = [.allow (some e)])
    ∨ (∃ b, evs = [.allow none,
        .transport ⟨method, fullURL, body, [(str "Content-Type", [str "application/json"])]⟩ res,
        .done b]) := by
  rcases executeOnce_cases c w method fullURL body st with
    ⟨e, hsome, _⟩ | ⟨_, ⟨e, s1, _, h⟩ | ⟨done, s1, _, ⟨e, s2, _, h⟩ | ⟨r, s2, _, h⟩⟩⟩
  · rw [hnew] at hsome
    cases hsome
  · rw [h] at hx
    cases hx
    exact Or.inl ⟨e, rfl, rfl⟩
  · rw [h] at hx
    cases hx
    exact Or.inr ⟨_, rfl⟩
  · rw [h] at hx
    cases hx
    exact Or.inr ⟨_, rfl⟩

/-- One attempt whose request cannot be built leaves no event. -/
theorem executeOnce_not_built {σ : Type} (c : Client) (w : World σ)
    (method fullURL : GoString) (body : List Nat) (st st1 : σ)
    (res : Except Err http.Response) (evs : List Event) (err : Err)
    (hnew : w.NewRequestWithContext method fullURL = some err)
    (hx : c.executeOnce w method fullURL body st = (res, st1, evs)) : evs = [] := by
  rcases executeOnce_cases c w method fullURL body st with
    ⟨e, _, h⟩ | ⟨hnone, _⟩
  · rw [h] at hx
    cases hx
    rfl
  · rw [hnew] at hnone
    cases hnone

/-- When the breaker was asked during the loop, the request could be built. -/
theorem attempts_allow_built {σ : Type} (c : Client) (w : World σ) (method fullURL : GoString)
    (body : List Nat) (maxAttempts : Int) (fuel : Nat) (attempt : Int) (st : σ) (e : Option Err)
    (hmem : Event.allow e ∈ (c.attempts w method fullURL body maxAttempts fuel attempt st).events) :
    w.NewRequestWithContext method fullURL = none := by
  cases hnew : w.NewRequestWithContext method fullURL with
  | none => rfl
  | some err =>
    exfalso
    revert hmem
    refine attempts_induct c w method fullURL body maxAttempts
      (fun r => Event.allow e ∉ r.events) ?_ ?_ ?_ ?_ ?_ ?_ fuel attempt st
    · intro st
      simp
    · intro st st1 err2 evs hx _
      rw [executeOnce_not_built c w method fullURL body st st1 _ evs err hnew hx]
      simp
    · intro st st1 err2 evs hx _
      rw [executeOnce_not_built c w method fullURL body st st1 _ evs err hnew hx]
      simp
    · intro st st1 resp readErr evs hx _
      rw [executeOnce_not_built c w method fullURL body st st1 _ evs err hnew hx]
      simp
    · intro st st1 resp bytes evs hx _
      rw [executeOnce_not_built c w method fullURL body st st1 _ evs err hnew hx]
      simp
    · intro st st1 res evs r hx _ ih
      rw [executeOnce_not_built c w method fullURL body st st1 _ evs err hnew hx]
      simp only [List.nil_append, List.mem_append, not_or]
      exact ⟨(wait_no_transport c w c.retry.Delay st1).2.2 e, ih⟩

/-- The round trips among the events of a sequence of attempts are those of
the attempts that the breaker admitted. -/
theorem transportResults_earlier (request : http.Request) (delay : time.Duration)
    (earlier : List EarlierAttempt) :
    transportResults (earlierEvents request delay earlier)
      = earlier.filterMap EarlierAttempt.result := by
  induction earlier with
  | nil => rfl
  | cons a rest ih =>
    cases a with
    | admitted result report waited =>
      cases waited <;>
        simp [earlierEvents, EarlierAttempt.events, EarlierAttempt.result, transportResults, ih]
    | refused err waited =>
      cases waited <;>
        simp [earlierEvents, EarlierAttempt.events, EarlierAttempt.result, transportResults, ih]

/-- In the loop, a refusal of the breaker is the only event of its attempt and
the last event of the loop: before it stand the events of the attempts that
were retried, each begun by its own admission or refusal, and the loop
returns the breaker-open error. -/
theorem attempts_rejected {σ : Type} (c : Client) (w : World σ) (method fullURL : GoString)
    (body : List Nat) (maxAttempts : Int) (s : Sentinel)
    (hs : s = .ErrOpenState ∨ s = .ErrTooManyRequests) (fuel : Nat) (attempt : Int) (st : σ) :
    Event.allow (some (.sentinel s))
        ∈ (c.attempts w method fullURL body maxAttempts fuel attempt st).events →
      (∃ earlier : List EarlierAttempt,
        (c.attempts w method fullURL body maxAttempts fuel attempt st).events
          = earlierEvents
              ⟨method, fullURL, body, [(str "Content-Type", [str "application/json"])]⟩
              c.retry.Delay earlier
            ++ [.allow (some (.sentinel s))]
        ∧ ∀ e waited, EarlierAttempt.refused e waited ∈ earlier → shouldRetryError e = true)
      ∧ (c.attempts w method fullURL body maxAttempts fuel attempt st).resp = Response.zero
      ∧ (c.attempts w method fullURL body maxAttempts fuel attempt st).err
        = some (.UpstreamError "green-api circuit breaker is open"
            (.wrapErrorV "%w: %v" (.sentinel .ErrCircuitBreakerOpen) (.sentinel s))) := by
  intro hmem0
  have hnew := attempts_allow_built c w method fullURL body maxAttempts fuel attempt st _ hmem0
  have hsr := shouldRetryError_breaker s hs
  -- where a refusal can stand among the events of one attempt
  have hevs : ∀ (st st1 : σ) (res : Except Err http.Response) (evs : List Event),
      c.executeOnce w method fullURL body st = (res, st1, evs) →
      Event.allow (some (.sentinel s)) ∈ evs →
      res = .error (.sentinel s) ∧ evs = [.allow (some (.sentinel s))] := by
    intro st st1 res evs hx hmem
    rcases executeOnce_built c w method fullURL body st st1 res evs hnew hx with
      ⟨e, hres, h⟩ | ⟨b, h⟩
    · rw [h] at hmem
      simp only [List.mem_singleton, Event.allow.injEq, Option.some.injEq] at hmem
      rw [hres, h, ← hmem]
      exact ⟨rfl, rfl⟩
    · rw [h] at hmem; simp at hmem
  revert hmem0
  refine attempts_induct c w method fullURL body maxAttempts
    (fun r => Event.allow (some (.sentinel s)) ∈ r.events →
      (∃ earlier : List EarlierAttempt,
        r.events
          = earlierEvents
              ⟨method, fullURL, body, [(str "Content-Type", [str "application/json"])]⟩
              c.retry.Delay earlier
            ++ [.allow (some (.sentinel s))]
        ∧ ∀ e waited, EarlierAttempt.refused e waited ∈ earlier → shouldRetryError e = true)
      ∧ r.resp = Response.zero
      ∧ r.err = some (.UpstreamError "green-api circuit breaker is open"
          (.wrapErrorV "%w: %v" (.sentinel .ErrCircuitBreakerOpen) (.sentinel s))))
    ?_ ?_ ?_ ?_ ?_ ?_ fuel attempt st
  · intro st hmem
    simp at hmem
  · intro st st1 err evs hx _ hmem
    obtain ⟨hres, hev⟩ := hevs st st1 _ evs hx hmem
    cases hres
    refine ⟨⟨[], ?_, ?_⟩, rfl, rfl⟩
    · rw [hev]; rfl
    · intro e waited h
      simp at h
  · intro st st1 err evs hx hnb hmem
    obtain ⟨hres, _⟩ := hevs st st1 _ evs hx hmem
    cases hres
    exact absurd hsr.2 hnb
  · intro st st1 resp readErr evs hx _ hmem
    obtain ⟨hres, _⟩ := hevs st st1 _ evs hx hmem
    cases hres
  · intro st st1 resp bytes evs hx _ hmem
    obtain ⟨hres, _⟩ := hevs st st1 _ evs hx hmem
    cases hres
  · intro st st1 res evs r hx hretry ih hmem
    simp only [List.mem_append] at hmem
    rcases hmem with (h | h) | h
    · obtain ⟨hres, _⟩ := hevs st st1 res evs hx h
      rcases hretry with ⟨err, he, hr⟩ | ⟨resp, bytes, he, _⟩
      · rw [hres] at he
        cases he
        rw [hsr.1] at hr
        cases hr
      · rw [hres] at he
        cases he
    · exact absurd h ((wait_no_transport c w c.retry.Delay st1).2.2 _)
    · obtain ⟨⟨earlier, hpre, hearlier⟩, hresp, herr⟩ := ih h
      refine ⟨?_, hresp, herr⟩
      -- the wait after the attempt
      obtain ⟨waited, hwaited⟩ : ∃ waited : Bool,
          (c.wait w c.retry.Delay st1).2 = if waited then [.sleep c.retry.Delay] else [] := by
        rcases wait_events c w c.retry.Delay st1 with hw | hw
        · exact ⟨false, by rw [hw]; rfl⟩
        · exact ⟨true, by rw [hw]; rfl⟩
      rcases executeOnce_built c w method fullURL body st st1 res evs hnew hx with
        ⟨e, hres, hev⟩ | ⟨b, hev⟩
      · have hre : shouldRetryError e = true := by
          rcases hretry with ⟨err, he, hr⟩ | ⟨resp, bytes, he, _⟩
          · rw [hres] at he
            cases he
            exact hr
          · rw [hres] at he
            cases he
        refine ⟨.refused e waited :: earlier, ?_, ?_⟩
        · simp only [hpre, hev, hwaited, earlierEvents, EarlierAttempt.events,
            List.append_assoc, List.singleton_append, List.cons_append, List.nil_append]
        · intro e2 waited2 hm
          simp only [List.mem_cons, EarlierAttempt.refused.injEq] at hm
          rcases hm with ⟨h1, _⟩ | hm
          · rw [h1]; exact hre
          · exact hearlier e2 waited2 hm
      · refine ⟨.admitted res b waited :: earlier, ?_, ?_⟩
        · simp only [hpre, hev, hwaited, earlierEvents, EarlierAttempt.events,
            List.append_assoc, List.singleton_append, List.cons_append, List.nil_append]
        · intro e2 waited2 hm
          simp only [List.mem_cons] at hm
          rcases hm with hm | hm
          · cases hm
          · exact hearlier e2 waited2 hm

/-- C16: if the breaker refuses the admission on an attempt of a call, with
`gobreaker.ErrOpenState` or `gobreaker.ErrTooManyRequests`, the events of the
call are those of the `k - 1` attempts `earlier` that came before, each one
complete with its own admission (or refusal with an error that is retried,
which the two errors of the breaker are not) and its wait, followed by the
refusal alone: the refused attempt makes no transport attempt, and nothing
follows it, whatever `MaxRetries` is. The round trips of the call are those
of the earlier attempts that were admitted, `k - 1` of them when none of these
was refused. The call returns the zero response and an error that matches
`ErrCircuitBreakerOpen`, which the service maps to the status 503. -/
theorem breaker_rejection_ends_call {σ : Type} (c : Client) (w : World σ)
    (method path : GoString) (payload : Payload) (st : σ) (s : Sentinel)
    (hs : s = .ErrOpenState ∨ s = .ErrTooManyRequests)
    (hmem : Event.allow (some (.sentinel s)) ∈ (c.do w method path payload st).events) :
    (∃ bodyBytes,
      ((payload = none ∧ bodyBytes = [])
        ∨ (∃ entries, payload = some entries ∧ w.Marshal entries = .ok bodyBytes))
      ∧ ∃ earlier : List EarlierAttempt,
        (c.do w method path payload st).events
          = earlierEvents ⟨method, c.baseURL ++ path, bodyBytes, jsonHeader⟩ c.retry.Delay
              earlier
            ++ [.allow (some (.sentinel s))]
        ∧ (∀ e waited, EarlierAttempt.refused e waited ∈ earlier → shouldRetryError e = true)
        ∧ transportResults (c.do w method path payload st).events
          = earlier.filterMap EarlierAttempt.result
        ∧ ((∀ e waited, EarlierAttempt.refused e waited ∉ earlier) →
          (transportResults (c.do w method path payload st).events).length = earlier.length))
    ∧ (c.do w method path payload st).resp = Response.zero
    ∧ ∃ e, (c.do w method path payload st).err = some e
      ∧ e.Is .ErrCircuitBreakerOpen = true
      ∧ ∀ text, (mapUpstreamError (e.view text)).StatusCode = 503 := by
  rcases do_cases c w method path payload st with ⟨hev, _⟩ | ⟨_, bodyBytes, hbody, heq⟩
  · rw [hev] at hmem
    simp at hmem
  · rw [heq] at hmem ⊢
    obtain ⟨⟨earlier, hevents, hearlier⟩, hresp, herr⟩ :=
      attempts_rejected c w method _ _ _ s hs _ _ st hmem
    have htr : transportResults
        (c.attempts w method (c.baseURL ++ path) bodyBytes (wrapInt (c.retry.MaxRetries + 1))
          (wrapInt (c.retry.MaxRetries + 1)).toNat 1 st).events
        = earlier.filterMap EarlierAttempt.result := by
      rw [hevents, transportResults_append, transportResults_earlier]
      simp [transportResults]
    refine ⟨⟨bodyBytes, hbody, earlier, hevents, hearlier, htr, ?_⟩, hresp, _, herr, rfl,
      fun _ => rfl⟩
    intro hnone
    rw [htr]
    clear hevents htr hearlier
    induction earlier with
    | nil => rfl
    | cons a rest ih =>
      cases a with
      | admitted result report waited =>
        simp only [List.filterMap_cons, EarlierAttempt.result, List.length_cons]
        rw [ih (fun e waited hm => hnone e waited (List.mem_cons_of_mem _ hm))]
      | refused err waited => exact absurd (List.mem_cons_self _ _) (hnone err waited)

/-- A call with two retries allowed: the first attempt is answered with the
status 500, the second is refused by the breaker, and a third would be
answered with 200. The events are those of the first attempt, with its wait,
and the refusal; the only round trip is the first one. -/
theorem breaker_rejection_ends_call_witness :
    ((NewClient (testConfig (str "http://upstream"))).do (scriptWorld []) (str "GET")
        (str "/waInstance123/getSettings/token") none
        [.answered (.ok (http.Response.ofStatus 500 [])),
          .rejected (.sentinel .ErrOpenState),
          .answered (.ok (http.Response.ofStatus 200 []))]).events
      = [.allow none,
          .transport
            ⟨str "GET", str "http://upstream/waInstance123/getSettings/token", [], jsonHeader⟩
            (.ok (http.Response.ofStatus 500 [])),
          .done false, .sleep 1000000000, .allow (some (.sentinel .ErrOpenState))]
    ∧ (∃ bodyBytes,
      (((none : Payload) = none ∧ bodyBytes = [])
        ∨ (∃ entries, (none : Payload) = some entries
          ∧ (scriptWorld []).Marshal entries = .ok bodyBytes))
      ∧ ∃ earlier : List EarlierAttempt,
        ((NewClient (testConfig (str "http://upstream"))).do (scriptWorld []) (str "GET")
          (str "/waInstance123/getSettings/token") none
          [.answered (.ok (http.Response.ofStatus 500 [])),
            .rejected (.sentinel .ErrOpenState),
            .answered (.ok (http.Response.ofStatus 200 []))]).events
          = earlierEvents
              ⟨str "GET",
                (NewClient (testConfig (str "http://upstream"))).baseURL
                  ++ str "/waInstance123/getSettings/token", bodyBytes, jsonHeader⟩
              (NewClient (testConfig (str "http://upstream"))).retry.Delay earlier
            ++ [.allow (some (.sentinel .ErrOpenState))]
        ∧ (∀ e waited, EarlierAttempt.refused e waited ∈ earlier → shouldRetryError e = true)
        ∧ transportResults
            ((NewClient (testConfig (str "http://upstream"))).do (scriptWorld []) (str "GET")
              (str "/waInstance123/getSettings/token") none
              [.answered (.ok (http.Response.ofStatus 500 [])),
                .rejected (.sentinel .ErrOpenState),
                .answered (.ok (http.Response.ofStatus 200 []))]).events
          = earlier.filterMap EarlierAttempt.result
        ∧ ((∀ e waited, EarlierAttempt.refused e waited ∉ earlier) →
          (transportResults
            ((NewClient (testConfig (str "http://upstream"))).do (scriptWorld []) (str "GET")
              (str "/waInstance123/getSettings/token") none
              [.answered (.ok (http.Response.ofStatus 500 [])),
                .rejected (.sentinel .ErrOpenState),
                .answered (.ok (http.Response.ofStatus 200 []))]).events).length
            = earlier.length))
    ∧ ((NewClient (testConfig (str "http://upstream"))).do (scriptWorld []) (str "GET")
        (str "/waInstance123/getSettings/token") none
        [.answered (.ok (http.Response.ofStatus 500 [])),
          .rejected (.sentinel .ErrOpenState),
          .answered (.ok (http.Response.ofStatus 200 []))]).resp = Response.zero
    ∧ ∃ e,
      ((NewClient (testConfig (str "http://upstream"))).do (scriptWorld []) (str "GET")
        (str "/waInstance123/getSettings/token") none
        [.answered (.ok (http.Response.ofStatus 500 [])),
          .rejected (.sentinel .ErrOpenState),
          .answered (.ok (http.Response.ofStatus 200 []))]).err = some e
      ∧ e.Is .ErrCircuitBreakerOpen = true
      ∧ ∀ text, (mapUpstreamError (e.view text)).StatusCode = 503 :=
  ⟨by decide,
    breaker_rejection_ends_call (NewClient (testConfig (str "http://upstream")))
      (scriptWorld []) (str "GET") (str "/waInstance123/getSettings/token") none
      [.answered (.ok (http.Response.ofStatus 500 [])),
        .rejected (.sentinel .ErrOpenState),
        .answered (.ok (http.Response.ofStatus 200 []))]
      .ErrOpenState (Or.inl rfl) (by decide)⟩

/-! ## The attempt loop against scripted surroundings -/

theorem wrapInt_eq (x : Int) (h1 : -9223372036854775808 ≤ x) (h2 : x < 9223372036854775808) :
    wrapInt x = x := by
  unfold wrapInt
  norm_num
  omega

/-- For every `MaxRetries` that `config.Load` accepts, the number of attempts
`maxAttempts := c.retry.MaxRetries + 1` of `do` is the number
`MaxRetries + 1`. -/
theorem maxAttempts_of_range (r : config.GreenAPIRetryConfig) (h : r.MaxRetriesInRange) :
    wrapInt (r.MaxRetries + 1) = r.MaxRetries + 1 :=
  wrapInt_eq _ (by have := h.1; omega) (by have := h.2; omega)

/-- One attempt against a script whose next step is an answer. -/
theorem executeOnce_answered (c : Client) (encoded : List Nat) (method fullURL : GoString)
    (body : List Nat) (res : Except Err http.Response) (rest : List Step) :
    ∃ b, c.executeOnce (scriptWorld encoded) method fullURL body (.answered res :: rest)
      = (res, rest, [.allow none, .transport ⟨method, fullURL, body, jsonHeader⟩ res, .done b]) := by
  unfold Client.executeOnce scriptWorld
  cases res with
  | error e => exact ⟨false, rfl⟩
  | ok r => exact ⟨_, rfl⟩

theorem wait_script (c : Client) (encoded : List Nat) (delay : time.Duration)
    (st : List Step) : (c.wait (scriptWorld encoded) delay st).1 = st := by
  unfold Client.wait
  split_ifs <;> rfl

/-- Against a script of responses of status 500 or more followed by a
response that ends the call (because its status is below 500 or because it
is the last attempt), the loop makes one transport attempt for each response
and returns the last one with a `nil` error. -/
theorem attempts_answers (c : Client) (encoded : List Nat) (method fullURL : GoString)
    (body : List Nat) (maxAttempts : Int) (final : http.Response) (rest : List Step)
    (hfinal : ∃ bytes, final.Body = .ok bytes) :
    ∀ (rs : List http.Response) (fuel : Nat) (attempt : Int),
      (∀ r ∈ rs, r.IsServerError) →
      rs.length + 1 ≤ fuel →
      attempt + rs.length ≤ maxAttempts →
      (final.StatusCode < 500 ∨ attempt + rs.length = maxAttempts) →
      (c.attempts (scriptWorld encoded) method fullURL body maxAttempts fuel attempt
          (answers rs ++ .answered (.ok final) :: rest)).err = none
      ∧ (c.attempts (scriptWorld encoded) method fullURL body maxAttempts fuel attempt
          (answers rs ++ .answered (.ok final) :: rest)).resp = (readResponse final).1
      ∧ transportResults
          (c.attempts (scriptWorld encoded) method fullURL body maxAttempts fuel attempt
            (answers rs ++ .answered (.ok final) :: rest)).events
        = (rs ++ [final]).map .ok
      ∧ (c.attempts (scriptWorld encoded) method fullURL body maxAttempts fuel attempt
          (answers rs ++ .answered (.ok final) :: rest)).state = rest := by
  intro rs
  induction rs with
  | nil =>
    intro fuel attempt _ hfuel hle hstop
    obtain ⟨n, rfl⟩ : ∃ n, fuel = n + 1 := ⟨fuel - 1, by simp at hfuel; omega⟩
    obtain ⟨bytes, hbytes⟩ := hfinal
    obtain ⟨b, hx⟩ := executeOnce_answered c encoded method fullURL body (.ok final) rest
    simp only [List.length_nil, Nat.cast_zero, add_zero] at hle hstop
    have hs : ¬ (final.StatusCode ≥ 500 ∧ attempt < maxAttempts) := by
      rintro ⟨h1, h2⟩
      rcases hstop with h | h <;> omega
    simp only [answers, List.map_nil, List.nil_append]
    rw [attempts_stop_resp c (scriptWorld encoded) method fullURL body maxAttempts n attempt _
      rest final bytes _ hx hle hbytes hs]
    simp [transportResults]
  | cons r rs ih =>
    intro fuel attempt hrs hfuel hle hstop
    obtain ⟨n, rfl⟩ : ∃ n, fuel = n + 1 := ⟨fuel - 1, by simp at hfuel; omega⟩
    have hr := hrs r (by simp)
    obtain ⟨hstatus, bytes, hbytes⟩ := hr
    simp only [List.length_cons, Nat.cast_add, Nat.cast_one] at hle hstop hfuel
    have hlt : attempt < maxAttempts := by omega
    obtain ⟨b, hx⟩ := executeOnce_answered c encoded method fullURL body (.ok r)
      (answers rs ++ .answered (.ok final) :: rest)
    have hstep := attempts_retry_5xx c (scriptWorld encoded) method fullURL body maxAttempts n
      attempt (answers (r :: rs) ++ .answered (.ok final) :: rest)
      (answers rs ++ .answered (.ok final) :: rest) r bytes _ hx hlt hbytes hstatus
    rw [wait_script] at hstep
    obtain ⟨h1, h2, h3, h4⟩ := ih n (attempt + 1) (fun x hx => hrs x (by simp [hx]))
      (by omega) (by omega) (by rcases hstop with h | h; exact Or.inl h; exact Or.inr (by omega))
    rw [hstep]
    refine ⟨h1, h2, ?_, h4⟩
    simp only [transportResults_append, (wait_no_transport c _ _ _).2.1, h3]
    simp [transportResults]

/-- Against scripted surroundings and with a valid upstream URL, `do` is the
loop. -/
theorem do_script (c : Client) (encoded : List Nat) (method path : GoString)
    (payload : Payload) (st : List Step)
    (hurl : ∃ u, url.ParseRequestURI (c.baseURL ++ path) = .ok u) :
    ∃ bodyBytes, c.do (scriptWorld encoded) method path payload st
      = c.attempts (scriptWorld encoded) method (c.baseURL ++ path) bodyBytes
          (wrapInt (c.retry.MaxRetries + 1)) (wrapInt (c.retry.MaxRetries + 1)).toNat 1 st := by
  obtain ⟨u, hu⟩ := hurl
  unfold Client.do
  simp only [hu]
  cases payload with
  | none => exact ⟨[], rfl⟩
  | some entries => exact ⟨encoded, rfl⟩

/-- C14: when the breaker admits every attempt and every transport attempt
yields a readable response, `do` returns, with a `nil` error, the response of
the first attempt, of number `k` at most `MaxRetries + 1`, whose status is
below 500, after exactly `k` transport attempts: the `k - 1` responses `rs`
of status 500 or more and then the response `final`. The number of attempts
`maxAttempts` that `do` computes is taken to be the number `MaxRetries + 1`,
as it is for every `MaxRetries` that `config.Load` accepts
(`maxAttempts_of_range`). -/
theorem first_response_below_500 (c : Client) (encoded : List Nat) (method path : GoString)
    (payload : Payload) (rs : List http.Response) (final : http.Response) (rest : List Step)
    (hurl : ∃ u, url.ParseRequestURI (c.baseURL ++ path) = .ok u)
    (hsum : wrapInt (c.retry.MaxRetries + 1) = c.retry.MaxRetries + 1)
    (hk : (rs.length : Int) + 1 ≤ c.retry.MaxRetries + 1)
    (hrs : ∀ r ∈ rs, r.IsServerError) (hfinal : final.IsBelow500) :
    (c.do (scriptWorld encoded) method path payload
        (answers rs ++ .answered (.ok final) :: rest)).err = none
    ∧ (c.do (scriptWorld encoded) method path payload
        (answers rs ++ .answered (.ok final) :: rest)).resp = (readResponse final).1
    ∧ transportResults (c.do (scriptWorld encoded) method path payload
        (answers rs ++ .answered (.ok final) :: rest)).events = (rs ++ [final]).map .ok
    ∧ (c.do (scriptWorld encoded) method path payload
        (answers rs ++ .answered (.ok final) :: rest)).state = rest := by
  obtain ⟨bodyBytes, hdo⟩ := do_script c encoded method path payload
    (answers rs ++ .answered (.ok final) :: rest) hurl
  rw [hdo, hsum]
  exact attempts_answers c encoded method _ bodyBytes _ final rest hfinal.2 rs _ 1 hrs
    (by omega) (by omega) (Or.inl hfinal.1)

/-- The two cases of the tests: a response 400 is returned after one attempt,
and a response 500 followed by a response 200 gives the response 200 after
two attempts. -/
theorem first_response_below_500_witness :
    ((NewClient (testConfig (str "http://upstream"))).do (scriptWorld []) (str "GET")
        (str "/waInstance1101000001/getSettings/token") none
        (answers [] ++ .answered (.ok (http.Response.ofStatus 400 [])) :: [])).err = none
    ∧ transportResults ((NewClient (testConfig (str "http://upstream"))).do (scriptWorld [])
        (str "GET") (str "/waInstance1101000001/getSettings/token") none
        (answers [http.Response.ofStatus 500 []]
          ++ .answered (.ok (http.Response.ofStatus 200 [])) :: [])).events
      = ([http.Response.ofStatus 500 []] ++ [http.Response.ofStatus 200 []]).map .ok :=
  ⟨(first_response_below_500 (NewClient (testConfig (str "http://upstream"))) [] (str "GET")
      (str "/waInstance1101000001/getSettings/token") none [] (http.Response.ofStatus 400 [])
      [] ⟨upstreamURL (str "/waInstance1101000001/getSettings/token"), by decide⟩
      (maxAttempts_of_range _ (by decide)) (by decide) (by decide) (by decide)).1,
    (first_response_below_500 (NewClient (testConfig (str "http://upstream"))) [] (str "GET")
      (str "/waInstance1101000001/getSettings/token") none [http.Response.ofStatus 500 []]
      (http.Response.ofStatus 200 []) []
      ⟨upstreamURL (str "/waInstance1101000001/getSettings/token"), by decide⟩
      (maxAttempts_of_range _ (by decide)) (by decide) (by decide) (by decide)).2.2.1⟩

/-- C15: for every `MaxRetries = n` that is not negative, if the breaker
admits every attempt and every transport attempt yields a readable response
of status 500 or more, `do` makes exactly `n + 1` transport attempts, the `n`
of `rs` and the one of `final`, and returns the response of the last one with
a `nil` error. The number of attempts `maxAttempts` that `do` computes is
taken to be the number `n + 1`, as it is for every `MaxRetries` that
`config.Load` accepts (`maxAttempts_of_range`). -/
theorem server_errors_exhausted (c : Client) (encoded : List Nat) (method path : GoString)
    (payload : Payload) (rs : List http.Response) (final : http.Response) (rest : List Step)
    (hurl : ∃ u, url.ParseRequestURI (c.baseURL ++ path) = .ok u)
    (hsum : wrapInt (c.retry.MaxRetries + 1) = c.retry.MaxRetries + 1)
    (hn : (rs.length : Int) = c.retry.MaxRetries)
    (hrs : ∀ r ∈ rs, r.IsServerError) (hfinal : final.IsServerError) :
    (c.do (scriptWorld encoded) method path payload
        (answers rs ++ .answered (.ok final) :: rest)).err = none
    ∧ (c.do (scriptWorld encoded) method path payload
        (answers rs ++ .answered (.ok final) :: rest)).resp = (readResponse final).1
    ∧ transportResults (c.do (scriptWorld encoded) method path payload
        (answers rs ++ .answered (.ok final) :: rest)).events = (rs ++ [final]).map .ok
    ∧ (c.do (scriptWorld encoded) method path payload
        (answers rs ++ .answered (.ok final) :: rest)).state = rest := by
  obtain ⟨bodyBytes, hdo⟩ := do_script c encoded method path payload
    (answers rs ++ .answered (.ok final) :: rest) hurl
  rw [hdo, hsum]
  exact attempts_answers c encoded method _ bodyBytes _ final rest hfinal.2 rs _ 1 hrs
    (by omega) (by omega) (Or.inr (by omega))

/-- The case of the test `TestClient_RetryOnServer5xxExhausted`: with
`MaxRetries = 1` and the status 500 on every attempt, the second response is
returned with a `nil` error after two attempts; a third answer is not
asked for. -/
theorem server_errors_exhausted_witness :
    (({ baseURL := str "http://upstream", retry := { MaxRetries := 1, DelaySeconds := 1 } }
        : Client).do (scriptWorld []) (str "GET") (str "/waInstance123/getSettings/token") none
        (answers [http.Response.ofStatus 500 [1]]
          ++ .answered (.ok (http.Response.ofStatus 500 [2]))
            :: answers [http.Response.ofStatus 500 [3]])).err = none
    ∧ (({ baseURL := str "http://upstream", retry := { MaxRetries := 1, DelaySeconds := 1 } }
        : Client).do (scriptWorld []) (str "GET") (str "/waInstance123/getSettings/token") none
        (answers [http.Response.ofStatus 500 [1]]
          ++ .answered (.ok (http.Response.ofStatus 500 [2]))
            :: answers [http.Response.ofStatus 500 [3]])).resp
      = (readResponse (http.Response.ofStatus 500 [2])).1
    ∧ transportResults
      (({ baseURL := str "http://upstream", retry := { MaxRetries := 1, DelaySeconds := 1 } }
        : Client).do (scriptWorld []) (str "GET") (str "/waInstance123/getSettings/token") none
        (answers [http.Response.ofStatus 500 [1]]
          ++ .answered (.ok (http.Response.ofStatus 500 [2]))
            :: answers [http.Response.ofStatus 500 [3]])).events
      = ([http.Response.ofStatus 500 [1]] ++ [http.Response.ofStatus 500 [2]]).map .ok
    ∧ (({ baseURL := str "http://upstream", retry := { MaxRetries := 1, DelaySeconds := 1 } }
        : Client).do (scriptWorld []) (str "GET") (str "/waInstance123/getSettings/token") none
        (answers [http.Response.ofStatus 500 [1]]
          ++ .answered (.ok (http.Response.ofStatus 500 [2]))
            :: answers [http.Response.ofStatus 500 [3]])).state
      = answers [http.Response.ofStatus 500 [3]] :=
  server_errors_exhausted
    { baseURL := str "http://upstream", retry := { MaxRetries := 1, DelaySeconds := 1 } }
    [] (str "GET") (str "/waInstance123/getSettings/token") none
    [http.Response.ofStatus 500 [1]] (http.Response.ofStatus 500 [2])
    (answers [http.Response.ofStatus 500 [3]])
    ⟨upstreamURL (str "/waInstance123/getSettings/token"), by decide⟩
    (maxAttempts_of_range _ (by decide)) (by decide) (by decide) (by decide)

/-! ## The breaker of the client -/

/-- C19: for every value of the counts and every configuration with
`MinRequests` at least 1, the predicate `ReadyToTrip` that `NewClient` builds
returns true if and only if the requests are at least `MinRequests` and
either the consecutive failures are at least `ConsecutiveFailures` or the
quotient of the failures by the requests reaches `FailureRatio`; in
particular it returns false whenever the requests are fewer than
`MinRequests`, whatever failures were recorded. -/
theorem readyToTrip_iff (cfg : config.GreenAPIConfig) (now : time.Time)
    (counts : gobreaker.Counts) (hmin : cfg.CircuitBreaker.MinRequests ≥ 1) :
    (NewClient.breaker cfg now).readyToTrip = ReadyToTrip cfg.CircuitBreaker
    ∧ (ReadyToTrip cfg.CircuitBreaker counts = true ↔
        counts.Requests ≥ cfg.CircuitBreaker.MinRequests
        ∧ (counts.ConsecutiveFailures ≥ cfg.CircuitBreaker.ConsecutiveFailures
          ∨ cfg.CircuitBreaker.FailureRatio counts.TotalFailures counts.Requests = true))
    ∧ (counts.Requests < cfg.CircuitBreaker.MinRequests →
        ReadyToTrip cfg.CircuitBreaker counts = false) := by
  refine ⟨?_, ?_, ?_⟩
  · unfold NewClient.breaker gobreaker.NewCircuitBreaker
      gobreaker.CircuitBreaker.toNewGeneration NewClient.settings
    simp only
    split_ifs <;> rfl
  · unfold ReadyToTrip
    by_cases h1 : counts.Requests < cfg.CircuitBreaker.MinRequests
    · simp only [if_pos h1]
      constructor
      · intro h; cases h
      · rintro ⟨h, _⟩; omega
    · by_cases h2 : counts.ConsecutiveFailures ≥ cfg.CircuitBreaker.ConsecutiveFailures
      · simp only [if_neg h1, if_pos h2, true_iff]
        exact ⟨by omega, Or.inl h2⟩
      · have h3 : ¬ counts.Requests = 0 := by omega
        simp only [if_neg h1, if_neg h2, if_neg h3]
        constructor
        · intro h; exact ⟨by omega, Or.inr h⟩
        · rintro ⟨_, h | h⟩
          · exact absurd h h2
          · exact h
  · intro h
    unfold ReadyToTrip
    simp only [if_pos h]

/-- With the configuration of the tests (`MinRequests` 100, 50 consecutive
failures): 99 requests that all failed do not trip the breaker, 100 do. -/
theorem readyToTrip_iff_witness :
    ReadyToTrip (testConfig (str "http://upstream")).CircuitBreaker ⟨99, 0, 99, 0, 99⟩ = false
    ∧ (ReadyToTrip (testConfig (str "http://upstream")).CircuitBreaker ⟨100, 0, 100, 0, 100⟩
        = true ↔
      (100 : Nat) ≥ (testConfig (str "http://upstream")).CircuitBreaker.MinRequests
      ∧ ((100 : Nat) ≥ (testConfig (str "http://upstream")).CircuitBreaker.ConsecutiveFailures
        ∨ (testConfig (str "http://upstream")).CircuitBreaker.FailureRatio 100 100 = true)) :=
  ⟨(readyToTrip_iff (testConfig (str "http://upstream")) 0 ⟨99, 0, 99, 0, 99⟩
      (by decide)).2.2 (by decide),
    (readyToTrip_iff (testConfig (str "http://upstream")) 0 ⟨100, 0, 100, 0, 100⟩
      (by decide)).2.1⟩

/-- C18 (as stated, refuted): with `MinRequests = 1`,
`ConsecutiveFailures = 1` and `MaxRetries = 0`, a client created at the
second 1 admits a call 59.5 seconds later; the response, of status 500, is
there after the 60 seconds of the counting interval have ended, so the
breaker has started a new generation and drops the report of the failure.
The call returns the response 500 without error, the breaker stays closed,
and the call that follows at once is admitted and makes a transport
attempt. -/
theorem breaker_stays_closed_across_interval :
    tripConfig.CircuitBreaker.MinRequests = 1
    ∧ tripConfig.CircuitBreaker.ConsecutiveFailures = 1
    ∧ tripConfig.Retry.MaxRetries = 0
    ∧ ((NewClient tripConfig).GetSettings (liveWorld straddlingClock failingOnce)
        (str "1101000001") (str "token")
        ⟨NewClient.breaker tripConfig 1000000000, 0, 0⟩).err = none
    ∧ ((NewClient tripConfig).GetSettings (liveWorld straddlingClock failingOnce)
        (str "1101000001") (str "token")
        ⟨NewClient.breaker tripConfig 1000000000, 0, 0⟩).resp.StatusCode = 500
    ∧ ((NewClient tripConfig).GetSettings (liveWorld straddlingClock failingOnce)
        (str "1101000001") (str "token")
        ⟨NewClient.breaker tripConfig 1000000000, 0, 0⟩).state.breaker.state = .StateClosed
    ∧ transportResults
      ((NewClient tripConfig).GetSettings (liveWorld straddlingClock failingOnce)
        (str "1101000001") (str "token")
        ((NewClient tripConfig).GetSettings (liveWorld straddlingClock failingOnce)
          (str "1101000001") (str "token")
          ⟨NewClient.breaker tripConfig 1000000000, 0, 0⟩).state).events
      = [.ok (http.Response.ofStatus 200 [])]
    ∧ ((NewClient tripConfig).GetSettings (liveWorld straddlingClock failingOnce)
        (str "1101000001") (str "token")
        ((NewClient tripConfig).GetSettings (liveWorld straddlingClock failingOnce)
          (str "1101000001") (str "token")
          ⟨NewClient.breaker tripConfig 1000000000, 0, 0⟩).state).err = none := by
  decide

/-- A closed breaker without counts admits a request and counts it. -/
theorem beforeRequest_closed (b : gobreaker.CircuitBreaker) (t : time.Time)
    (hstate : b.state = .StateClosed) (hcounts : b.counts = ⟨0, 0, 0, 0, 0⟩) :
    (b.beforeRequest t).1 = ((b.beforeRequest t).2.generation, none)
    ∧ (b.beforeRequest t).2.state = .StateClosed
    ∧ (b.beforeRequest t).2.counts = ⟨1, 0, 0, 0, 0⟩
    ∧ (b.beforeRequest t).2.readyToTrip = b.readyToTrip
    ∧ (b.beforeRequest t).2.timeout = b.timeout := by
  unfold gobreaker.CircuitBreaker.beforeRequest gobreaker.CircuitBreaker.currentState
  simp only [hstate]
  by_cases h : b.expiry ≠ 0 ∧ b.expiry < t
  · simp only [if_pos h, gobreaker.CircuitBreaker.toNewGeneration, hstate]
    by_cases hi : b.interval = 0
    · simp [hi, gobreaker.Counts.onRequest, gobreaker.Counts.clear, wrapUint32]
    · simp [hi, gobreaker.Counts.onRequest, gobreaker.Counts.clear, wrapUint32]
  · simp only [if_neg h, hstate]
    simp [gobreaker.Counts.onRequest, hcounts, wrapUint32]

/-- The report of a failure to a closed breaker that has counted one request,
in the generation of that request and before its counting interval has
ended, opens the breaker when `MinRequests` and `ConsecutiveFailures` are
1. -/
theorem afterRequest_trips (b : gobreaker.CircuitBreaker) (t : time.Time)
    (cb : config.CircuitBreakerConfig)
    (hstate : b.state = .StateClosed) (hcounts : b.counts = ⟨1, 0, 0, 0, 0⟩)
    (hready : b.readyToTrip = ReadyToTrip cb)
    (hmin : cb.MinRequests = 1) (hcf : cb.ConsecutiveFailures = 1)
    (hint : b.expiry = 0 ∨ t ≤ b.expiry) :
    (b.afterRequest b.generation false t).state = .StateOpen
    ∧ (b.afterRequest b.generation false t).expiry = t + b.timeout := by
  have h : ¬ (b.expiry ≠ 0 ∧ b.expiry < t) := by
    rintro ⟨h1, h2⟩
    rcases hint with h | h
    · exact h1 h
    · exact absurd h2 (not_lt.2 h)
  have htrip : ReadyToTrip cb ⟨1, 0, wrapUint32 (0 + 1), 0, wrapUint32 (0 + 1)⟩ = true := by
    unfold ReadyToTrip
    simp [hmin, hcf, wrapUint32]
  unfold gobreaker.CircuitBreaker.afterRequest gobreaker.CircuitBreaker.currentState
  simp only [hstate, if_neg h, ne_eq, not_true_eq_false, if_false, Bool.false_eq_true,
    gobreaker.CircuitBreaker.onFailure, gobreaker.Counts.onFailure, hcounts, hready, htrip,
    if_true, gobreaker.CircuitBreaker.setState, hstate, reduceCtorEq,
    gobreaker.CircuitBreaker.toNewGeneration]
  exact ⟨trivial, trivial⟩

/-- An open breaker whose timeout has not elapsed refuses the request and
does not change. -/
theorem beforeRequest_open (b : gobreaker.CircuitBreaker) (t : time.Time)
    (hstate : b.state = .StateOpen) (hexp : t ≤ b.expiry) :
    b.beforeRequest t = ((b.generation, some .ErrOpenState), b) := by
  have h : ¬ b.expiry < t := not_lt.2 hexp
  unfold gobreaker.CircuitBreaker.beforeRequest gobreaker.CircuitBreaker.currentState
  simp only [hstate, if_neg h, if_true]

theorem newBreaker_fresh (cfg : config.GreenAPIConfig) (now : time.Time) :
    (NewClient.breaker cfg now).state = .StateClosed
    ∧ (NewClient.breaker cfg now).counts = ⟨0, 0, 0, 0, 0⟩
    ∧ (NewClient.breaker cfg now).readyToTrip = ReadyToTrip cfg.CircuitBreaker := by
  unfold NewClient.breaker gobreaker.NewCircuitBreaker
    gobreaker.CircuitBreaker.toNewGeneration NewClient.settings
  simp only
  split_ifs <;> exact ⟨rfl, rfl, rfl⟩

/-- With its own breaker as surroundings and a valid upstream URL, `do` is
the loop. -/
theorem do_live (c : Client) (clock : Nat → time.Time)
    (server : Nat → Except Err http.Response) (method path : GoString)
    (payload : Payload) (st : Live)
    (hurl : ∃ u, url.ParseRequestURI (c.baseURL ++ path) = .ok u) :
    ∃ bodyBytes, c.do (liveWorld clock server) method path payload st
      = c.attempts (liveWorld clock server) method (c.baseURL ++ path) bodyBytes
          (wrapInt (c.retry.MaxRetries + 1)) (wrapInt (c.retry.MaxRetries + 1)).toNat 1 st := by
  obtain ⟨u, hu⟩ := hurl
  unfold Client.do
  simp only [hu]
  cases payload with
  | none => exact ⟨[], rfl⟩
  | some entries => exact ⟨[], rfl⟩

/-- One attempt that the breaker admits and the server answers. -/
theorem executeOnce_live_admitted (c : Client) (clock : Nat → time.Time)
    (server : Nat → Except Err http.Response) (method fullURL : GoString) (body : List Nat)
    (st : Live) (g : Nat) (b1 : gobreaker.CircuitBreaker) (resp : http.Response)
    (hb : st.breaker.beforeRequest (clock st.tick) = ((g, none), b1))
    (hserver : server st.sent = .ok resp) :
    c.executeOnce (liveWorld clock server) method fullURL body st
      = (.ok resp,
        ⟨b1.afterRequest g (decide (resp.StatusCode < http.StatusInternalServerError))
          (clock (st.tick + 1)), st.tick + 1 + 1, st.sent + 1⟩,
        [.allow none, .transport ⟨method, fullURL, body, jsonHeader⟩ (.ok resp),
          .done (decide (resp.StatusCode < http.StatusInternalServerError))]) := by
  unfold Client.executeOnce liveWorld
  simp only [hb, hserver]
  rfl

/-- One attempt that the breaker refuses. -/
theorem executeOnce_live_rejected (c : Client) (clock : Nat → time.Time)
    (server : Nat → Except Err http.Response) (method fullURL : GoString) (body : List Nat)
    (st : Live) (g : Nat) (e : Sentinel) (b1 : gobreaker.CircuitBreaker)
    (hb : st.breaker.beforeRequest (clock st.tick) = ((g, some e), b1)) :
    c.executeOnce (liveWorld clock server) method fullURL body st
      = (.error (.sentinel e), ⟨b1, st.tick + 1, st.sent⟩, [.allow (some (.sentinel e))]) := by
  unfold Client.executeOnce liveWorld
  simp only [hb]

/-- C18 (amended): with `MinRequests = 1`, `ConsecutiveFailures = 1` and
`MaxRetries = 0`, the first call on a client whose upstream response has a
status of 500 or more returns that response without error, and, provided
the counting interval that was running when that call was admitted had not
ended when its response arrived, every call that follows on the same client
while the open timeout has not elapsed is refused with an error that matches
`ErrCircuitBreakerOpen`, without a transport attempt, and leaves the breaker
as it is. -/
theorem breaker_open_after_failure (cfg : config.GreenAPIConfig) (created : time.Time)
    (clock : Nat → time.Time) (server : Nat → Except Err http.Response)
    (resp : http.Response) (method path : GoString) (payload : Payload)
    (hmin : cfg.CircuitBreaker.MinRequests = 1)
    (hcf : cfg.CircuitBreaker.ConsecutiveFailures = 1)
    (hretry : cfg.Retry.MaxRetries = 0)
    (hurl : ∃ u, url.ParseRequestURI ((NewClient cfg).baseURL ++ path) = .ok u)
    (hserver : server 0 = .ok resp) (hresp : resp.IsServerError)
    (hint : intervalEnd cfg created (clock 0) = 0
      ∨ clock 1 ≤ intervalEnd cfg created (clock 0)) :
    (((NewClient cfg).do (liveWorld clock server) method path payload
        (freshState cfg created)).err = none
      ∧ ((NewClient cfg).do (liveWorld clock server) method path payload
        (freshState cfg created)).resp = (readResponse resp).1
      ∧ transportResults ((NewClient cfg).do (liveWorld clock server) method path payload
        (freshState cfg created)).events = [.ok resp])
    ∧ ∀ (st2 : Live) (method2 path2 : GoString) (payload2 : Payload),
      st2.breaker = ((NewClient cfg).do (liveWorld clock server) method path payload
        (freshState cfg created)).state.breaker →
      (∃ u, url.ParseRequestURI ((NewClient cfg).baseURL ++ path2) = .ok u) →
      clock st2.tick ≤ clock 1 + (NewClient.breaker cfg created).timeout →
      ((NewClient cfg).do (liveWorld clock server) method2 path2 payload2 st2).resp
        = Response.zero
      ∧ (∃ e, ((NewClient cfg).do (liveWorld clock server) method2 path2 payload2 st2).err
          = some e ∧ e.Is .ErrCircuitBreakerOpen = true)
      ∧ transportResults
        ((NewClient cfg).do (liveWorld clock server) method2 path2 payload2 st2).events = []
      ∧ ((NewClient cfg).do (liveWorld clock server) method2 path2 payload2 st2).state.breaker
        = st2.breaker := by
  have hmaxAttempts : wrapInt ((NewClient cfg).retry.MaxRetries + 1) = 1 := by
    have : (NewClient cfg).retry.MaxRetries = 0 := hretry
    rw [this]
    decide
  obtain ⟨hstate0, hcounts0, hready0⟩ := newBreaker_fresh cfg created
  -- the admission of the first call
  rcases hb : (NewClient.breaker cfg created).beforeRequest (clock 0) with ⟨⟨g, e⟩, b1⟩
  obtain ⟨h1, hstate1, hcounts1, hready1, htimeout1⟩ :=
    beforeRequest_closed (NewClient.breaker cfg created) (clock 0) hstate0 hcounts0
  rw [hb] at h1 hstate1 hcounts1 hready1 htimeout1
  simp only [Prod.mk.injEq] at h1
  obtain ⟨hg, he⟩ := h1
  subst hg he
  have hexp1 : b1.expiry = intervalEnd cfg created (clock 0) := by
    unfold intervalEnd
    rw [hb]
  -- the report of the failure
  have hnot : decide (resp.StatusCode < http.StatusInternalServerError) = false := by
    have := hresp.1
    simp only [decide_eq_false_iff_not, not_lt]
    exact this
  obtain ⟨hstate2, hexp2⟩ := afterRequest_trips b1 (clock 1) cfg.CircuitBreaker hstate1
    hcounts1 (hready1.trans hready0) hmin hcf (by rw [hexp1]; exact hint)
  -- the first call
  obtain ⟨bodyBytes, hdo⟩ := do_live (NewClient cfg) clock server method path payload
    (freshState cfg created) hurl
  have hx := executeOnce_live_admitted (NewClient cfg) clock server method
    ((NewClient cfg).baseURL ++ path) bodyBytes (freshState cfg created) b1.generation b1 resp
    hb hserver
  obtain ⟨bytes, hbytes⟩ := hresp.2
  have hrun1 := attempts_stop_resp (NewClient cfg) (liveWorld clock server) method
    ((NewClient cfg).baseURL ++ path) bodyBytes 1 0 1 (freshState cfg created) _ resp bytes _
    hx (le_refl _) hbytes (by rintro ⟨_, h⟩; exact absurd h (lt_irrefl _))
  rw [hmaxAttempts] at hdo
  have hfuel : (1 : Int).toNat = 0 + 1 := rfl
  rw [hfuel] at hdo
  rw [hdo, hrun1]
  refine ⟨⟨rfl, rfl, by simp [transportResults]⟩, ?_⟩
  -- the calls that follow
  intro st2 method2 path2 payload2 hbreaker hurl2 hnow
  simp only [hnot] at hbreaker
  have hopen : st2.breaker.state = .StateOpen := by
    rw [hbreaker]; exact hstate2
  have hexp : clock st2.tick ≤ st2.breaker.expiry := by
    rw [hbreaker]
    show clock st2.tick ≤ (b1.afterRequest b1.generation false (clock 1)).expiry
    rw [hexp2, htimeout1]
    exact hnow
  have hrej := beforeRequest_open st2.breaker (clock st2.tick) hopen hexp
  obtain ⟨bodyBytes2, hdo2⟩ := do_live (NewClient cfg) clock server method2 path2 payload2
    st2 hurl2
  have hx2 := executeOnce_live_rejected (NewClient cfg) clock server method2
    ((NewClient cfg).baseURL ++ path2) bodyBytes2 st2 _ _ _ hrej
  have hrun2 := attempts_stop_err (NewClient cfg) (liveWorld clock server) method2
    ((NewClient cfg).baseURL ++ path2) bodyBytes2 1 0 1 st2 _ _ _ hx2 (le_refl _)
    (by rintro ⟨h, _⟩; exact absurd h (lt_irrefl _))
  rw [hmaxAttempts, hfuel] at hdo2
  rw [hdo2, hrun2]
  have hcond : (Err.sentinel Sentinel.ErrOpenState).Is .ErrOpenState = true
      ∨ (Err.sentinel Sentinel.ErrOpenState).Is .ErrTooManyRequests = true := Or.inl rfl
  rw [if_pos hcond]
  exact ⟨rfl, ⟨_, rfl, rfl⟩, by simp [transportResults], rfl⟩

/-- The test `TestClient_CircuitBreakerOpenAfterFailure` with a clock that
reads one second later at each reading: the first call returns the response
500, and the second call, made three seconds after the client was created,
is refused. -/
theorem breaker_open_after_failure_witness :
    ((NewClient tripConfig).do (liveWorld (fun n => 1000000000 * (n + 2)) failingOnce)
        (str "GET") (str "/waInstance1101000001/getSettings/token") none
        (freshState tripConfig 1000000000)).err = none
    ∧ ((NewClient tripConfig).do (liveWorld (fun n => 1000000000 * (n + 2)) failingOnce)
        (str "GET") (str "/waInstance1101000001/getSettings/token") none
        ⟨((NewClient tripConfig).do (liveWorld (fun n => 1000000000 * (n + 2)) failingOnce)
          (str "GET") (str "/waInstance1101000001/getSettings/token") none
          (freshState tripConfig 1000000000)).state.breaker, 2, 1⟩).resp = Response.zero
    ∧ transportResults
      ((NewClient tripConfig).do (liveWorld (fun n => 1000000000 * (n + 2)) failingOnce)
        (str "GET") (str "/waInstance1101000001/getSettings/token") none
        ⟨((NewClient tripConfig).do (liveWorld (fun n => 1000000000 * (n + 2)) failingOnce)
          (str "GET") (str "/waInstance1101000001/getSettings/token") none
          (freshState tripConfig 1000000000)).state.breaker, 2, 1⟩).events = [] :=
  ⟨(breaker_open_after_failure tripConfig 1000000000 (fun n => 1000000000 * (n + 2))
      failingOnce (http.Response.ofStatus 500 []) (str "GET")
      (str "/waInstance1101000001/getSettings/token") none rfl rfl rfl
      ⟨upstreamURL (str "/waInstance1101000001/getSettings/token"), by decide⟩ rfl
      (by decide) (Or.inr (by decide))).1.1,
    ((breaker_open_after_failure tripConfig 1000000000 (fun n => 1000000000 * (n + 2))
      failingOnce (http.Response.ofStatus 500 []) (str "GET")
      (str "/waInstance1101000001/getSettings/token") none rfl rfl rfl
      ⟨upstreamURL (str "/waInstance1101000001/getSettings/token"), by decide⟩ rfl
      (by decide) (Or.inr (by decide))).2
      ⟨((NewClient tripConfig).do (liveWorld (fun n => 1000000000 * (n + 2)) failingOnce)
        (str "GET") (str "/waInstance1101000001/getSettings/token") none
        (freshState tripConfig 1000000000)).state.breaker, 2, 1⟩
      (str "GET") (str "/waInstance1101000001/getSettings/token") none rfl
      ⟨upstreamURL (str "/waInstance1101000001/getSettings/token"), by decide⟩
      (by decide)).1,
    ((breaker_open_after_failure tripConfig 1000000000 (fun n => 1000000000 * (n + 2))
      failingOnce (http.Response.ofStatus 500 []) (str "GET")
      (str "/waInstance1101000001/getSettings/token") none rfl rfl rfl
      ⟨upstreamURL (str "/waInstance1101000001/getSettings/token"), by decide⟩ rfl
      (by decide) (Or.inr (by decide))).2
      ⟨((NewClient tripConfig).do (liveWorld (fun n => 1000000000 * (n + 2)) failingOnce)
        (str "GET") (str "/waInstance1101000001/getSettings/token") none
        (freshState tripConfig 1000000000)).state.breaker, 2, 1⟩
      (str "GET") (str "/waInstance1101000001/getSettings/token") none rfl
      ⟨upstreamURL (str "/waInstance1101000001/getSettings/token"), by decide⟩
      (by decide)).2.2.1⟩

/-! ## Cancellation during the wait -/

/-- C17 (the code at the failing input): with two retries allowed, the first
attempt is answered with the status 500 and the caller cancels the context
during the wait that follows. The wait ends, and the loop goes on with the
second attempt: the breaker is asked again and admits, `httpClient.Do` is
called again and fails with `context.Canceled`, and a failure is reported to
the breaker. Only then does the call end, with an error. -/
theorem cancelled_wait_still_attempts :
    ((NewClient (testConfig (str "http://upstream"))).do cancelWorld (str "GET")
        (str "/waInstance123/getSettings/token") none ⟨false, 0⟩).events
      = [.allow none,
          .transport
            ⟨str "GET", str "http://upstream/waInstance123/getSettings/token", [], jsonHeader⟩
            (.ok (http.Response.ofStatus 500 [])),
          .done false,
          .sleep 1000000000,
          .allow none,
          .transport
            ⟨str "GET", str "http://upstream/waInstance123/getSettings/token", [], jsonHeader⟩
            (.error (.urlError "Get" (str "http://upstream/waInstance123/getSettings/token")
              (.sentinel .Canceled))),
          .done false]
    ∧ ((NewClient (testConfig (str "http://upstream"))).do cancelWorld (str "GET")
        (str "/waInstance123/getSettings/token") none ⟨false, 0⟩).state = ⟨true, 1⟩
    ∧ ((NewClient (testConfig (str "http://upstream"))).do cancelWorld (str "GET")
        (str "/waInstance123/getSettings/token") none ⟨false, 0⟩).err
      = some (.UpstreamError "green-api request failed"
          (.urlError "Get" (str "http://upstream/waInstance123/getSettings/token")
            (.sentinel .Canceled))) := by
  decide

/-! ## The errors that are retried -/

/-- What `errors.As` finds for `net.Error` is the first error of the chain
that has the method. -/
theorem asNetError_eq (err : Err) :
    err.AsNetError = (err.chain.filterMap Err.TimeoutMethod).head? := by
  induction err with
  | sentinel s => cases s <;> rfl
  | errorString text => rfl
  | wrapError format err ih => simpa [Err.AsNetError, Err.chain, Err.TimeoutMethod] using ih
  | wrapErrorV format err v ih _ =>
    simpa [Err.AsNetError, Err.chain, Err.TimeoutMethod] using ih
  | UpstreamError message cause ih =>
    simpa [Err.AsNetError, Err.chain, Err.TimeoutMethod] using ih
  | UpstreamErrorBare message => rfl
  | parse e => rfl
  | urlError op u err ih =>
    cases h : Err.TimeoutMethod (.urlError op u err) with
    | none =>
      simp only [Err.TimeoutMethod] at h
      cases h2 : err.TimeoutMethod <;> simp [h2] at h
    | some t => simp [Err.AsNetError, Err.chain, h]
  | foreign text timeout is => cases timeout <;> rfl
  | foreignWrap text timeout is inner ih =>
    cases timeout with
    | none => simpa [Err.AsNetError, Err.chain, Err.TimeoutMethod] using ih
    | some t => simp [Err.AsNetError, Err.chain, Err.TimeoutMethod]

/-- A `*url.Error` is a `net.Error`: when `errors.As` finds no `net.Error`, it
finds no `*url.Error` either. -/
theorem asURLError_none (err : Err) (h : err.AsNetError = none) : err.AsURLError = none := by
  induction err with
  | sentinel s => rfl
  | errorString text => rfl
  | wrapError format err ih => exact ih h
  | wrapErrorV format err v ih _ => exact ih h
  | UpstreamError message cause ih => exact ih h
  | UpstreamErrorBare message => rfl
  | parse e => rfl
  | urlError op u err ih =>
    simp only [Err.AsNetError, Err.TimeoutMethod] at h
    cases h2 : err.TimeoutMethod <;> simp [h2] at h
  | foreign text timeout is => rfl
  | foreignWrap text timeout is inner ih =>
    cases timeout with
    | none => exact ih h
    | some t => simp [Err.AsNetError] at h

/-- The function `shouldRetryError` without its last test, which never
decides. -/
theorem shouldRetryError_eq (err : Err) :
    shouldRetryError err =
      if err.Is .Canceled then false
      else if err.Is .DeadlineExceeded then true
      else decide (err.AsNetError = some true) := by
  unfold shouldRetryError
  cases hn : err.AsNetError with
  | none => simp [asURLError_none err hn]
  | some t => cases t <;> simp

/-- An error whose first `net.Error` answers true to `Timeout()` wraps a
`net.Error` that does. -/
theorem firstNetError_wraps (err : Err) (h : err.FirstNetErrorTimesOut) : err.WrapsTimeout := by
  unfold Err.FirstNetErrorTimesOut at h
  have hmem : true ∈ err.chain.filterMap Err.TimeoutMethod :=
    List.mem_of_mem_head? (by rw [h]; exact rfl)
  obtain ⟨e, he, ht⟩ := List.mem_filterMap.1 hmem
  exact ⟨e, he, ht⟩

/-- C22 (the code at the failing input): the `*url.Error` `hiddenTimeout`
does not match `context.Canceled` and wraps a `net.Error` whose `Timeout()`
is true, and `shouldRetryError` is false for it. The first `errors.As` stops
at the `*url.Error`, whose `Timeout()` asks the error it holds directly, a
value of `fmt.Errorf` without that method; the block written for a
`net.Error` inside a `*url.Error` is not reached, and would find the same
`*url.Error` again. With two retries allowed, a call whose first attempt
fails with this error and whose second attempt would be answered with the
status 200 ends after one transport attempt, with the error
`"green-api request failed"`. -/
theorem shouldRetryError_hidden_timeout :
    hiddenTimeout.Is .Canceled = false
    ∧ hiddenTimeout.WrapsTimeout
    ∧ shouldRetryError hiddenTimeout = false
    ∧ hiddenTimeout.AsNetError = some false
    ∧ hiddenTimeout.AsURLError = some hiddenTimeout
    ∧ transportResults
      ((NewClient (testConfig (str "http://upstream"))).GetSettings (scriptWorld [])
        (str "1") (str "t")
        [.answered (.error hiddenTimeout),
          .answered (.ok (http.Response.ofStatus 200 []))]).events
      = [.error hiddenTimeout]
    ∧ ((NewClient (testConfig (str "http://upstream"))).GetSettings (scriptWorld [])
        (str "1") (str "t")
        [.answered (.error hiddenTimeout),
          .answered (.ok (http.Response.ofStatus 200 []))]).err
      = some (.UpstreamError "green-api request failed" hiddenTimeout) := by
  decide

/-- What `shouldRetryError` computes: for every error `err`,
`shouldRetryError err` is true if
and only if `err` does not match `context.Canceled` and either matches
`context.DeadlineExceeded` or the first error of its chain that implements
`net.Error` answers true to `Timeout()`; when it is true, `err` is or wraps a
`net.Error` whose `Timeout()` is true or matches `context.DeadlineExceeded`.
In particular it is false for every error that matches `context.Canceled`,
and for every error that does not match `context.DeadlineExceeded` and whose
first `net.Error` answers false. When it is false for the error of an attempt
of the loop, the loop returns at that attempt, with the events and the state
of that attempt: the error returned is the breaker-open error when `err`
matches `gobreaker.ErrOpenState` or `gobreaker.ErrTooManyRequests`, and
otherwise the error `"green-api request failed"` with the cause `err`. -/
theorem shouldRetryError_iff (err : Err) :
    (shouldRetryError err = true ↔
      err.Is .Canceled = false
        ∧ (err.Is .DeadlineExceeded = true ∨ err.FirstNetErrorTimesOut))
    ∧ (shouldRetryError err = true →
      err.Is .Canceled = false ∧ (err.Is .DeadlineExceeded = true ∨ err.WrapsTimeout))
    ∧ (err.Is .Canceled = true → shouldRetryError err = false)
    ∧ (err.Is .DeadlineExceeded = false → err.FirstNetErrorIsNoTimeout →
      shouldRetryError err = false)
    ∧ (shouldRetryError err = false →
      ∀ (σ : Type) (c : Client) (w : World σ) (method fullURL : GoString) (body : List Nat)
        (maxAttempts : Int) (fuel : Nat) (attempt : Int) (st st1 : σ) (evs : List Event),
        c.executeOnce w method fullURL body st = (.error err, st1, evs) →
        attempt ≤ maxAttempts →
        (c.attempts w method fullURL body maxAttempts (fuel + 1) attempt st).resp
            = Response.zero
        ∧ (c.attempts w method fullURL body maxAttempts (fuel + 1) attempt st).events = evs
        ∧ (c.attempts w method fullURL body maxAttempts (fuel + 1) attempt st).state = st1
        ∧ (¬ (err.Is .ErrOpenState = true ∨ err.Is .ErrTooManyRequests = true) →
          (c.attempts w method fullURL body maxAttempts (fuel + 1) attempt st).err
            = some (.UpstreamError "green-api request failed" err))
        ∧ (err.Is .ErrOpenState = true ∨ err.Is .ErrTooManyRequests = true →
          (c.attempts w method fullURL body maxAttempts (fuel + 1) attempt st).err
            = some (.UpstreamError "green-api circuit breaker is open"
                (.wrapErrorV "%w: %v" (.sentinel .ErrCircuitBreakerOpen) err)))) := by
  have hiff : shouldRetryError err = true ↔
      err.Is .Canceled = false
        ∧ (err.Is .DeadlineExceeded = true ∨ err.FirstNetErrorTimesOut) := by
    rw [shouldRetryError_eq]
    unfold Err.FirstNetErrorTimesOut
    rw [← asNetError_eq]
    cases hc : err.Is .Canceled <;> cases hd : err.Is .DeadlineExceeded <;> simp
  refine ⟨hiff, ?_, ?_, ?_, ?_⟩
  · intro h
    obtain ⟨h1, h2⟩ := hiff.1 h
    refine ⟨h1, ?_⟩
    rcases h2 with h2 | h2
    · exact Or.inl h2
    · exact Or.inr (firstNetError_wraps err h2)
  · intro hc
    rw [shouldRetryError_eq, hc]
    rfl
  · intro hd hn
    unfold Err.FirstNetErrorIsNoTimeout at hn
    rw [← asNetError_eq] at hn
    rw [shouldRetryError_eq, hd, hn]
    cases err.Is .Canceled <;> simp
  · intro hf σ c w method fullURL body maxAttempts fuel attempt st st1 evs hx hle
    have hstop : ¬ (attempt < maxAttempts ∧ shouldRetryError err = true) := by
      rw [hf]
      simp
    have h := attempts_stop_err c w method fullURL body maxAttempts fuel attempt st st1 err evs
      hx hle hstop
    by_cases hb : err.Is .ErrOpenState = true ∨ err.Is .ErrTooManyRequests = true
    · rw [if_pos hb] at h
      rw [h]
      exact ⟨rfl, rfl, rfl, fun hnb => absurd hb hnb, fun _ => rfl⟩
    · rw [if_neg hb] at h
      rw [h]
      exact ⟨rfl, rfl, rfl, fun _ => rfl, fun hb2 => absurd hb2 hb⟩

/-- The errors of the transport in three cases: the timeout of the HTTP
client is retried; a cancelled context is not; a refused connection is not,
and when it is met on the first of three attempts the loop returns it as the
cause of `"green-api request failed"`, after the events of that attempt and
without asking for the answer that the script holds next. -/
theorem shouldRetryError_iff_witness :
    shouldRetryError clientTimeout = true
    ∧ shouldRetryError (.urlError "Get" (str "http://upstream/x") (.sentinel .Canceled)) = false
    ∧ shouldRetryError connectionRefused = false
    ∧ ((NewClient (testConfig (str "http://upstream"))).attempts (scriptWorld []) (str "GET")
        (str "http://upstream/waInstance1/getSettings/t") [] 3 (2 + 1) 1
        [.answered (.error connectionRefused),
          .answered (.ok (http.Response.ofStatus 200 []))]).events
      = [.allow none,
          .transport
            ⟨str "GET", str "http://upstream/waInstance1/getSettings/t", [], jsonHeader⟩
            (.error connectionRefused),
          .done false]
    ∧ ((NewClient (testConfig (str "http://upstream"))).attempts (scriptWorld []) (str "GET")
        (str "http://upstream/waInstance1/getSettings/t") [] 3 (2 + 1) 1
        [.answered (.error connectionRefused),
          .answered (.ok (http.Response.ofStatus 200 []))]).err
      = some (.UpstreamError "green-api request failed" connectionRefused) :=
  ⟨(shouldRetryError_iff clientTimeout).1.2 ⟨by decide, Or.inr (by decide)⟩,
    (shouldRetryError_iff (.urlError "Get" (str "http://upstream/x") (.sentinel .Canceled))).2.2.1
      (by decide),
    (shouldRetryError_iff connectionRefused).2.2.2.1 (by decide) (by decide),
    ((shouldRetryError_iff connectionRefused).2.2.2.2 (by decide) (List Step)
      (NewClient (testConfig (str "http://upstream"))) (scriptWorld []) (str "GET")
      (str "http://upstream/waInstance1/getSettings/t") [] 3 2 1
      [.answered (.error connectionRefused), .answered (.ok (http.Response.ofStatus 200 []))]
      [.answered (.ok (http.Response.ofStatus 200 []))]
      [.allow none,
        .transport
          ⟨str "GET", str "http://upstream/waInstance1/getSettings/t", [], jsonHeader⟩
          (.error connectionRefused),
        .done false]
      rfl (by decide)).2.1,
    ((shouldRetryError_iff connectionRefused).2.2.2.2 (by decide) (List Step)
      (NewClient (testConfig (str "http://upstream"))) (scriptWorld []) (str "GET")
      (str "http://upstream/waInstance1/getSettings/t") [] 3 2 1
      [.answered (.error connectionRefused), .answered (.ok (http.Response.ofStatus 200 []))]
      [.answered (.ok (http.Response.ofStatus 200 []))]
      [.allow none,
        .transport
          ⟨str "GET", str "http://upstream/waInstance1/getSettings/t", [], jsonHeader⟩
          (.error connectionRefused),
        .done false]
      rfl (by decide)).2.2.2.1 (by decide)⟩

/-! ## The end of the attempt loop -/

theorem admissions_append (a b : List Event) :
    admissions (a ++ b) = admissions a + admissions b := by
  induction a with
  | nil => simp [admissions]
  | cons e t ih => cases e <;> simp [admissions, ih]; omega

/-- One attempt asks the breaker at most once and makes at most one round
trip. -/
theorem executeOnce_counts {σ : Type} (c : Client) (w : World σ) (method fullURL : GoString)
    (body : List Nat) (st st1 : σ) (res : Except Err http.Response) (evs : List Event)
    (hx : c.executeOnce w method fullURL body st = (res, st1, evs)) :
    admissions evs ≤ 1 ∧ (transportResults evs).length ≤ 1 := by
  rcases executeOnce_events c w method fullURL body st st1 res evs hx with
    ⟨h, _⟩ | ⟨e, _, h⟩ | ⟨b, h⟩ <;> rw [h] <;> simp [admissions, transportResults]

theorem wait_counts {σ : Type} (c : Client) (w : World σ) (delay : time.Duration) (st : σ) :
    admissions (c.wait w delay st).2 = 0 ∧ transportResults (c.wait w delay st).2 = [] := by
  rcases wait_events c w delay st with h | h <;> rw [h] <;> simp [admissions, transportResults]

/-- One iteration of the loop, for an attempt within the bound: whatever the
fuel, either the loop returns from the iteration, with an error that is not
the fallback and the events of the attempt, or attempts remain and the loop
goes on with the next attempt after the events of the attempt and of the
wait. -/
theorem attempts_step {σ : Type} (c : Client) (w : World σ) (method fullURL : GoString)
    (body : List Nat) (maxAttempts : Int) (attempt : Int) (st : σ)
    (hle : attempt ≤ maxAttempts) :
    ∃ evs : List Event, admissions evs ≤ 1 ∧ (transportResults evs).length ≤ 1
      ∧ ((∃ r : Run σ,
            r.err ≠ some (.UpstreamErrorBare "green-api request failed after retries")
            ∧ r.events = evs
            ∧ ∀ fuel, c.attempts w method fullURL body maxAttempts (fuel + 1) attempt st = r)
        ∨ (attempt < maxAttempts
          ∧ ∃ (st2 : σ) (wevs : List Event), admissions wevs = 0 ∧ transportResults wevs = []
            ∧ ∀ fuel, c.attempts w method fullURL body maxAttempts (fuel + 1) attempt st
              = { c.attempts w method fullURL body maxAttempts fuel (attempt + 1) st2 with
                  events := evs ++ wevs
                    ++ (c.attempts w method fullURL body maxAttempts fuel (attempt + 1)
                        st2).events })) := by
  rcases hx : c.executeOnce w method fullURL body st with ⟨res, st1, evs⟩
  obtain ⟨hadm, htr⟩ := executeOnce_counts c w method fullURL body st st1 res evs hx
  refine ⟨evs, hadm, htr, ?_⟩
  cases res with
  | error err =>
    by_cases hr : attempt < maxAttempts ∧ shouldRetryError err = true
    · right
      refine ⟨hr.1, (c.wait w c.retry.Delay st1).1, (c.wait w c.retry.Delay st1).2,
        (wait_counts c w _ st1).1, (wait_counts c w _ st1).2, ?_⟩
      intro fuel
      exact attempts_retry_err c w method fullURL body maxAttempts fuel attempt st st1 err evs
        hx hr.1 hr.2
    · left
      by_cases hb : err.Is .ErrOpenState = true ∨ err.Is .ErrTooManyRequests = true
      · refine ⟨⟨Response.zero,
          some (.UpstreamError "green-api circuit breaker is open"
            (.wrapErrorV "%w: %v" (.sentinel .ErrCircuitBreakerOpen) err)), st1, evs⟩,
          by simp, rfl, fun fuel => ?_⟩
        rw [attempts_stop_err c w method fullURL body maxAttempts fuel attempt st st1 err evs
          hx hle hr, if_pos hb]
      · refine ⟨⟨Response.zero, some (.UpstreamError "green-api request failed" err), st1,
          evs⟩, by simp, rfl, fun fuel => ?_⟩
        rw [attempts_stop_err c w method fullURL body maxAttempts fuel attempt st st1 err evs
          hx hle hr, if_neg hb]
  | ok resp =>
    cases hbody : resp.Body with
    | error readErr =>
      left
      refine ⟨⟨Response.zero, some (.UpstreamError "read green-api response" readErr), st1,
        evs⟩, by simp, rfl, fun fuel => ?_⟩
      rw [attempts_stop_read c w method fullURL body maxAttempts fuel attempt st st1 resp
        readErr evs hx hle hbody]
    | ok bytes =>
      by_cases hr : resp.StatusCode ≥ 500 ∧ attempt < maxAttempts
      · right
        refine ⟨hr.2, (c.wait w c.retry.Delay st1).1, (c.wait w c.retry.Delay st1).2,
          (wait_counts c w _ st1).1, (wait_counts c w _ st1).2, ?_⟩
        intro fuel
        exact attempts_retry_5xx c w method fullURL body maxAttempts fuel attempt st st1 resp
          bytes evs hx hr.2 hbody hr.1
      · left
        refine ⟨⟨(readResponse resp).1, none, st1, evs⟩, by simp, rfl, fun fuel => ?_⟩
        rw [attempts_stop_resp c w method fullURL body maxAttempts fuel attempt st st1 resp
          bytes evs hx hle hbody hr]

/-- With fuel for the attempts that remain, the loop returns from inside: the
error is not the fallback. -/
theorem attempts_no_fallback {σ : Type} (c : Client) (w : World σ) (method fullURL : GoString)
    (body : List Nat) (maxAttempts : Int) :
    ∀ (fuel : Nat) (attempt : Int) (st : σ), attempt ≤ maxAttempts →
      maxAttempts - attempt + 1 ≤ fuel →
      (c.attempts w method fullURL body maxAttempts fuel attempt st).err
        ≠ some (.UpstreamErrorBare "green-api request failed after retries") := by
  intro fuel
  induction fuel with
  | zero =>
    intro attempt st hle hfuel
    simp only [Nat.cast_zero] at hfuel
    omega
  | succ n ih =>
    intro attempt st hle hfuel
    obtain ⟨evs, _, _, h | h⟩ := attempts_step c w method fullURL body maxAttempts attempt st hle
    · obtain ⟨r, hr, _, heq⟩ := h
      rw [heq n]
      exact hr
    · obtain ⟨hlt, st2, wevs, _, _, heq⟩ := h
      rw [heq n]
      simp only [Nat.cast_add, Nat.cast_one] at hfuel
      exact ih (attempt + 1) st2 (by omega) (by omega)

/-- The loop does not depend on the fuel, once there is fuel for the attempts
that remain. -/
theorem attempts_fuel {σ : Type} (c : Client) (w : World σ) (method fullURL : GoString)
    (body : List Nat) (maxAttempts : Int) :
    ∀ (fuel1 fuel2 : Nat) (attempt : Int) (st : σ),
      maxAttempts - attempt + 1 ≤ fuel1 → maxAttempts - attempt + 1 ≤ fuel2 →
      c.attempts w method fullURL body maxAttempts fuel1 attempt st
        = c.attempts w method fullURL body maxAttempts fuel2 attempt st := by
  intro fuel1
  induction fuel1 with
  | zero =>
    intro fuel2 attempt st h1 h2
    simp only [Nat.cast_zero] at h1
    rw [attempts_exit c w method fullURL body maxAttempts 0 attempt st (Or.inl rfl),
      attempts_exit c w method fullURL body maxAttempts fuel2 attempt st (Or.inr (by omega))]
  | succ n ih =>
    intro fuel2 attempt st h1 h2
    by_cases hle : attempt ≤ maxAttempts
    · obtain ⟨m, rfl⟩ : ∃ m, fuel2 = m + 1 := ⟨fuel2 - 1, by omega⟩
      simp only [Nat.cast_add, Nat.cast_one] at h1 h2
      obtain ⟨evs, _, _, h | h⟩ :=
        attempts_step c w method fullURL body maxAttempts attempt st hle
      · obtain ⟨r, _, _, heq⟩ := h
        rw [heq n, heq m]
      · obtain ⟨hlt, st2, wevs, _, _, heq⟩ := h
        rw [heq n, heq m, ih m (attempt + 1) st2 (by omega) (by omega)]
    · rw [attempts_exit c w method fullURL body maxAttempts (n + 1) attempt st (Or.inr hle),
        attempts_exit c w method fullURL body maxAttempts fuel2 attempt st (Or.inr hle)]

/-- The loop asks the breaker, and makes a round trip, at most once for each
attempt that remains. -/
theorem attempts_bound {σ : Type} (c : Client) (w : World σ) (method fullURL : GoString)
    (body : List Nat) (maxAttempts : Int) :
    ∀ (fuel : Nat) (attempt : Int) (st : σ), attempt ≤ maxAttempts + 1 →
      (admissions (c.attempts w method fullURL body maxAttempts fuel attempt st).events : Int)
          ≤ maxAttempts - attempt + 1
      ∧ ((transportResults
            (c.attempts w method fullURL body maxAttempts fuel attempt st).events).length : Int)
          ≤ maxAttempts - attempt + 1 := by
  intro fuel
  induction fuel with
  | zero =>
    intro attempt st hle
    rw [attempts_exit c w method fullURL body maxAttempts 0 attempt st (Or.inl rfl)]
    simp only [admissions, transportResults, List.length_nil, Nat.cast_zero]
    omega
  | succ n ih =>
    intro attempt st hle1
    by_cases hle : attempt ≤ maxAttempts
    · obtain ⟨evs, hadm, htr, h | h⟩ :=
        attempts_step c w method fullURL body maxAttempts attempt st hle
      · obtain ⟨r, _, hev, heq⟩ := h
        rw [heq n, hev]
        omega
      · obtain ⟨hlt, st2, wevs, hw1, hw2, heq⟩ := h
        obtain ⟨h1, h2⟩ := ih (attempt + 1) st2 (by omega)
        rw [heq n]
        simp only [admissions_append, transportResults_append, hw1, hw2, List.length_append,
          List.length_nil, Nat.cast_add, Nat.cast_zero]
        omega
    · rw [attempts_exit c w method fullURL body maxAttempts (n + 1) attempt st (Or.inr hle)]
      simp only [admissions, transportResults, List.length_nil, Nat.cast_zero]
      omega

/-- The ways `do` goes, with what it returns before the loop: the error
`"invalid upstream url"`, the error of the encoding of the payload, or the
loop. -/
theorem do_early_or_loop {σ : Type} (c : Client) (w : World σ) (method path : GoString)
    (payload : Payload) (st : σ) :
    (∃ e, url.ParseRequestURI (c.baseURL ++ path) = .error e
      ∧ c.do w method path payload st
        = ⟨Response.zero,
            some (.UpstreamError "invalid upstream url"
              (.urlError "parse" (c.baseURL ++ path) (.parse e))), st, []⟩)
    ∨ (∃ entries e, payload = some entries ∧ w.Marshal entries = .error e
      ∧ c.do w method path payload st
        = ⟨Response.zero, some (.wrapError "marshal payload: %w" e), st, []⟩)
    ∨ (∃ bodyBytes,
        c.do w method path payload st
          = c.attempts w method (c.baseURL ++ path) bodyBytes
              (wrapInt (c.retry.MaxRetries + 1)) (wrapInt (c.retry.MaxRetries + 1)).toNat 1
              st) := by
  unfold Client.do
  simp only
  cases hp : url.ParseRequestURI (c.baseURL ++ path) with
  | error e => exact Or.inl ⟨e, rfl, rfl⟩
  | ok u =>
    simp only
    cases payload with
    | none => exact Or.inr (Or.inr ⟨[], rfl⟩)
    | some entries =>
      simp only
      cases hm : w.Marshal entries with
      | error e => exact Or.inr (Or.inl ⟨entries, e, rfl, hm, rfl⟩)
      | ok bodyBytes => exact Or.inr (Or.inr ⟨bodyBytes, rfl⟩)

/-- C23: for every client, whatever the surroundings (the breaker, the
transport, the encoding, the waits) do:

* when `0 ≤ MaxRetries`, `do` does not return the fallback error, it asks the
  breaker at most `MaxRetries + 1` times and makes at most `MaxRetries + 1`
  round trips, and the loop gives the same run with any greater number of
  iterations allowed, so that it returns from inside within `MaxRetries + 1`
  iterations;
* the fallback error is returned only when `MaxRetries` is negative, and then
  nothing was attempted;
* when `MaxRetries` is negative, nothing is attempted, and the fallback error
  is what `do` returns as soon as the URL is valid and the payload can be
  encoded.

The number of attempts `maxAttempts` that `do` computes is taken to be the
number `MaxRetries + 1`, as it is for every `MaxRetries` that `config.Load`
accepts (`maxAttempts_of_range`). -/
theorem fallback_only_without_attempts {σ : Type} (c : Client) (w : World σ)
    (method path : GoString) (payload : Payload) (st : σ)
    (hsum : wrapInt (c.retry.MaxRetries + 1) = c.retry.MaxRetries + 1) :
    (0 ≤ c.retry.MaxRetries →
      (c.do w method path payload st).err
          ≠ some (.UpstreamErrorBare "green-api request failed after retries")
      ∧ (admissions (c.do w method path payload st).events : Int) ≤ c.retry.MaxRetries + 1
      ∧ ((transportResults (c.do w method path payload st).events).length : Int)
          ≤ c.retry.MaxRetries + 1
      ∧ ∀ (bodyBytes : List Nat) (fuel : Nat), c.retry.MaxRetries + 1 ≤ fuel →
          c.attempts w method (c.baseURL ++ path) bodyBytes (wrapInt (c.retry.MaxRetries + 1))
              fuel 1 st
            = c.attempts w method (c.baseURL ++ path) bodyBytes
                (wrapInt (c.retry.MaxRetries + 1)) (wrapInt (c.retry.MaxRetries + 1)).toNat
                1 st)
    ∧ ((c.do w method path payload st).err
          = some (.UpstreamErrorBare "green-api request failed after retries") →
      c.retry.MaxRetries < 0 ∧ (c.do w method path payload st).events = [])
    ∧ (c.retry.MaxRetries < 0 →
      (c.do w method path payload st).events = []
      ∧ ((∃ u, url.ParseRequestURI (c.baseURL ++ path) = .ok u) →
        (∀ entries, payload = some entries → ∃ bytes, w.Marshal entries = .ok bytes) →
        (c.do w method path payload st).err
            = some (.UpstreamErrorBare "green-api request failed after retries")
        ∧ (c.do w method path payload st).state = st)) := by
  -- the three ways of `do`
  have hways := do_early_or_loop c w method path payload st
  -- without attempts
  have hnone : c.retry.MaxRetries < 0 →
      (c.do w method path payload st).events = []
      ∧ ((∃ u, url.ParseRequestURI (c.baseURL ++ path) = .ok u) →
        (∀ entries, payload = some entries → ∃ bytes, w.Marshal entries = .ok bytes) →
        (c.do w method path payload st).err
            = some (.UpstreamErrorBare "green-api request failed after retries")
        ∧ (c.do w method path payload st).state = st) := by
    intro hM
    have hlt : ¬ (1 : Int) ≤ wrapInt (c.retry.MaxRetries + 1) := by
      rw [hsum]
      omega
    rcases hways with ⟨e, hp, h⟩ | ⟨entries, e, hpl, hm, h⟩ | ⟨bodyBytes, h⟩
    · refine ⟨by rw [h], ?_⟩
      rintro ⟨u, hu⟩ _
      rw [hp] at hu
      cases hu
    · refine ⟨by rw [h], ?_⟩
      intro _ henc
      obtain ⟨bytes, hb⟩ := henc entries hpl
      rw [hm] at hb
      cases hb
    · rw [h, attempts_exit c w method _ bodyBytes _ _ 1 st (Or.inr hlt)]
      exact ⟨rfl, fun _ _ => ⟨rfl, rfl⟩⟩
  -- with attempts
  have hsome : 0 ≤ c.retry.MaxRetries →
      (c.do w method path payload st).err
          ≠ some (.UpstreamErrorBare "green-api request failed after retries")
      ∧ (admissions (c.do w method path payload st).events : Int) ≤ c.retry.MaxRetries + 1
      ∧ ((transportResults (c.do w method path payload st).events).length : Int)
          ≤ c.retry.MaxRetries + 1
      ∧ ∀ (bodyBytes : List Nat) (fuel : Nat), c.retry.MaxRetries + 1 ≤ fuel →
          c.attempts w method (c.baseURL ++ path) bodyBytes (wrapInt (c.retry.MaxRetries + 1))
              fuel 1 st
            = c.attempts w method (c.baseURL ++ path) bodyBytes
                (wrapInt (c.retry.MaxRetries + 1)) (wrapInt (c.retry.MaxRetries + 1)).toNat
                1 st := by
    intro h0
    have htn : ((c.retry.MaxRetries + 1).toNat : Int) = c.retry.MaxRetries + 1 :=
      Int.toNat_of_nonneg (by omega)
    refine ⟨?_, ?_, ?_, ?_⟩
    · rcases hways with ⟨e, _, h⟩ | ⟨entries, e, _, _, h⟩ | ⟨bodyBytes, h⟩
      · rw [h]; simp
      · rw [h]; simp
      · rw [h, hsum]
        exact attempts_no_fallback c w method _ bodyBytes _ _ 1 st (by omega) (by omega)
    · rcases hways with ⟨e, _, h⟩ | ⟨entries, e, _, _, h⟩ | ⟨bodyBytes, h⟩
      · rw [h]; simp only [admissions, Nat.cast_zero]; omega
      · rw [h]; simp only [admissions, Nat.cast_zero]; omega
      · rw [h, hsum]
        have := (attempts_bound c w method (c.baseURL ++ path) bodyBytes
          (c.retry.MaxRetries + 1) (c.retry.MaxRetries + 1).toNat 1 st (by omega)).1
        omega
    · rcases hways with ⟨e, _, h⟩ | ⟨entries, e, _, _, h⟩ | ⟨bodyBytes, h⟩
      · rw [h]; simp only [transportResults, List.length_nil, Nat.cast_zero]; omega
      · rw [h]; simp only [transportResults, List.length_nil, Nat.cast_zero]; omega
      · rw [h, hsum]
        have := (attempts_bound c w method (c.baseURL ++ path) bodyBytes
          (c.retry.MaxRetries + 1) (c.retry.MaxRetries + 1).toNat 1 st (by omega)).2
        omega
    · intro bodyBytes fuel hfuel
      rw [hsum]
      exact attempts_fuel c w method _ bodyBytes _ fuel _ 1 st (by omega) (by omega)
  refine ⟨hsome, ?_, hnone⟩
  intro hfb
  have hM : c.retry.MaxRetries < 0 := by
    by_contra hcon
    exact (hsome (by omega)).1 hfb
  exact ⟨hM, (hnone hM).1⟩

/-- The configuration of the tests, with `MaxRetries = 2`, against a server
that answers every attempt with the status 500: the error is not the
fallback, and the breaker is asked at most three times for at most three
round trips. With `MaxRetries = -1`, nothing is attempted and the fallback
error is returned. -/
theorem fallback_only_without_attempts_witness :
    ((NewClient (testConfig (str "http://upstream"))).do (scriptWorld []) (str "GET")
        (str "/waInstance123/getSettings/token") none
        (answers (List.replicate 5 (http.Response.ofStatus 500 [])))).err
      ≠ some (.UpstreamErrorBare "green-api request failed after retries")
    ∧ (admissions ((NewClient (testConfig (str "http://upstream"))).do (scriptWorld [])
        (str "GET") (str "/waInstance123/getSettings/token") none
        (answers (List.replicate 5 (http.Response.ofStatus 500 [])))).events : Int) ≤ 2 + 1
    ∧ ((transportResults ((NewClient (testConfig (str "http://upstream"))).do (scriptWorld [])
        (str "GET") (str "/waInstance123/getSettings/token") none
        (answers (List.replicate 5 (http.Response.ofStatus 500 [])))).events).length : Int)
      ≤ 2 + 1
    ∧ (({ baseURL := str "http://upstream", retry := { MaxRetries := -1, DelaySeconds := 1 } }
        : Client).do (scriptWorld []) (str "GET") (str "/waInstance123/getSettings/token") none
        (answers [http.Response.ofStatus 200 []])).events = []
    ∧ (({ baseURL := str "http://upstream", retry := { MaxRetries := -1, DelaySeconds := 1 } }
        : Client).do (scriptWorld []) (str "GET") (str "/waInstance123/getSettings/token") none
        (answers [http.Response.ofStatus 200 []])).err
      = some (.UpstreamErrorBare "green-api request failed after retries") :=
  ⟨((fallback_only_without_attempts (NewClient (testConfig (str "http://upstream")))
      (scriptWorld []) (str "GET") (str "/waInstance123/getSettings/token") none
      (answers (List.replicate 5 (http.Response.ofStatus 500 [])))
      (maxAttempts_of_range _ (by decide))).1 (by decide)).1,
    ((fallback_only_without_attempts (NewClient (testConfig (str "http://upstream")))
      (scriptWorld []) (str "GET") (str "/waInstance123/getSettings/token") none
      (answers (List.replicate 5 (http.Response.ofStatus 500 [])))
      (maxAttempts_of_range _ (by decide))).1 (by decide)).2.1,
    ((fallback_only_without_attempts (NewClient (testConfig (str "http://upstream")))
      (scriptWorld []) (str "GET") (str "/waInstance123/getSettings/token") none
      (answers (List.replicate 5 (http.Response.ofStatus 500 [])))
      (maxAttempts_of_range _ (by decide))).1 (by decide)).2.2.1,
    ((fallback_only_without_attempts
      { baseURL := str "http://upstream", retry := { MaxRetries := -1, DelaySeconds := 1 } }
      (scriptWorld []) (str "GET") (str "/waInstance123/getSettings/token") none
      (answers [http.Response.ofStatus 200 []]) (by decide)).2.2 (by decide)).1,
    (((fallback_only_without_attempts
      { baseURL := str "http://upstream", retry := { MaxRetries := -1, DelaySeconds := 1 } }
      (scriptWorld []) (str "GET") (str "/waInstance123/getSettings/token") none
      (answers [http.Response.ofStatus 200 []]) (by decide)).2.2 (by decide)).2
      ⟨upstreamURL (str "/waInstance123/getSettings/token"), by decide⟩
      (fun entries h => nomatch h)).1⟩

end GreenAPI
